import Mathlib

/-!
# Verification of the quality-check rule engine (kellerai-coderabbit)

A shallow embedding, in Lean 4, of the pre-merge quality-check engine found in
`quality-checks/`: the five validators (security, architecture, test coverage,
performance, breaking changes), the orchestrator that aggregates their findings
(`quality_orchestrator.py`), and its JSON export.

The Python code is translated function by function.  External library behaviour
that the checks rely on is modelled explicitly:

* the `re` module is modelled by a small backtracking matcher (`QC.reM` below)
  over hand-translated pattern syntax trees; each pattern constant carries the
  original pattern text in a comment.  The matcher implements leftmost search,
  greedy quantifiers and left-preferring alternation exactly as CPython does for
  the pattern subset used here (no nested quantifiers, no nullable quantifier
  bodies).
* `ast.parse` / `ast.walk` / `ast.unparse` are modelled by a line-oriented
  parser (`QC.pyParse`) recovering the facts the checks consume: import
  statements, (async) function definitions with argument/return annotation
  text, and class definitions, each with 1-based line numbers.  Parse failure
  (CPython SyntaxError) is modelled for def/class/import lines the restricted
  grammar cannot parse.
* `json.dumps(..., indent=2)` and `json.loads` are modelled by a printer and a
  recursive-descent parser over an explicit value type; `json.dumps` raising
  `TypeError` on a non-serializable `Severity` enum member is modelled by an
  `Except` error.
* Python `dict`s are modelled as insertion-ordered association lists and
  Python `set`s as insertion-ordered duplicate-free lists; no settled claim
  depends on the (unspecified) iteration order of a Python `set` with more
  than one element.
-/

namespace QC

/-! ## Model of the `re` module (pattern subset used by the checks) -/

/-- One item of a character class: a literal character, a range, or one of the
shorthand classes. -/
inductive CItem
  | one (c : Char)
  | rng (a b : Char)
  | wordC
  | spaceC
  | digitC
deriving Repr, DecidableEq

/-- Pattern syntax trees for the regex subset appearing in the checks. -/
inductive RE
  | eps
  | ch (c : Char)
  | cls (neg : Bool) (items : List CItem)
  | dot
  | seq (a b : RE)
  | alt (a b : RE)
  | star (r : RE)
  | grp (i : Nat) (r : RE)
  | bos
  | wordB
deriving Repr, DecidableEq

/-- Python `\w` (ASCII part; the patterns here only meet ASCII input). -/
def isWordCh (c : Char) : Bool :=
  c.isAlphanum || c == '_'

/-- Python `\s`. -/
def isSpaceCh (c : Char) : Bool :=
  c == ' ' || c == '\t' || c == '\n' || c == '\r' || c == '\x0b' || c == '\x0c'

/-- Character comparison, optionally case-insensitive (re.IGNORECASE). -/
def chEq (ci : Bool) (a c : Char) : Bool :=
  if ci then a.toLower == c.toLower else a == c

/-- Does a class item accept character `c`? -/
def citemMatch (ci : Bool) (it : CItem) (c : Char) : Bool :=
  match it with
  | .one a => chEq ci a c
  | .rng a b =>
      (a ≤ c && c ≤ b)
        || (ci && ((a ≤ c.toLower && c.toLower ≤ b) || (a ≤ c.toUpper && c.toUpper ≤ b)))
  | .wordC => isWordCh c
  | .spaceC => isSpaceCh c
  | .digitC => c.isDigit

/-- Does a character class accept character `c`? -/
def clsMatch (ci : Bool) (neg : Bool) (items : List CItem) (c : Char) : Bool :=
  let m := items.any (fun it => citemMatch ci it c)
  if neg then !m else m

/-- Captured groups collected during a match (group index, captured text). -/
abbrev Caps := List (Nat × List Char)

/-- Record a capture; re-capturing a group keeps the latest text, as CPython
does. -/
def capSet (cp : Caps) (i : Nat) (t : List Char) : Caps :=
  match cp with
  | [] => [(i, t)]
  | (j, u) :: rest => if j == i then (i, t) :: rest else (j, u) :: capSet rest i t

/-- Word-character test on the optional character just outside the haystack
edge (used for `\b`; the edge counts as non-word). -/
def optWord : Option Char → Bool
  | some c => isWordCh c
  | none => false

/-- The continuation type of the backtracking matcher: previous character,
remaining input, captures so far. -/
abbrev MCont := Option Char → List Char → Caps → Option (List Char × Caps)

/-- One fuel level of the backtracking matcher, in continuation-passing style;
`starRec` resumes a `star` at the next-lower fuel level.  Greedy quantifiers
(try the longer continuation first) and left-preferring alternation, as in
CPython's backtracking engine. -/
def reMGo (ci : Bool) (starRec : RE → MCont → Option Char → List Char → Caps → Option (List Char × Caps)) :
    RE → Option Char → List Char → Caps → MCont → Option (List Char × Caps)
  | .eps, prev, s, cp, k => k prev s cp
  | .ch c, _prev, s, cp, k =>
      match s with
      | [] => none
      | a :: rest => if chEq ci c a then k (some a) rest cp else none
  | .cls neg items, _prev, s, cp, k =>
      match s with
      | [] => none
      | a :: rest => if clsMatch ci neg items a then k (some a) rest cp else none
  | .dot, _prev, s, cp, k =>
      match s with
      | [] => none
      | a :: rest => if a == '\n' then none else k (some a) rest cp
  | .seq a b, prev, s, cp, k =>
      reMGo ci starRec a prev s cp (fun p2 s2 c2 => reMGo ci starRec b p2 s2 c2 k)
  | .alt a b, prev, s, cp, k =>
      (reMGo ci starRec a prev s cp k).orElse (fun _ => reMGo ci starRec b prev s cp k)
  | .star r, prev, s, cp, k =>
      (reMGo ci starRec r prev s cp (fun p2 s2 c2 =>
        if s2.length < s.length then starRec (.star r) k p2 s2 c2 else none)).orElse
        (fun _ => k prev s cp)
  | .grp i r, prev, s, cp, k =>
      reMGo ci starRec r prev s cp
        (fun p2 s2 c2 => k p2 s2 (capSet c2 i (s.take (s.length - s2.length))))
  | .bos, prev, s, cp, k =>
      match prev with
      | none => k prev s cp
      | some _ => none
  | .wordB, prev, s, cp, k =>
      if optWord prev != optWord s.head? then k prev s cp else none

/-- Backtracking matcher.  `fuel` bounds `star` unfoldings; every `star` body
in the embedded patterns consumes at least one character, so
`fuel = input length + 1` makes the bound unreachable and the matcher agrees
with CPython on the pattern subset used here. -/
def reM (ci : Bool) : Nat → RE → Option Char → List Char → Caps → MCont →
    Option (List Char × Caps)
  | 0, r, prev, s, cp, k =>
      reMGo ci (fun _ k2 p2 s2 c2 => k2 p2 s2 c2) r prev s cp k
  | fuel + 1, r, prev, s, cp, k =>
      reMGo ci (fun r2 k2 p2 s2 c2 => reM ci fuel r2 p2 s2 c2 k2) r prev s cp k

/-- A regex match: absolute start/stop offsets, matched text (group 0) and
captured groups. -/
structure RMatch where
  mstart : Nat
  mstop : Nat
  mtext : List Char
  groups : Caps
deriving Repr, DecidableEq

/-- `m.group(i)` for `i ≥ 1`: `none` models Python `None`. -/
def RMatch.group? (m : RMatch) (i : Nat) : Option (List Char) :=
  (m.groups.find? (fun p => p.1 == i)).map (·.2)

/-- Attempt a match at the current position: returns number of characters
consumed and the captures. -/
def tryAt (ci : Bool) (re : RE) (prev : Option Char) (s : List Char) :
    Option (Nat × Caps) :=
  match reM ci (s.length + 1) re prev s [] (fun _ s2 c2 => some (s2, c2)) with
  | none => none
  | some (s2, c2) => some (s.length - s2.length, c2)

/-- Leftmost search from a given position (`re.search` scans positions left to
right and returns the first position where the pattern matches). -/
def searchAux (ci : Bool) (re : RE) :
    List Char → Option Char → Nat → Option RMatch
  | s, prev, pos =>
      match tryAt ci re prev s with
      | some (n, cp) => some ⟨pos, pos + n, s.take n, cp⟩
      | none =>
          match s with
          | [] => none
          | c :: rest => searchAux ci re rest (some c) (pos + 1)

/-- Model of `re.search(pattern, s)`, returning the match object. -/
def reSearch (ci : Bool) (re : RE) (s : List Char) : Option RMatch :=
  searchAux ci re s none 0

/-- Model of `bool(re.search(pattern, s))`. -/
def reTest (ci : Bool) (re : RE) (s : List Char) : Bool :=
  (reSearch ci re s).isSome

/-- Model of `re.match(pattern, s)` (anchored at position 0). -/
def reMatch0 (ci : Bool) (re : RE) (s : List Char) : Option RMatch :=
  match tryAt ci re none s with
  | some (n, cp) => some ⟨0, n, s.take n, cp⟩
  | none => none

/-- Worker for `re.finditer`: repeatedly search, resuming after each match
(after an empty match, one character further, as CPython does). -/
def finditerAux (ci : Bool) (re : RE) :
    Nat → List Char → Option Char → Nat → List RMatch
  | 0, _, _, _ => []
  | fuel + 1, s, prev, pos =>
      match searchAux ci re s prev pos with
      | none => []
      | some m =>
          let newPos := if m.mstop == m.mstart then m.mstop + 1 else m.mstop
          let k := newPos - pos
          let s2 := s.drop k
          let prev2 := (s.take k).getLast?
          m :: finditerAux ci re fuel s2 (if k == 0 then prev else prev2) newPos

/-- Model of `list(re.finditer(pattern, s))`. -/
def reFinditer (ci : Bool) (re : RE) (s : List Char) : List RMatch :=
  finditerAux ci re (s.length + 1) s none 0

/-! Pattern-building helpers. -/

/-- Literal character sequence. -/
def lits (s : String) : RE :=
  s.data.foldr (fun c acc => RE.seq (.ch c) acc) .eps

/-- Chain several pattern pieces in sequence. -/
def cat (rs : List RE) : RE :=
  rs.foldr RE.seq .eps

/-- Greedy `+`. -/
def rplus (r : RE) : RE :=
  .seq r (.star r)

/-- Greedy `?`. -/
def ropt (r : RE) : RE :=
  .alt r .eps

/-- `\s*`. -/
def wsStar : RE := .star (.cls false [.spaceC])

/-- `\s+`. -/
def wsPlus : RE := rplus (.cls false [.spaceC])

/-- `\w+`. -/
def wordPlus : RE := rplus (.cls false [.wordC])

/-- `["\']` — a quote character. -/
def quoteCls : RE := .cls false [.one '"', .one '\'']

/-- `[^"\']+` — one or more non-quote characters. -/
def notQuotePlus : RE := rplus (.cls true [.one '"', .one '\''])

/-- `[=:]`. -/
def eqColon : RE := .cls false [.one '=', .one ':']

/-- `[_-]?`. -/
def optUndDash : RE := ropt (.cls false [.one '_', .one '-'])

/-- `.*`. -/
def dotStar : RE := .star .dot

/-! ## Python string, dict and set models -/

/-- `text.split(sep)` for a one-character separator — note Python yields
`[""]` on the empty string and a trailing empty piece after a trailing
separator; this recursion does the same. -/
def splitCharL (sep : Char) : List Char → List (List Char)
  | [] => [[]]
  | c :: rest =>
      if c == sep then [] :: splitCharL sep rest
      else
        match splitCharL sep rest with
        | l :: ls => (c :: l) :: ls
        | [] => [[c]]

/-- `content.split('\n')`. -/
def splitNl (s : List Char) : List (List Char) :=
  splitCharL '\n' s

/-- `str.strip()` (default whitespace). -/
def pyStrip (s : List Char) : List Char :=
  ((s.dropWhile isSpaceCh).reverse.dropWhile isSpaceCh).reverse

/-- `str.lower()` (ASCII case mapping suffices for the embedded inputs). -/
def pyLower (s : List Char) : List Char :=
  s.map Char.toLower

/-- `a.startswith(b)`. -/
def startsWithL (s pre : List Char) : Bool :=
  pre.isPrefixOf s

/-- `needle in hay` (substring containment). -/
def containsSub (hay needle : List Char) : Bool :=
  match hay with
  | [] => needle.isEmpty
  | _ :: rest => needle.isPrefixOf hay || containsSub rest needle

/-- String-level substring containment, `needle in hay`. -/
def strIn (needle hay : String) : Bool :=
  containsSub hay.data needle.data

/-- `s.startswith(pre)` at the `String` level. -/
def strStartsWith (s pre : String) : Bool :=
  startsWithL s.data pre.data

/-- `s.endswith(suf)` at the `String` level. -/
def strEndsWith (s suf : String) : Bool :=
  startsWithL s.data.reverse suf.data.reverse

/-- `enumerate(lines, start)`: pair each element with its 1-based line number
when called with `start = 1`. -/
def withNums (start : Nat) : List α → List (α × Nat)
  | [] => []
  | x :: xs => (x, start) :: withNums (start + 1) xs

/-- Python `dict` model: insertion-ordered association list (inputs are assumed
duplicate-free, as a real `dict` is). -/
abbrev PyDict (α : Type) := List (String × α)

/-- `d.get(k)` / `d[k]` lookup. -/
def dictGet? (d : PyDict α) (k : String) : Option α :=
  (d.find? (fun p => p.1 == k)).map (·.2)

/-- `d[k] = v`: update in place if the key exists, else append (dicts preserve
insertion order). -/
def dictSet (d : PyDict α) (k : String) (v : α) : PyDict α :=
  match d with
  | [] => [(k, v)]
  | (k2, v2) :: rest => if k2 == k then (k, v) :: rest else (k2, v2) :: dictSet rest k v

/-- `list(d.keys())`. -/
def dictKeys (d : PyDict α) : List String :=
  d.map (·.1)

/-- Python `set` model: duplicate-free list in insertion order.  Iteration
order of a CPython set is hash-dependent; no settled claim depends on the
iteration order of a set with more than one element. -/
def pySetAdd (l : List String) (x : String) : List String :=
  if l.contains x then l else l ++ [x]

/-- Build a set from a list (`set(xs)`). -/
def pySetOf (xs : List String) : List String :=
  xs.foldl pySetAdd []

/-- Set difference `a - b` (kept in `a`'s order). -/
def pySetDiff (a b : List String) : List String :=
  a.filter (fun x => !(b.contains x))

/-- Truthiness of an optional string (`if s:`): present and non-empty. -/
def pyTruthy : Option String → Bool
  | some s => !s.isEmpty
  | none => false

/-! ## Model of the `ast` module (facts consumed by the checks)

`pyParse` models `ast.parse` + `ast.walk` on the statement kinds the checks
look at, recovering for each (possibly indented) line an import / from-import
/ (async) def / class fact with its 1-based line number.  A def/class/import
line the restricted grammar cannot parse makes the whole parse fail (`none`),
modelling a CPython `SyntaxError`; other lines carry no facts.  Argument and
return annotations are kept as trimmed source text, which coincides with
`ast.unparse` output for the simple annotations exercised here.  Known model
limits (not exercised by any settled claim): multi-line statements, strings
containing statement-like lines, and positional-only `/` markers. -/

/-- A function argument fact: name and optional annotation text (the model of
one entry of `node.args.args`). -/
structure PyArg where
  name : String
  annot : Option String
deriving Repr, DecidableEq

/-- A statement fact recovered from source text. -/
inductive PyStmt
  | importStmt (modules : List String) (line : Nat)
  | importFrom (module : String) (line : Nat)
  | funcDef (name : String) (args : List PyArg) (returns : Option String)
      (isAsync : Bool) (line endLine : Nat)
  | classDef (name : String) (line : Nat)
deriving Repr, DecidableEq

/-- Identifier test. -/
def isIdentL (s : List Char) : Bool :=
  match s with
  | [] => false
  | c :: rest => (c.isAlpha || c == '_') && rest.all (fun d => isWordCh d)

/-- Dotted-name test (`a.b.c`). -/
def isDottedL (s : List Char) : Bool :=
  !s.isEmpty && s.all (fun c => isWordCh c || c == '.')
    && s.head? != some '.' && s.getLast? != some '.'

/-- Opening bracket for nesting depth. -/
def isOpenBr (c : Char) : Bool :=
  c == '(' || c == '[' || c == Char.ofNat 123

/-- Closing bracket for nesting depth. -/
def isCloseBr (c : Char) : Bool :=
  c == ')' || c == ']' || c == Char.ofNat 125

/-- Split on commas at bracket depth 0. -/
def splitTopComma (s : List Char) : List (List Char) :=
  go s 0 []
where
  go : List Char → Nat → List Char → List (List Char)
    | [], _, acc => [acc.reverse]
    | c :: rest, depth, acc =>
        if depth == 0 && c == ',' then acc.reverse :: go rest 0 []
        else
          let depth2 := if isOpenBr c then depth + 1 else if isCloseBr c then depth - 1 else depth
          go rest depth2 (c :: acc)

/-- Index of the first character at bracket depth 0 satisfying `p`. -/
def findTopIdx (p : Char → Bool) (s : List Char) : Option Nat :=
  go s 0 0
where
  go : List Char → Nat → Nat → Option Nat
    | [], _, _ => none
    | c :: rest, depth, i =>
        if depth == 0 && p c then some i
        else
          let depth2 := if isOpenBr c then depth + 1 else if isCloseBr c then depth - 1 else depth
          go rest depth2 (i + 1)

/-- Index of the first occurrence of `needle` in `hay`. -/
def findSubIdx (hay needle : List Char) : Option Nat :=
  go hay 0
where
  go : List Char → Nat → Option Nat
    | [], i => if needle.isEmpty then some i else none
    | c :: rest, i => if needle.isPrefixOf (c :: rest) then some i else go rest (i + 1)

/-- Parse one piece of a def argument list into a `PyArg`
(`name`, `name: ann`, `name = d`, `name: ann = d`). -/
def parseArgPiece (piece : List Char) : Option PyArg :=
  let piece := pyStrip piece
  let (namePart, annPart) :=
    match findTopIdx (fun c => c == ':') piece with
    | some i => (piece.take i, some (piece.drop (i + 1)))
    | none => (piece, none)
  let nameTxt := pyStrip (match findTopIdx (fun c => c == '=') namePart with
    | some i => namePart.take i
    | none => namePart)
  let annTxt := annPart.map (fun a =>
    pyStrip (match findTopIdx (fun c => c == '=') a with
      | some i => a.take i
      | none => a))
  if isIdentL nameTxt then
    match annTxt with
    | some a => if a.isEmpty then none else some ⟨String.mk nameTxt, some (String.mk a)⟩
    | none => some ⟨String.mk nameTxt, none⟩
  else none

/-- Parse the pieces of a def argument list, modelling `node.args.args`:
everything from the first `*` marker on is vararg/keyword-only (not in
`args.args`), and bare `/` markers are skipped. -/
def parseArgPieces : List (List Char) → Option (List PyArg)
  | [] => some []
  | piece :: rest =>
      let p := pyStrip piece
      if p.isEmpty then
        if rest.isEmpty then some [] else none
      else if p.head? == some '*' then some []
      else if p == ['/'] then parseArgPieces rest
      else
        match parseArgPiece p, parseArgPieces rest with
        | some a, some as2 => some (a :: as2)
        | _, _ => none

/-- Parse a stripped `def`/`async def` line (the part after the `def `
keyword) into name, arguments and return-annotation text. -/
def parseDefRest (rest : List Char) : Option (String × List PyArg × Option String) :=
  match findTopIdx (fun c => c == '(') rest with
  | none => none
  | some i =>
      let nameTxt := pyStrip (rest.take i)
      let afterOpen := rest.drop (i + 1)
      if !isIdentL nameTxt then none
      else
        match closeIdx afterOpen 0 0 with
        | none => none
        | some j =>
            let argsTxt := afterOpen.take j
            let tail := pyStrip (afterOpen.drop (j + 1))
            match parseArgPieces (splitTopComma argsTxt) with
            | none => none
            | some args =>
                if startsWithL tail ['-', '>'] then
                  let retAndColon := pyStrip (tail.drop 2)
                  match findTopIdx (fun c => c == ':') retAndColon with
                  | none => none
                  | some m =>
                      let retTxt := pyStrip (retAndColon.take m)
                      if retTxt.isEmpty then none
                      else some (String.mk nameTxt, args, some (String.mk retTxt))
                else if tail.head? == some ':' then
                  some (String.mk nameTxt, args, none)
                else none
where
  /-- Index of the `)` closing the already-open paren. -/
  closeIdx : List Char → Nat → Nat → Option Nat
    | [], _, _ => none
    | c :: rest2, depth, i =>
        if depth == 0 && c == ')' then some i
        else
          let depth2 := if isOpenBr c then depth + 1 else if isCloseBr c then depth - 1 else depth
          closeIdx rest2 depth2 (i + 1)

/-- Parse the module list of an `import a, b as c` line. -/
def parseImportModules (rest : List Char) : Option (List String) :=
  let pieces := splitTopComma rest
  let parseOne := fun (p : List Char) =>
    let p := pyStrip p
    let base := match findSubIdx p [' ', 'a', 's', ' '] with
      | some i => pyStrip (p.take i)
      | none => p
    if isDottedL base then some (String.mk base) else none
  pieces.foldr (fun p acc =>
    match parseOne p, acc with
    | some m, some ms => some (m :: ms)
    | _, _ => none) (some [])

/-- Parse the indentation (number of leading spaces/tabs) of a raw line. -/
def indentOf (l : List Char) : Nat :=
  (l.takeWhile isSpaceCh).length

/-- Compute the model `end_lineno` of a block opened at 1-based line `i` with
indentation `ind`: the last following non-blank line whose indentation
exceeds `ind` (skipping interleaved blank lines), or `i` itself. -/
def blockEnd (linesAfter : List (List Char × Nat)) (ind : Nat) (i : Nat) : Nat :=
  match linesAfter with
  | [] => i
  | (l, n) :: rest =>
      if (pyStrip l).isEmpty then blockEnd rest ind i
      else if indentOf l > ind then blockEnd rest ind n
      else i

/-- Facts of one raw line (`none` = SyntaxError, `some []` = no fact). -/
def lineFacts (l : List Char) (n : Nat) (linesAfter : List (List Char × Nat)) :
    Option (List PyStmt) :=
  let s := pyStrip l
  if startsWithL s "import ".data then
    match parseImportModules (s.drop 7) with
    | some ms => some [.importStmt ms n]
    | none => none
  else if startsWithL s "from ".data then
    match findSubIdx s " import ".data with
    | some i =>
        let m := pyStrip ((s.take i).drop 5)
        if isDottedL m then some [.importFrom (String.mk m) n] else none
    | none => none
  else if startsWithL s "def ".data then
    match parseDefRest (s.drop 4) with
    | some (nm, args, ret) =>
        some [.funcDef nm args ret false n (blockEnd linesAfter (indentOf l) n)]
    | none => none
  else if startsWithL s "async def ".data then
    match parseDefRest (s.drop 10) with
    | some (nm, args, ret) =>
        some [.funcDef nm args ret true n (blockEnd linesAfter (indentOf l) n)]
    | none => none
  else if startsWithL s "class ".data then
    let nameTxt := pyStrip (((s.drop 6).takeWhile (fun c => c != '(' && c != ':')))
    if isIdentL nameTxt then some [.classDef (String.mk nameTxt) n] else none
  else
    some []

/-- Fact extraction over all lines. -/
def pyParseAux : List (List Char × Nat) → Option (List PyStmt)
  | [] => some []
  | (l, n) :: rest =>
      match lineFacts l n rest, pyParseAux rest with
      | some fs, some more => some (fs ++ more)
      | _, _ => none

/-- Model of `ast.parse` + `ast.walk`: the statement facts of a source text,
or `none` for a SyntaxError. -/
def pyParse (content : String) : Option (List PyStmt) :=
  pyParseAux (withNums 1 (splitNl content.data))

/-! ## `security_checks.py` -/

/-- `Severity` enum of `security_checks.py` (a pure `Enum`, not a `str`
subclass — its members have no `lower()` method). -/
inductive Severity
  | critical
  | high
  | medium
  | low
deriving Repr, DecidableEq

/-- `Severity.<member>.value`. -/
def Severity.value : Severity → String
  | .critical => "critical"
  | .high => "high"
  | .medium => "medium"
  | .low => "low"

/-- `SecurityFinding` dataclass. -/
structure SecurityFinding where
  check_name : String
  severity : Severity
  file_path : String
  line_number : Nat
  line_content : String
  message : String
  pattern_matched : String
  suggested_fix : String := ""
deriving Repr, DecidableEq

/-- One entry of `HardcodedCredentialsCheck.CREDENTIAL_PATTERNS`: translated
pattern, original pattern text (stored in `pattern_matched`), credential
type. -/
structure CredPattern where
  pat : RE
  src : String
  credType : String
deriving Repr, DecidableEq

/-- Key–value credential pattern shape `<key>\s*[=:]\s*["\'][^"\']+["\']`. -/
def kvPat (key : RE) : RE :=
  cat [key, wsStar, eqColon, wsStar, quoteCls, notQuotePlus, quoteCls]

/-- `HardcodedCredentialsCheck.CREDENTIAL_PATTERNS`. -/
def CREDENTIAL_PATTERNS : List CredPattern :=
  [ -- api[_-]?key\s*[=:]\s*["\'][^"\']+["\']
    ⟨kvPat (cat [lits "api", optUndDash, lits "key"]),
      "api[_-]?key\\s*[=:]\\s*[\"\\'][^\"\\']+[\"\\']", "API key"⟩,
    -- apikey\s*[=:]\s*["\'][^"\']+["\']
    ⟨kvPat (lits "apikey"),
      "apikey\\s*[=:]\\s*[\"\\'][^\"\\']+[\"\\']", "API key"⟩,
    -- aws[_-]?access[_-]?key[_-]?id\s*[=:]\s*["\'][^"\']+["\']
    ⟨kvPat (cat [lits "aws", optUndDash, lits "access", optUndDash, lits "key",
        optUndDash, lits "id"]),
      "aws[_-]?access[_-]?key[_-]?id\\s*[=:]\\s*[\"\\'][^\"\\']+[\"\\']", "AWS access key"⟩,
    -- aws[_-]?secret[_-]?access[_-]?key\s*[=:]\s*["\'][^"\']+["\']
    ⟨kvPat (cat [lits "aws", optUndDash, lits "secret", optUndDash, lits "access",
        optUndDash, lits "key"]),
      "aws[_-]?secret[_-]?access[_-]?key\\s*[=:]\\s*[\"\\'][^\"\\']+[\"\\']", "AWS secret key"⟩,
    -- password\s*[=:]\s*["\'][^"\']+["\']
    ⟨kvPat (lits "password"),
      "password\\s*[=:]\\s*[\"\\'][^\"\\']+[\"\\']", "Password"⟩,
    -- passwd\s*[=:]\s*["\'][^"\']+["\']
    ⟨kvPat (lits "passwd"),
      "passwd\\s*[=:]\\s*[\"\\'][^\"\\']+[\"\\']", "Password"⟩,
    -- pwd\s*[=:]\s*["\'][^"\']+["\']
    ⟨kvPat (lits "pwd"),
      "pwd\\s*[=:]\\s*[\"\\'][^\"\\']+[\"\\']", "Password"⟩,
    -- token\s*[=:]\s*["\'][^"\']+["\']
    ⟨kvPat (lits "token"),
      "token\\s*[=:]\\s*[\"\\'][^\"\\']+[\"\\']", "Token"⟩,
    -- auth[_-]?token\s*[=:]\s*["\'][^"\']+["\']
    ⟨kvPat (cat [lits "auth", optUndDash, lits "token"]),
      "auth[_-]?token\\s*[=:]\\s*[\"\\'][^\"\\']+[\"\\']", "Auth token"⟩,
    -- bearer\s*[=:]\s*["\'][^"\']+["\']
    ⟨kvPat (lits "bearer"),
      "bearer\\s*[=:]\\s*[\"\\'][^\"\\']+[\"\\']", "Bearer token"⟩,
    -- -----BEGIN (RSA|DSA|EC|OPENSSH) PRIVATE KEY-----
    ⟨cat [lits "-----BEGIN ",
        .grp 1 (.alt (lits "RSA") (.alt (lits "DSA") (.alt (lits "EC") (lits "OPENSSH")))),
        lits " PRIVATE KEY-----"],
      "-----BEGIN (RSA|DSA|EC|OPENSSH) PRIVATE KEY-----", "Private key"⟩,
    -- db[_-]?password\s*[=:]\s*["\'][^"\']+["\']
    ⟨kvPat (cat [lits "db", optUndDash, lits "password"]),
      "db[_-]?password\\s*[=:]\\s*[\"\\'][^\"\\']+[\"\\']", "Database password"⟩,
    -- database[_-]?url\s*[=:]\s*["\'].*:[^@]+@.*["\']
    ⟨cat [lits "database", optUndDash, lits "url", wsStar, eqColon, wsStar, quoteCls,
        dotStar, .ch ':', rplus (.cls true [.one '@']), .ch '@', dotStar, quoteCls],
      "database[_-]?url\\s*[=:]\\s*[\"\\'].*:[^@]+@.*[\"\\']", "Database connection string"⟩,
    -- client[_-]?secret\s*[=:]\s*["\'][^"\']+["\']
    ⟨kvPat (cat [lits "client", optUndDash, lits "secret"]),
      "client[_-]?secret\\s*[=:]\\s*[\"\\'][^\"\\']+[\"\\']", "Client secret"⟩,
    -- jwt[_-]?secret\s*[=:]\s*["\'][^"\']+["\']
    ⟨kvPat (cat [lits "jwt", optUndDash, lits "secret"]),
      "jwt[_-]?secret\\s*[=:]\\s*[\"\\'][^\"\\']+[\"\\']", "JWT secret"⟩ ]

/-- `HardcodedCredentialsCheck.EXCLUDE_PATTERNS` (translated). -/
def EXCLUDE_PATTERNS : List RE :=
  [ cat [lits "test", optUndDash],                       -- test[_-]?
    lits "example",
    lits "sample",
    lits "demo",
    lits "fake",
    lits "mock",
    lits "placeholder",
    cat [lits "xx", rplus (.ch 'x')],                    -- xxx+
    cat [.ch '<', rplus (.cls true [.one '>']), .ch '>'] -- <[^>]+>
  ]

/-- `HardcodedCredentialsCheck._is_excluded`. -/
def isExcluded (matchedText : List Char) : Bool :=
  EXCLUDE_PATTERNS.any (fun p => reTest true p matchedText)

/-- Comment-line test of `HardcodedCredentialsCheck.check`:
`line.strip().startswith('#') or line.strip().startswith('//')`. -/
def isCommentLine (line : List Char) : Bool :=
  startsWithL (pyStrip line) ['#'] || startsWithL (pyStrip line) ['/', '/']

/-- `HardcodedCredentialsCheck.check`. -/
def hardcodedCredentialsCheck (file_path content : String) : List SecurityFinding :=
  (withNums 1 (splitNl content.data)).flatMap (fun ln =>
    let line := ln.1
    if isCommentLine line then []
    else
      CREDENTIAL_PATTERNS.flatMap (fun cp =>
        (reFinditer true cp.pat line).filterMap (fun m =>
          if isExcluded m.mtext then none
          else some
            { check_name := "hardcoded_credentials"
              severity := .critical
              file_path := file_path
              line_number := ln.2
              line_content := String.mk (pyStrip line)
              message := "Hardcoded " ++ cp.credType ++
                " detected. Use environment variables or AWS Secrets Manager."
              pattern_matched := cp.src
              suggested_fix := "Use: value = os.getenv('VARIABLE_NAME')" })))

/-- One entry of `SQLInjectionCheck.SQL_INJECTION_PATTERNS`. -/
structure SqlPattern where
  pat : RE
  src : String
  vulnType : String

/-- `SQLInjectionCheck.SQL_INJECTION_PATTERNS`. -/
def SQL_INJECTION_PATTERNS : List SqlPattern :=
  [ -- execute\s*\(\s*["\'].*\{\}.*["\'].*\.format
    ⟨cat [lits "execute", wsStar, .ch '(', wsStar, quoteCls, dotStar, .ch '{', .ch '}',
        dotStar, quoteCls, dotStar, .ch '.', lits "format"],
      "execute\\s*\\(\\s*[\"\\'].*\\\x7b\\\x7d.*[\"\\'].*\\.format",
      "String formatting in SQL query"⟩,
    -- execute\s*\(\s*f["\'].*\{.*\}.*["\']
    ⟨cat [lits "execute", wsStar, .ch '(', wsStar, .ch 'f', quoteCls, dotStar, .ch '{',
        dotStar, .ch '}', dotStar, quoteCls],
      "execute\\s*\\(\\s*f[\"\\'].*\\\x7b.*\\\x7d.*[\"\\']",
      "F-string in SQL query"⟩,
    -- execute\s*\(\s*["\'].*%s.*["\'].*%\s*[^(]
    ⟨cat [lits "execute", wsStar, .ch '(', wsStar, quoteCls, dotStar, lits "%s",
        dotStar, quoteCls, dotStar, .ch '%', wsStar, .cls true [.one '(']],
      "execute\\s*\\(\\s*[\"\\'].*%s.*[\"\\'].*%\\s*[^(]",
      "Old-style string formatting in SQL"⟩,
    -- raw\s*\(\s*f["\']
    ⟨cat [lits "raw", wsStar, .ch '(', wsStar, .ch 'f', quoteCls],
      "raw\\s*\\(\\s*f[\"\\']", "F-string in raw SQL"⟩,
    -- cursor\.execute\s*\(\s*f["\']
    ⟨cat [lits "cursor", .ch '.', lits "execute", wsStar, .ch '(', wsStar, .ch 'f', quoteCls],
      "cursor\\.execute\\s*\\(\\s*f[\"\\']", "F-string in cursor.execute"⟩,
    -- (SELECT|INSERT|UPDATE|DELETE).*\+\s*\w+
    ⟨cat [.grp 1 (.alt (lits "SELECT") (.alt (lits "INSERT")
        (.alt (lits "UPDATE") (lits "DELETE")))), dotStar, .ch '+', wsStar, wordPlus],
      "(SELECT|INSERT|UPDATE|DELETE).*\\+\\s*\\w+",
      "String concatenation in SQL"⟩ ]

/-- `SQLInjectionCheck.check`. -/
def sqlInjectionCheck (file_path content : String) : List SecurityFinding :=
  (withNums 1 (splitNl content.data)).flatMap (fun ln =>
    SQL_INJECTION_PATTERNS.filterMap (fun sp =>
      if reTest true sp.pat ln.1 then
        some
          { check_name := "sql_injection"
            severity := .critical
            file_path := file_path
            line_number := ln.2
            line_content := String.mk (pyStrip ln.1)
            message := "Potential SQL injection: " ++ sp.vulnType ++
              ". Use parameterized queries."
            pattern_matched := sp.src
            suggested_fix :=
              "Use: cursor.execute('SELECT * FROM users WHERE id = %s', (user_id,))" }
      else none))

/-- One entry of `SensitiveDataLoggingCheck.SENSITIVE_PATTERNS`. -/
structure SensPattern where
  pat : RE
  src : String
  dataType : String
  sev : Severity

/-- `SensitiveDataLoggingCheck.SENSITIVE_PATTERNS`. -/
def SENSITIVE_PATTERNS : List SensPattern :=
  [ ⟨cat [lits "log", dotStar, lits "password"], "log.*password", "password", .high⟩,
    ⟨cat [lits "log", dotStar, lits "token"], "log.*token", "authentication token", .high⟩,
    ⟨cat [lits "log", dotStar, lits "secret"], "log.*secret", "secret", .high⟩,
    ⟨cat [lits "log", dotStar, lits "api", optUndDash, lits "key"],
      "log.*api[_-]?key", "API key", .high⟩,
    ⟨cat [lits "log", dotStar, lits "ssn"], "log.*ssn", "SSN", .critical⟩,
    ⟨cat [lits "log", dotStar, lits "social", optUndDash, lits "security"],
      "log.*social[_-]?security", "social security number", .critical⟩,
    ⟨cat [lits "log", dotStar, lits "credit", optUndDash, lits "card"],
      "log.*credit[_-]?card", "credit card", .critical⟩,
    ⟨cat [lits "log", dotStar, lits "cvv"], "log.*cvv", "CVV", .critical⟩,
    ⟨cat [lits "log", dotStar, lits "driver", optUndDash, lits "license"],
      "log.*driver[_-]?license", "driver's license", .high⟩,
    ⟨cat [lits "log", dotStar, lits "auth"], "log.*auth", "authentication data", .medium⟩,
    ⟨cat [lits "log", dotStar, lits "session"], "log.*session", "session data", .medium⟩ ]

/-- `SensitiveDataLoggingCheck.check`. -/
def sensitiveDataLoggingCheck (file_path content : String) : List SecurityFinding :=
  (withNums 1 (splitNl content.data)).flatMap (fun ln =>
    SENSITIVE_PATTERNS.filterMap (fun sp =>
      if reTest true sp.pat ln.1 then
        some
          { check_name := "sensitive_data_logging"
            severity := sp.sev
            file_path := file_path
            line_number := ln.2
            line_content := String.mk (pyStrip ln.1)
            message := "Potential logging of " ++ sp.dataType ++
              ". Redact sensitive fields before logging."
            pattern_matched := sp.src
            suggested_fix := "Redact " ++ sp.dataType ++
              " or use structured logging with field exclusion" }
      else none))

/-- One entry of `UnsafeDeserializationCheck.UNSAFE_PATTERNS`. -/
structure UnsafePattern where
  pat : RE
  src : String
  unsafeFunc : String
  fix : String

/-- `UnsafeDeserializationCheck.UNSAFE_PATTERNS` (matched case-sensitively). -/
def UNSAFE_PATTERNS : List UnsafePattern :=
  [ -- pickle\.loads?\s*\(
    ⟨cat [lits "pickle", .ch '.', lits "load", ropt (.ch 's'), wsStar, .ch '('],
      "pickle\\.loads?\\s*\\(", "pickle.load", "Use json.loads or safe serialization"⟩,
    -- yaml\.load\s*\([^,)]*\)
    ⟨cat [lits "yaml", .ch '.', lits "load", wsStar, .ch '(',
        .star (.cls true [.one ',', .one ')']), .ch ')'],
      "yaml\\.load\\s*\\([^,)]*\\)", "yaml.load without Loader", "Use yaml.safe_load"⟩,
    -- eval\s*\(
    ⟨cat [lits "eval", wsStar, .ch '('],
      "eval\\s*\\(", "eval()", "Avoid eval; use ast.literal_eval for literals"⟩,
    -- exec\s*\(
    ⟨cat [lits "exec", wsStar, .ch '('],
      "exec\\s*\\(", "exec()", "Redesign to avoid dynamic code execution"⟩,
    -- __import__\s*\(
    ⟨cat [lits "__import__", wsStar, .ch '('],
      "__import__\\s*\\(", "__import__()", "Use importlib.import_module with validation"⟩ ]

/-- `UnsafeDeserializationCheck.check`. -/
def unsafeDeserializationCheck (file_path content : String) : List SecurityFinding :=
  (withNums 1 (splitNl content.data)).flatMap (fun ln =>
    UNSAFE_PATTERNS.filterMap (fun up =>
      if reTest false up.pat ln.1 then
        some
          { check_name := "unsafe_deserialization"
            severity := .critical
            file_path := file_path
            line_number := ln.2
            line_content := String.mk (pyStrip ln.1)
            message := "Unsafe deserialization: " ++ up.unsafeFunc ++
              ". This allows arbitrary code execution."
            pattern_matched := up.src
            suggested_fix := up.fix }
      else none))

/-- `SecurityValidator.validate_file`: the four checks in registration
order. -/
def securityValidateFile (file_path content : String) : List SecurityFinding :=
  hardcodedCredentialsCheck file_path content
    ++ sqlInjectionCheck file_path content
    ++ sensitiveDataLoggingCheck file_path content
    ++ unsafeDeserializationCheck file_path content

/-- `SecurityValidator.validate_pr_changes`: per-file findings, keeping only
files with findings. -/
def securityValidatePrChanges (changed : PyDict String) :
    PyDict (List SecurityFinding) :=
  changed.filterMap (fun fc =>
    let fs := securityValidateFile fc.1 fc.2
    if fs.isEmpty then none else some (fc.1, fs))

/-! ## `architecture_checks.py` -/

/-- `ArchitectureFinding` dataclass. -/
structure ArchitectureFinding where
  check_name : String
  severity : String
  file_path : String
  line_number : Nat
  message : String
  violated_rule : String
  suggested_fix : String := ""
deriving Repr, DecidableEq

/-- One entry of `LayerSeparationCheck.LAYERS` (the dict iterates in insertion
order: controller, service, repository, model). -/
structure LayerConfig where
  name : String
  paths : List String
  allowed : List String
  prohibited : List String

/-- `LayerSeparationCheck.LAYERS`. -/
def LAYERS : List LayerConfig :=
  [ ⟨"controller", ["api/", "controllers/"], ["service", "model"], ["repository"]⟩,
    ⟨"service", ["services/", "business/"], ["repository", "model"], ["controller", "api"]⟩,
    ⟨"repository", ["repositories/", "data/"], ["model"], ["controller", "api", "service"]⟩,
    ⟨"model", ["models/", "entities/"], [], ["controller", "api", "service", "repository"]⟩ ]

/-- An import fact as `LayerSeparationCheck._extract_imports` returns it. -/
structure ImportStmt where
  itype : String
  module : String
  line : Nat
deriving Repr, DecidableEq

/-- Regex fallback of `_extract_imports`: `(?:from|import)\s+([\w.]+)`. -/
def patImportFallback : RE :=
  cat [.alt (lits "from") (lits "import"), wsPlus, .grp 1 (rplus (.cls false [.wordC, .one '.']))]

/-- `LayerSeparationCheck._extract_imports`: `ast` facts, or the per-line
regex fallback on a SyntaxError. -/
def extractImports (content : String) : List ImportStmt :=
  match pyParse content with
  | some stmts =>
      stmts.flatMap (fun st =>
        match st with
        | .importStmt ms n => ms.map (fun m => ⟨"import", m, n⟩)
        | .importFrom m n => [⟨"from", m, n⟩]
        | _ => [])
  | none =>
      (withNums 1 (splitNl content.data)).filterMap (fun ln =>
        match reSearch false patImportFallback ln.1 with
        | some m => (m.group? 1).map (fun g => ⟨"import", String.mk g, ln.2⟩)
        | none => none)

/-- `LayerSeparationCheck._identify_layer`: first layer one of whose path
markers occurs in the file path. -/
def identifyLayer (file_path : String) : Option LayerConfig :=
  LAYERS.find? (fun lc => lc.paths.any (fun p => strIn p file_path))

/-- `indicator.strip('/')`. -/
def stripSlashes (s : String) : List Char :=
  ((s.data.dropWhile (· == '/')).reverse.dropWhile (· == '/')).reverse

/-- `self.LAYERS[name]` — raises `KeyError` when `name` is not a key, which
happens for the prohibited name `api` (it is a path marker of the controller
layer, not a layer key). -/
def layerLookup (nm : String) : Except String LayerConfig :=
  match LAYERS.find? (fun lc => lc.name == nm) with
  | some lc => .ok lc
  | none => .error ("KeyError: '" ++ nm ++ "'")

/-- `LayerSeparationCheck._import_references_layer` — reads
`self.LAYERS[layer]['paths']`, so it raises `KeyError` on the layer name
`api`. -/
def importReferencesLayer (imp : ImportStmt) (nm : String) : Except String Bool :=
  match layerLookup nm with
  | .error e => .error e
  | .ok lc =>
      .ok (lc.paths.any (fun ind => containsSub (pyLower imp.module.data) (stripSlashes ind)))

/-- `str.title()` for the layer names. -/
def pyTitle (s : String) : String :=
  String.mk (go s.data false)
where
  go : List Char → Bool → List Char
    | [], _ => []
    | c :: rest, prevAlpha =>
        (if c.isAlpha && !prevAlpha then c.toUpper
         else if c.isAlpha then c.toLower else c) :: go rest c.isAlpha

/-- Join string parts with a separator (`sep.join(parts)`). -/
def strJoin (sep : String) : List String → String
  | [] => ""
  | [x] => x
  | x :: rest => x ++ sep ++ strJoin sep rest

/-- Python `repr` of a list of strings (f-string interpolation of
`allowed_dependencies`). -/
def pyListRepr (xs : List String) : String :=
  "[" ++ strJoin ", " (xs.map (fun x => "'" ++ x ++ "'")) ++ "]"

/-- The finding `LayerSeparationCheck.check` appends for one import and one
prohibited layer. -/
def mkLayerFinding (lc : LayerConfig) (file_path : String) (imp : ImportStmt)
    (pl : String) : ArchitectureFinding :=
  { check_name := "layer_separation"
    severity := "medium"
    file_path := file_path
    line_number := imp.line
    message := pyTitle lc.name ++ " layer must not depend on " ++ pl ++ " layer"
    violated_rule := lc.name ++ " → " ++ pl ++ " (prohibited)"
    suggested_fix := "Use dependency injection to invert the dependency or refactor to use "
      ++ pyListRepr lc.allowed }

/-- Inner loop of `LayerSeparationCheck.check` over the prohibited layer
names of one import; propagates the `KeyError`. -/
def layerSepOverProhibited (lc : LayerConfig) (file_path : String) (imp : ImportStmt) :
    List String → Except String (List ArchitectureFinding)
  | [] => .ok []
  | pl :: rest =>
      match importReferencesLayer imp pl with
      | .error e => .error e
      | .ok b =>
          match layerSepOverProhibited lc file_path imp rest with
          | .error e => .error e
          | .ok fs => .ok ((if b then [mkLayerFinding lc file_path imp pl] else []) ++ fs)

/-- Outer loop of `LayerSeparationCheck.check` over the imports. -/
def layerSepOverImports (lc : LayerConfig) (file_path : String) :
    List ImportStmt → Except String (List ArchitectureFinding)
  | [] => .ok []
  | imp :: rest =>
      match layerSepOverProhibited lc file_path imp lc.prohibited with
      | .error e => .error e
      | .ok fs =>
          match layerSepOverImports lc file_path rest with
          | .error e => .error e
          | .ok more => .ok (fs ++ more)

/-- `LayerSeparationCheck.check`.  The result is fallible: checking any
module import of a service-, repository- or model-layer file reaches the
prohibited name `api`, and `self.LAYERS['api']` raises `KeyError`. -/
def layerSeparationCheck (file_path content : String) :
    Except String (List ArchitectureFinding) :=
  match identifyLayer file_path with
  | none => .ok []
  | some lc => layerSepOverImports lc file_path (extractImports content)

/-- `from\s+fastapi\s+import.*Depends`. -/
def patFastapiDepends : RE :=
  cat [lits "from", wsPlus, lits "fastapi", wsPlus, lits "import", dotStar, lits "Depends"]

/-- `Depends\s*\(`. -/
def patDependsCall : RE :=
  cat [lits "Depends", wsStar, .ch '(']

/-- `@app\.(get|post|put|delete|patch)`. -/
def patAppRoute : RE :=
  cat [.ch '@', lits "app", .ch '.',
    .grp 1 (.alt (lits "get") (.alt (lits "post") (.alt (lits "put")
      (.alt (lits "delete") (lits "patch")))))]

/-- `@router\.(get|post|put|delete|patch)`. -/
def patRouterRoute : RE :=
  cat [.ch '@', lits "router", .ch '.',
    .grp 1 (.alt (lits "get") (.alt (lits "post") (.alt (lits "put")
      (.alt (lits "delete") (lits "patch")))))]

/-- `@(app|router)\.\w+`. -/
def patAnyRoute : RE :=
  cat [.ch '@', .grp 1 (.alt (lits "app") (lits "router")), .ch '.', wordPlus]

/-- `DependencyInjectionCheck.check`: controller/API files with route
decorators but no FastAPI `Depends` usage get one finding at the first route
decorator line (report once per file). -/
def dependencyInjectionCheck (file_path content : String) : List ArchitectureFinding :=
  if !(strIn "api/" file_path || strIn "controllers/" file_path) then []
  else
    let has_depends := reTest false patFastapiDepends content.data
    let has_depends_usage := reTest false patDependsCall content.data
    if !has_depends || !has_depends_usage then
      let has_routes := reTest false patAppRoute content.data || reTest false patRouterRoute content.data
      if has_routes then
        match (withNums 1 (splitNl content.data)).find? (fun ln => reTest false patAnyRoute ln.1) with
        | some ln =>
            [{ check_name := "dependency_injection"
               severity := "medium"
               file_path := file_path
               line_number := ln.2
               message := "Use FastAPI Depends() for dependency injection in API routes"
               violated_rule := "Missing dependency injection pattern"
               suggested_fix := "from fastapi import Depends\n\ndef get_service() -> MyService:\n    return MyService()\n\n@app.get('/endpoint')\ndef endpoint(service: MyService = Depends(get_service)):" }]
        | none => []
      else []
    else []

/-- One entry of `AsyncPatternsCheck.SYNC_LIBRARIES` (dict insertion order:
requests, psycopg2, pymongo, redis). -/
structure SyncLib where
  libName : String
  pat : RE
  alternative : String
  message : String

/-- `AsyncPatternsCheck.SYNC_LIBRARIES`. -/
def SYNC_LIBRARIES : List SyncLib :=
  [ -- requests\.(get|post|put|delete|patch|head|options)
    ⟨"requests",
      cat [lits "requests", .ch '.',
        .grp 1 (.alt (lits "get") (.alt (lits "post") (.alt (lits "put")
          (.alt (lits "delete") (.alt (lits "patch") (.alt (lits "head") (lits "options")))))))],
      "httpx.AsyncClient", "Use httpx.AsyncClient instead of requests in async functions"⟩,
    -- import\s+psycopg2
    ⟨"psycopg2", cat [lits "import", wsPlus, lits "psycopg2"],
      "asyncpg", "Use asyncpg instead of psycopg2 in async functions"⟩,
    -- import\s+pymongo
    ⟨"pymongo", cat [lits "import", wsPlus, lits "pymongo"],
      "motor", "Use motor (async MongoDB driver) instead of pymongo in async functions"⟩,
    -- import\s+redis\b
    ⟨"redis", cat [lits "import", wsPlus, lits "redis", .wordB],
      "aioredis", "Use aioredis instead of redis in async functions"⟩ ]

/-- Regex fallback of `_find_async_functions`: `async\s+def\s+(\w+)`, matched
(anchored) against each raw line. -/
def patAsyncDef : RE :=
  cat [lits "async", wsPlus, lits "def", wsPlus, .grp 1 wordPlus]

/-- `AsyncPatternsCheck._find_async_functions`: `(start_line, end_line, name)`
triples from `ast`, or the 20-line heuristic span on a SyntaxError. -/
def findAsyncFunctions (content : String) : List (Nat × Nat × String) :=
  match pyParse content with
  | some stmts =>
      stmts.filterMap (fun st =>
        match st with
        | .funcDef n _ _ true l e => some (l, e, n)
        | _ => none)
  | none =>
      (withNums 1 (splitNl content.data)).filterMap (fun ln =>
        if (reMatch0 false patAsyncDef ln.1).isSome then some (ln.2, ln.2 + 20, "unknown")
        else none)

/-- `AsyncPatternsCheck._is_in_async_function`. -/
def isInAsyncFunction (line_num : Nat) (fns : List (Nat × Nat × String)) : Bool :=
  fns.any (fun f => f.1 ≤ line_num && line_num ≤ f.2.1)

/-- 1-based line number of a character offset
(`content[:match.start()].count('\n') + 1`). -/
def lineOfPos (s : List Char) (pos : Nat) : Nat :=
  (s.take pos).count '\n' + 1

/-- `AsyncPatternsCheck.check`. -/
def asyncPatternsCheck (file_path content : String) : List ArchitectureFinding :=
  let fns := findAsyncFunctions content
  if fns.isEmpty then []
  else
    SYNC_LIBRARIES.flatMap (fun lib =>
      (reFinditer false lib.pat content.data).filterMap (fun m =>
        let line_num := lineOfPos content.data m.mstart
        if isInAsyncFunction line_num fns then
          some
            { check_name := "async_patterns"
              severity := "medium"
              file_path := file_path
              line_number := line_num
              message := lib.message
              violated_rule := "Sync library '" ++ lib.libName ++ "' in async context"
              suggested_fix := "Use " ++ lib.alternative ++ " for async I/O operations" }
        else none))

/-- `CircularDependencyCheck._path_to_module`:
`file_path.replace('/', '.').replace('.py', '')`. -/
def replaceSubAux (needle repl : List Char) : Nat → List Char → List Char
  | 0, s => s
  | _, [] => []
  | fuel + 1, c :: rest =>
      if needle.isPrefixOf (c :: rest) then
        repl ++ replaceSubAux needle repl fuel (rest.drop (needle.length - 1))
      else c :: replaceSubAux needle repl fuel rest

/-- `s.replace(needle, repl)` (left-to-right, non-overlapping; `needle`
non-empty at both use sites). -/
def pyReplace (s needle repl : String) : String :=
  String.mk (replaceSubAux needle.data repl.data s.data.length s.data)

/-- `CircularDependencyCheck._path_to_module`. -/
def pathToModule (file_path : String) : String :=
  pyReplace (pyReplace file_path "/" ".") ".py" ""

/-- The import pattern of `_build_dependency_graph`:
`from\s+([\w.]+)\s+import|import\s+([\w.]+)`. -/
def patGraphImport : RE :=
  .alt (cat [lits "from", wsPlus, .grp 1 (rplus (.cls false [.wordC, .one '.'])), wsPlus, lits "import"])
       (cat [lits "import", wsPlus, .grp 2 (rplus (.cls false [.wordC, .one '.']))])

/-- `CircularDependencyCheck._build_dependency_graph`: module name to the set
of first components of its imports. -/
def buildDependencyGraph (files : PyDict String) : PyDict (List String) :=
  files.foldl (fun g fc =>
    let m := pathToModule fc.1
    let g := dictSet g m []
    (reFinditer false patGraphImport fc.2.data).foldl (fun g2 mt =>
      match (mt.group? 1).orElse (fun _ => mt.group? 2) with
      | some imp =>
          if imp.isEmpty then g2
          else
            dictSet g2 m (pySetAdd ((dictGet? g2 m).getD []) (String.mk (imp.takeWhile (· != '.'))))
      | none => g2) g) []

/-- Mutable state of `_find_cycles`: the `visited` set, the explicit
recursion stack (in push order) and the recorded cycles. -/
structure DfsState where
  visited : List String
  recStack : List String
  cycles : List (List String)

/-- `rec_stack.index(neighbor)`: index of the first occurrence. -/
def pyIndex (l : List String) (x : String) : Nat :=
  match l with
  | [] => 0
  | y :: rest => if y == x then 0 else pyIndex rest x + 1

/-- The recursive `dfs` of `_find_cycles`.  `fuel` bounds the recursion
depth; each recursive call is made on an unvisited node and marks it visited,
so a fuel of (number of nodes + number of edges + 1) is never exhausted. -/
def dfsVisit (graph : PyDict (List String)) : Nat → String → DfsState → DfsState
  | 0, _, st => st
  | fuel + 1, node, st =>
      let st := { st with visited := pySetAdd st.visited node,
                          recStack := st.recStack ++ [node] }
      let st :=
        match dictGet? graph node with
        | some neighbors =>
            neighbors.foldl (fun (st2 : DfsState) (nb : String) =>
              if !st2.visited.contains nb then dfsVisit graph fuel nb st2
              else if st2.recStack.contains nb then
                { st2 with cycles := st2.cycles ++ [st2.recStack.drop (pyIndex st2.recStack nb)] }
              else st2) st
        | none => st
      { st with recStack := st.recStack.dropLast }

/-- Fuel that the depth-first traversal can never exhaust. -/
def dfsFuel (graph : PyDict (List String)) : Nat :=
  graph.foldl (fun n p => n + 1 + p.2.length) 1

/-- `CircularDependencyCheck._find_cycles`. -/
def findCycles (graph : PyDict (List String)) : List (List String) :=
  (graph.foldl (fun st p =>
    if !st.visited.contains p.1 then dfsVisit graph (dfsFuel graph) p.1 st else st)
    ⟨[], [], []⟩).cycles

/-- `CircularDependencyCheck.check_project`. -/
def circularDependencyCheckProject (files : PyDict String) : List ArchitectureFinding :=
  let graph := buildDependencyGraph files
  (findCycles graph).map (fun cycle =>
    let cycleStr := strJoin " → " (cycle ++ [cycle.headD ""])
    { check_name := "circular_dependency"
      severity := "high"
      file_path := cycle.headD ""
      line_number := 1
      message := "Circular dependency detected: " ++ cycleStr
      violated_rule := "No circular dependencies allowed"
      suggested_fix := "Refactor to use dependency inversion or extract shared dependencies to a common module" })

/-- `ArchitectureValidator.validate_file`: the three per-file checks in
registration order (fallible through the layer-separation `KeyError`). -/
def architectureValidateFile (file_path content : String) :
    Except String (List ArchitectureFinding) :=
  match layerSeparationCheck file_path content with
  | .error e => .error e
  | .ok fs =>
      .ok (fs ++ dependencyInjectionCheck file_path content
              ++ asyncPatternsCheck file_path content)

/-- Per-file loop of `ArchitectureValidator.validate_project`. -/
def archPerFile : List (String × String) → Except String (PyDict (List ArchitectureFinding))
  | [] => .ok []
  | fc :: rest =>
      match architectureValidateFile fc.1 fc.2 with
      | .error e => .error e
      | .ok fs =>
          match archPerFile rest with
          | .error e => .error e
          | .ok res => .ok (if fs.isEmpty then res else (fc.1, fs) :: res)

/-- Appending one circular-dependency finding to the per-file results dict
(the `results[finding.file_path].append(finding)` step of
`validate_project`). -/
def mergeCircFinding (res : PyDict (List ArchitectureFinding))
    (f : ArchitectureFinding) : PyDict (List ArchitectureFinding) :=
  match dictGet? res f.file_path with
  | some fs => dictSet res f.file_path (fs ++ [f])
  | none => res ++ [(f.file_path, [f])]

/-- `ArchitectureValidator.validate_project`: per-file checks, then the
project-wide cycle check appended per file path. -/
def architectureValidateProject (files : PyDict String) :
    Except String (PyDict (List ArchitectureFinding)) :=
  match archPerFile files with
  | .error e => .error e
  | .ok results =>
      .ok ((circularDependencyCheckProject files).foldl mergeCircFinding results)

/-! ## `test_coverage_checks.py` -/

/-- `TestCoverageFinding` dataclass. -/
structure TestCoverageFinding where
  check_name : String
  severity : String
  file_path : String
  function_name : String
  line_number : Nat
  message : String
  suggested_fix : String := ""
deriving Repr, DecidableEq

/-- Path components in the sense of `pathlib` (empty and `.` components
dropped). -/
def pathComps (p : String) : List String :=
  ((splitCharL '/' p.data).map String.mk).filter (fun c => c != "" && c != ".")

/-- `Path(p).name`. -/
def pathName (p : String) : String :=
  (pathComps p).getLastD ""

/-- `Path(p).parent.name`. -/
def pathParentName (p : String) : String :=
  ((pathComps p).dropLast).getLastD ""

/-- `str(Path(p).parent)`. -/
def pathParentStr (p : String) : String :=
  let comps := (pathComps p).dropLast
  if comps.isEmpty then "." else strJoin "/" comps

/-- `NewFunctionsHaveTestsCheck._should_skip_file`. -/
def shouldSkipFile (file_path : String) : Bool :=
  ["test_", "__init__.py", "migrations/", "scripts/", "config/", ".example"].any
    (fun pat => strIn pat file_path)

/-- Regex fallback of `NewFunctionsHaveTestsCheck._extract_functions`:
`^def\s+([a-zA-Z_][a-zA-Z0-9_]*)\s*\(`, matched against each stripped line. -/
def patDefLine : RE :=
  cat [.bos, lits "def", wsPlus,
    .grp 1 (.seq (.cls false [.rng 'a' 'z', .rng 'A' 'Z', .one '_'])
      (.star (.cls false [.rng 'a' 'z', .rng 'A' 'Z', .rng '0' '9', .one '_']))),
    wsStar, .ch '(']

/-- `NewFunctionsHaveTestsCheck._extract_functions`: public function names
with line numbers; regex fallback on a SyntaxError. -/
def extractFunctions (content : String) : List (String × Nat) :=
  match pyParse content with
  | some stmts =>
      stmts.filterMap (fun st =>
        match st with
        | .funcDef n _ _ _ l _ => if strStartsWith n "_" then none else some (n, l)
        | _ => none)
  | none =>
      (withNums 1 (splitNl content.data)).filterMap (fun ln =>
        match reMatch0 false patDefLine (pyStrip ln.1) with
        | some m =>
            match m.group? 1 with
            | some g =>
                if strStartsWith (String.mk g) "_" then none else some (String.mk g, ln.2)
            | none => none
        | none => none)

/-- `NewFunctionsHaveTestsCheck._find_test_file`: first test-file key that
contains one of the conventional path patterns as a substring. -/
def findTestFile (source_path : String) (test_files : PyDict String) : Option String :=
  let filename := pathName source_path
  let patterns :=
    [ "tests/test_" ++ filename,
      "tests/" ++ pathParentName source_path ++ "/test_" ++ filename,
      "test_" ++ filename,
      pathParentStr source_path ++ "/test_" ++ filename ]
  patterns.firstM (fun pat =>
    (dictKeys test_files).find? (fun tp => strIn pat tp))

/-- `NewFunctionsHaveTestsCheck._suggest_test_file_path`. -/
def suggestTestFilePath (source_path : String) : String :=
  "tests/" ++ pathParentName source_path ++ "/test_" ++ pathName source_path

/-- `NewFunctionsHaveTestsCheck._has_test_for_function`:
`def\s+test_<name>\s*\(` (function names are identifiers, so interpolating
them into the pattern is literal). -/
def hasTestForFunction (func_name : String) (test_content : String) : Bool :=
  reTest false (cat [lits "def", wsPlus, lits ("test_" ++ func_name), wsStar, .ch '(']) test_content.data

/-- `NewFunctionsHaveTestsCheck.check`. -/
def newFunctionsHaveTestsCheck (changed_files test_files : PyDict String) :
    List TestCoverageFinding :=
  changed_files.flatMap (fun fc =>
    if shouldSkipFile fc.1 then []
    else
      let new_functions := extractFunctions fc.2
      match findTestFile fc.1 test_files with
      | none =>
          if !new_functions.isEmpty then
            [{ check_name := "new_functions_have_tests"
               severity := "medium"
               file_path := fc.1
               function_name := "(all functions)"
               line_number := 1
               message := "No test file found for " ++ fc.1 ++ ". Create tests for new functions."
               suggested_fix := "Create " ++ suggestTestFilePath fc.1 }]
          else []
      | some test_file_path =>
          let test_content := (dictGet? test_files test_file_path).getD ""
          new_functions.filterMap (fun fn =>
            if !hasTestForFunction fn.1 test_content then
              some
                { check_name := "new_functions_have_tests"
                  severity := "medium"
                  file_path := fc.1
                  function_name := fn.1
                  line_number := fn.2
                  message := "Function '" ++ fn.1 ++ "' has no corresponding test"
                  suggested_fix := "Add test_" ++ fn.1 ++ " in " ++ test_file_path }
            else none))

/-- `BugFixRegressionTestCheck.BUG_FIX_PATTERNS`. -/
def BUG_FIX_PATTERNS : List RE :=
  [ .seq .bos (lits "fix"),                  -- ^fix
    .seq .bos (lits "bug"),                  -- ^bug
    cat [.wordB, lits "fix", .wordB],        -- \bfix\b
    cat [.wordB, lits "bug", .wordB],        -- \bbug\b
    cat [.wordB, lits "regression", .wordB]  -- \bregression\b
  ]

/-- `BugFixRegressionTestCheck._is_bug_fix_pr`. -/
def isBugFixPr (title description : String) : Bool :=
  let combined := pyLower (title ++ " " ++ description).data
  BUG_FIX_PATTERNS.any (fun p => reTest true p combined)

/-- `BugFixRegressionTestCheck._has_new_or_modified_tests`. -/
def hasNewOrModifiedTests (changed_files : PyDict String) : Bool :=
  (dictKeys changed_files).any (fun fp =>
    ["test_", "/tests/", "_test.py"].any (fun pat => strIn pat fp))

/-- `BugFixRegressionTestCheck.check` — note the PR-level finding carries
line number 0. -/
def bugFixRegressionTestCheck (pr_title pr_description : String)
    (changed_files : PyDict String) : List TestCoverageFinding :=
  if !isBugFixPr pr_title pr_description then []
  else if !hasNewOrModifiedTests changed_files then
    [{ check_name := "bug_fix_regression_tests"
       severity := "high"
       file_path := "(pull request)"
       function_name := "N/A"
       line_number := 0
       message := "Bug fix PR should include regression tests to prevent reoccurrence"
       suggested_fix := "Add test cases that reproduce the bug and verify the fix" }]
  else []

/-- `TestQualityCheck._has_assertions` (case-sensitive searches). -/
def hasAssertions (content : String) : Bool :=
  [ cat [.wordB, lits "assert", rplus (.cls false [.spaceC])],  -- \bassert\s+
    cat [.ch '.', lits "assert"],                       -- \.assert
    cat [lits "self", .ch '.', lits "assertEqual"],     -- self\.assertEqual
    cat [lits "self", .ch '.', lits "assertTrue"]       -- self\.assertTrue
  ].any (fun p => reTest false p content.data)

/-- `TestQualityCheck._has_fixtures_or_setup`. -/
def hasFixturesOrSetup (content : String) : Bool :=
  [ cat [.ch '@', lits "pytest", .ch '.', lits "fixture"],   -- @pytest\.fixture
    cat [lits "def", wsPlus, lits "setUp", wsStar, .ch '('],  -- def\s+setUp\s*\(
    cat [lits "def", wsPlus, lits "tearDown", wsStar, .ch '('],  -- def\s+tearDown\s*\(
    cat [.ch '@', lits "conftest"]                            -- @conftest
  ].any (fun p => reTest false p content.data)

/-- `len(re.findall(r'def\s+test_', content))`. -/
def countTestDefs (content : String) : Nat :=
  (reFinditer false (cat [lits "def", wsPlus, lits "test_"]) content.data).length

/-- `TestQualityCheck.check`. -/
def testQualityCheck (test_files : PyDict String) : List TestCoverageFinding :=
  test_files.flatMap (fun fc =>
    (if !hasAssertions fc.2 then
      [{ check_name := "test_quality"
         severity := "high"
         file_path := fc.1
         function_name := "N/A"
         line_number := 1
         message := "Test file has no assertions. Tests should include assert statements."
         suggested_fix := "Add assert statements to verify expected behavior" }]
    else []) ++
    (if !hasFixturesOrSetup fc.2 then
      let test_count := countTestDefs fc.2
      if test_count > 5 then
        [{ check_name := "test_quality"
           severity := "low"
           file_path := fc.1
           function_name := "N/A"
           line_number := 1
           message := "Test file with " ++ toString test_count ++
             " tests should use fixtures/setup for shared test data"
           suggested_fix := "Use pytest fixtures or setUp/tearDown methods for test initialization" }]
      else []
    else []))

/-- `TestCoverageValidator.validate_pr`. -/
def testCoverageValidatePr (pr_title pr_description : String)
    (changed_files : PyDict String) : List TestCoverageFinding :=
  let test_files := changed_files.filter (fun fc =>
    strIn "test_" fc.1 || strIn "/tests/" fc.1)
  let source_files := changed_files.filter (fun fc =>
    !(strIn "test_" fc.1 || strIn "/tests/" fc.1) && strEndsWith fc.1 ".py")
  newFunctionsHaveTestsCheck source_files test_files
    ++ bugFixRegressionTestCheck pr_title pr_description changed_files
    ++ testQualityCheck test_files

/-! ## `performance_checks.py` -/

/-- `PerformanceFinding` dataclass. -/
structure PerformanceFinding where
  check_name : String
  severity : String
  file_path : String
  line_number : Nat
  line_content : String
  message : String
  impact : String
  suggested_fix : String := ""
deriving Repr, DecidableEq

/-- `NPlusOneQueryCheck.QUERY_PATTERNS`. -/
def QUERY_PATTERNS : List RE :=
  [ -- \.(get|filter|query|select|find)\s*\(
    cat [.ch '.', .grp 1 (.alt (lits "get") (.alt (lits "filter") (.alt (lits "query")
      (.alt (lits "select") (lits "find"))))), wsStar, .ch '('],
    -- \.get_object_or_404\s*\(
    cat [.ch '.', lits "get_object_or_404", wsStar, .ch '('],
    -- \.objects\.
    cat [.ch '.', lits "objects", .ch '.'] ]

/-- `NPlusOneQueryCheck.LOOP_PATTERNS`. -/
def LOOP_PATTERNS : List RE :=
  [ -- for\s+\w+\s+in\s+
    cat [lits "for", wsPlus, wordPlus, wsPlus, lits "in", wsPlus],
    -- \[.*for\s+.*in\s+.*\]  (list comprehension)
    cat [.ch '[', dotStar, lits "for", wsPlus, dotStar, lits "in", wsPlus, dotStar, .ch ']'] ]

/-- `NPlusOneQueryCheck.check`. -/
def nPlusOneQueryCheck (file_path content : String) : List PerformanceFinding :=
  let lines := splitNl content.data
  let has_orm := ["sqlalchemy", "django.db", "peewee", "tortoise"].any
    (fun p => containsSub content.data p.data)
  if !has_orm then []
  else
    (withNums 0 lines).flatMap (fun ln =>
      let i := ln.2
      let is_loop := LOOP_PATTERNS.any (fun p => reTest false p ln.1)
      if is_loop then
        let look_ahead := min 20 (lines.length - i)
        if ((List.range look_ahead).drop 1).any (fun j =>
            QUERY_PATTERNS.any (fun q => reTest false q (lines.getD (i + j) []))) then
          [{ check_name := "n_plus_one_queries"
             severity := "high"
             file_path := file_path
             line_number := i + 1
             line_content := String.mk (pyStrip ln.1)
             message := "Potential N+1 query detected: database query inside loop"
             impact := "O(n) database queries - severe performance degradation with large datasets"
             suggested_fix := "Use eager loading: SQLAlchemy joinedload()/selectinload(), Django select_related()/prefetch_related()" }]
        else []
      else [])

/-- One entry of `DatabaseIndexCheck.FOREIGN_KEY_PATTERNS`. -/
structure FkPattern where
  fkPat : RE
  indexPat : RE
  fkType : String

/-- `DatabaseIndexCheck.FOREIGN_KEY_PATTERNS`. -/
def FOREIGN_KEY_PATTERNS : List FkPattern :=
  [ -- (ForeignKey\s*\([^)]*\), index=True|db_index=True)
    ⟨cat [lits "ForeignKey", wsStar, .ch '(', .star (.cls true [.one ')']), .ch ')'],
      .alt (lits "index=True") (lits "db_index=True"), "ForeignKey"⟩,
    -- (relationship\s*\([^)]*\), index=True)
    ⟨cat [lits "relationship", wsStar, .ch '(', .star (.cls true [.one ')']), .ch ')'],
      lits "index=True", "Relationship"⟩ ]

/-- `DatabaseIndexCheck.check`. -/
def databaseIndexCheck (file_path content : String) : List PerformanceFinding :=
  if !(strIn "models/" file_path || strIn "model.py" file_path) then []
  else
    let lines := splitNl content.data
    (withNums 1 lines).flatMap (fun ln =>
      FOREIGN_KEY_PATTERNS.filterMap (fun fk =>
        if reTest false fk.fkPat ln.1 then
          let context_start := ln.2 - 2
          let context_end := min lines.length (ln.2 + 2)
          let context := strJoin "\n"
            (((lines.drop context_start).take (context_end - context_start)).map String.mk)
          if !reTest false fk.indexPat context.data then
            some
              { check_name := "missing_database_indexes"
                severity := "medium"
                file_path := file_path
                line_number := ln.2
                line_content := String.mk (pyStrip ln.1)
                message := fk.fkType ++ " without database index"
                impact := "Slow query performance on joins and lookups"
                suggested_fix := "Add index=True or db_index=True to the " ++ fk.fkType ++ " definition" }
          else none
        else none))

/-- `\s*for\s+\w+\s+in\s+` (used with `re.match`). -/
def patIndentFor : RE :=
  cat [wsStar, lits "for", wsPlus, wordPlus, wsPlus, lits "in", wsPlus]

/-- `AlgorithmComplexityCheck._check_nested_loops`.  The indent stack is kept
head-first (the head is Python's `indent_stack[-1]`). -/
def checkNestedLoopsAux (file_path : String) :
    List (List Char × Nat) → List (Nat × Nat) → List PerformanceFinding
  | [], _ => []
  | (line, n) :: rest, stack =>
      if (reMatch0 false patIndentFor line).isSome then
        let indent := indentOf line
        let stack2 := stack.dropWhile (fun e => e.2 ≥ indent)
        (if !stack2.isEmpty then
          [{ check_name := "algorithm_complexity"
             severity := "medium"
             file_path := file_path
             line_number := n
             line_content := String.mk (pyStrip line)
             message := "Nested loops detected - potential O(nÂ²) complexity"
             impact := "Performance degrades quadratically with input size"
             suggested_fix := "Consider using more efficient algorithms or data structures (dict, set for lookups)" }]
        else [])
          ++ checkNestedLoopsAux file_path rest ((n, indent) :: stack2)
      else checkNestedLoopsAux file_path rest stack

/-- One entry of the inefficient-list-operation table. -/
structure IneffPattern where
  pat : RE
  suggestion : String

/-- `_check_inefficient_list_ops` patterns. -/
def INEFFICIENT_PATTERNS : List IneffPattern :=
  [ -- (\w+)\s*in\s*range\(len\((\w+)\)\)
    ⟨cat [.grp 1 wordPlus, wsStar, lits "in", wsStar, lits "range", .ch '(', lits "len",
        .ch '(', .grp 2 wordPlus, .ch ')', .ch ')'],
      "Use enumerate() instead of range(len())"⟩,
    -- (\w+)\.append\(.*\)\s*#.*loop
    ⟨cat [.grp 1 wordPlus, .ch '.', lits "append", .ch '(', dotStar, .ch ')', wsStar,
        .ch '#', dotStar, lits "loop"],
      "Consider list comprehension for better performance"⟩ ]

/-- `AlgorithmComplexityCheck._check_inefficient_list_ops`. -/
def checkInefficientListOps (file_path : String) (lines : List (List Char × Nat)) :
    List PerformanceFinding :=
  lines.flatMap (fun ln =>
    INEFFICIENT_PATTERNS.filterMap (fun ip =>
      if reTest false ip.pat ln.1 then
        some
          { check_name := "algorithm_complexity"
            severity := "low"
            file_path := file_path
            line_number := ln.2
            line_content := String.mk (pyStrip ln.1)
            message := "Inefficient list operation"
            impact := "Minor performance overhead"
            suggested_fix := ip.suggestion }
      else none))

/-- `len\(\w+\)`. -/
def patLenCall : RE :=
  cat [lits "len", .ch '(', wordPlus, .ch ')']

/-- `AlgorithmComplexityCheck._check_loop_invariants` (the `in_loop` flag is
threaded through the line scan; a `for` line turns it on, a blank or
unindented line turns it off). -/
def checkLoopInvariantsAux (file_path : String) :
    List (List Char × Nat) → Bool → List PerformanceFinding
  | [], _ => []
  | (line, n) :: rest, inLoop =>
      let inLoop2 :=
        if (reMatch0 false patIndentFor line).isSome then true
        else if inLoop && ((pyStrip line).isEmpty
            || !(match line.head? with | some c => isSpaceCh c | none => false)) then false
        else inLoop
      (if inLoop2 && reTest false patLenCall line then
        [{ check_name := "algorithm_complexity"
           severity := "low"
           file_path := file_path
           line_number := n
           line_content := String.mk (pyStrip line)
           message := "len() called inside loop - consider moving outside if list doesn't change"
           impact := "Repeated function calls add overhead"
           suggested_fix := "Store len() result before loop if the collection size is invariant" }]
      else [])
        ++ checkLoopInvariantsAux file_path rest inLoop2

/-- `AlgorithmComplexityCheck.check`. -/
def algorithmComplexityCheck (file_path content : String) : List PerformanceFinding :=
  if strIn "test_" file_path || strIn "/tests/" file_path then []
  else
    let lines := withNums 1 (splitNl content.data)
    checkNestedLoopsAux file_path lines []
      ++ checkInefficientListOps file_path lines
      ++ checkLoopInvariantsAux file_path lines false

/-- One entry of `MemoryLeakCheck.LEAK_PATTERNS`. -/
structure LeakPattern where
  pat : RE
  issue : String

/-- `MemoryLeakCheck.LEAK_PATTERNS` (matched with IGNORECASE). -/
def LEAK_PATTERNS : List LeakPattern :=
  [ -- global\s+\w+\s*=\s*\[\]
    ⟨cat [lits "global", wsPlus, wordPlus, wsStar, .ch '=', wsStar, .ch '[', .ch ']'],
      "Global mutable collection can grow unbounded"⟩,
    -- cache\s*=\s*\{\}
    ⟨cat [lits "cache", wsStar, .ch '=', wsStar, .ch '{', .ch '}'],
      "Unbounded cache can cause memory issues"⟩,
    -- \.append\(.*\)\s*#.*never.*clear
    ⟨cat [.ch '.', lits "append", .ch '(', dotStar, .ch ')', wsStar, .ch '#', dotStar,
        lits "never", dotStar, lits "clear"],
      "Append without clear can accumulate memory"⟩ ]

/-- `MemoryLeakCheck.check`. -/
def memoryLeakCheck (file_path content : String) : List PerformanceFinding :=
  (withNums 1 (splitNl content.data)).flatMap (fun ln =>
    LEAK_PATTERNS.filterMap (fun lp =>
      if reTest true lp.pat ln.1 then
        some
          { check_name := "memory_leak"
            severity := "medium"
            file_path := file_path
            line_number := ln.2
            line_content := String.mk (pyStrip ln.1)
            message := "Potential memory leak: " ++ lp.issue
            impact := "Memory usage grows over time, causing OOM errors"
            suggested_fix := "Use LRU cache, implement size limits, or periodic cleanup" }
      else none))

/-- `PerformanceValidator.validate_file`. -/
def performanceValidateFile (file_path content : String) : List PerformanceFinding :=
  nPlusOneQueryCheck file_path content
    ++ databaseIndexCheck file_path content
    ++ algorithmComplexityCheck file_path content
    ++ memoryLeakCheck file_path content

/-- `PerformanceValidator.validate_pr`. -/
def performanceValidatePr (changed : PyDict String) : PyDict (List PerformanceFinding) :=
  changed.filterMap (fun fc =>
    let fs := performanceValidateFile fc.1 fc.2
    if fs.isEmpty then none else some (fc.1, fs))

/-! ## `breaking_changes_checks.py` -/

/-- `BreakingChangeFinding` dataclass. -/
structure BreakingChangeFinding where
  check_name : String
  severity : String
  file_path : String
  line_number : Nat
  change_type : String
  element_name : String
  message : String
  requires_changelog : Bool := true
  suggested_changelog_entry : String := ""
deriving Repr, DecidableEq

/-- The per-function dict built by
`APISignatureChangeCheck._extract_signatures` (all four entries take part in
the `old_sig != new_sig` comparison, including the line number). -/
structure PySig where
  signature : String
  line : Nat
  params : List String
  return_type : String
deriving Repr, DecidableEq

/-- Loop of `APISignatureChangeCheck._extract_signatures`: public function
name to signature record; `ast.walk` order with later same-name defs
overwriting earlier ones. -/
def extractSignaturesAux : List PyStmt → PyDict PySig → PyDict PySig
  | [], sigs => sigs
  | st :: rest, sigs =>
      extractSignaturesAux rest
        (match st with
         | .funcDef n args ret _ l _ =>
             if strStartsWith n "_" then sigs
             else
               let params := args.map (fun a =>
                 match a.annot with
                 | some t => a.name ++ ": " ++ t
                 | none => a.name)
               let return_type :=
                 match ret with
                 | some r => " -> " ++ r
                 | none => ""
               dictSet sigs n
                 ⟨"(" ++ strJoin ", " params ++ ")" ++ return_type, l, params, return_type⟩
         | _ => sigs)

/-- `APISignatureChangeCheck._extract_signatures`; `{}` on a SyntaxError. -/
def extractSignatures (content : String) : PyDict PySig :=
  match pyParse content with
  | some stmts => extractSignaturesAux stmts []
  | none => []

/-- `'api' in path_parts or 'controllers' in path_parts`. -/
def isApiPath (file_path : String) : Bool :=
  (pathComps file_path).contains "api" || (pathComps file_path).contains "controllers"

/-- `APISignatureChangeCheck.check`. -/
def apiSignatureChangeCheck (file_path : String) (old_content : Option String)
    (new_content : String) : List BreakingChangeFinding :=
  if !isApiPath file_path then []
  else
    match old_content with
    | none => []
    | some oc =>
        let old_signatures := extractSignatures oc
        let new_signatures := extractSignatures new_content
        let modified := old_signatures.flatMap (fun os =>
          match dictGet? new_signatures os.1 with
          | some ns =>
              if os.2 != ns then
                [{ check_name := "api_signature_changes"
                   severity := "high"
                   file_path := file_path
                   line_number := ns.line
                   change_type := "modified"
                   element_name := os.1
                   message := "API signature changed for '" ++ os.1 ++ "'"
                   requires_changelog := true
                   suggested_changelog_entry := "- **CHANGED**: `" ++ os.1 ++
                     "` signature modified. Old: " ++ os.2.signature ++ ", New: " ++ ns.signature }]
              else []
          | none => [])
        let removed := pySetDiff (pySetOf (dictKeys old_signatures))
          (pySetOf (dictKeys new_signatures))
        modified ++ removed.map (fun fn =>
          { check_name := "api_signature_changes"
            severity := "critical"
            file_path := file_path
            line_number := 1
            change_type := "deleted"
            element_name := fn
            message := "Public API function '" ++ fn ++ "' was removed"
            requires_changelog := true
            suggested_changelog_entry := "- **REMOVED**: `" ++ fn ++ "` (BREAKING CHANGE)" })

/-- The public classes and functions of
`RemovedPublicMethodsCheck._extract_public_elements` (insertion-ordered
sets). -/
structure PubElements where
  classes : List String
  functions : List String
deriving Repr, DecidableEq

/-- `RemovedPublicMethodsCheck._extract_public_elements`. -/
def extractPublicElements (content : String) : PubElements :=
  match pyParse content with
  | some stmts =>
      stmts.foldl (fun (e : PubElements) st =>
        match st with
        | .classDef n _ =>
            if (match n.data.head? with | some c => c.isUpper | none => false)
                && !(strStartsWith n "_") then
              { e with classes := pySetAdd e.classes n }
            else e
        | .funcDef n _ _ _ _ _ =>
            if !(strStartsWith n "_") then { e with functions := pySetAdd e.functions n } else e
        | _ => e) ⟨[], []⟩
  | none => ⟨[], []⟩

/-- `RemovedPublicMethodsCheck.check`.  The first branch needs a truthy
(non-empty) `old_content` together with `new_content is None`; after it,
either argument being `None` returns no findings. -/
def removedPublicMethodsCheck (file_path : String)
    (old_content new_content : Option String) : List BreakingChangeFinding :=
  match old_content, new_content with
  | some oc, none =>
      if !oc.isEmpty then
        let pe := extractPublicElements oc
        if !pe.classes.isEmpty || !pe.functions.isEmpty then
          [{ check_name := "removed_public_methods"
             severity := "critical"
             file_path := file_path
             line_number := 1
             change_type := "deleted_file"
             element_name := file_path
             message := "File with " ++ toString pe.classes.length ++
               " public classes and " ++ toString pe.functions.length ++
               " public functions was deleted"
             requires_changelog := true
             suggested_changelog_entry := "- **BREAKING CHANGE**: Removed " ++ file_path ++
               " with public APIs" }]
        else []
      else []
  | none, _ => []
  | some oc, some nc =>
      let old_elements := extractPublicElements oc
      let new_elements := extractPublicElements nc
      (pySetDiff old_elements.classes new_elements.classes).map (fun cn =>
        { check_name := "removed_public_methods"
          severity := "critical"
          file_path := file_path
          line_number := 1
          change_type := "deleted_class"
          element_name := cn
          message := "Public class '" ++ cn ++ "' was removed"
          requires_changelog := true
          suggested_changelog_entry := "- **BREAKING CHANGE**: Removed class `" ++ cn ++ "`" })
      ++ (pySetDiff old_elements.functions new_elements.functions).map (fun fn =>
        { check_name := "removed_public_methods"
          severity := "critical"
          file_path := file_path
          line_number := 1
          change_type := "deleted_function"
          element_name := fn
          message := "Public function '" ++ fn ++ "' was removed"
          requires_changelog := true
          suggested_changelog_entry := "- **BREAKING CHANGE**: Removed function `" ++ fn ++ "`" })

/-- `os.path.basename` (text after the last slash). -/
def pathBase (p : String) : String :=
  (((splitCharL '/' p.data).map String.mk)).getLastD ""

/-- `## \[(Unreleased|\d+\.\d+\.\d+)\]`. -/
def patVersionHeader : RE :=
  let digPlus := rplus (.cls false [.digitC])
  cat [lits "## [",
    .grp 1 (.alt (lits "Unreleased") (cat [digPlus, .ch '.', digPlus, .ch '.', digPlus])),
    .ch ']']

/-- `ChangelogRequirementCheck._has_proper_changelog_format`. -/
def hasProperChangelogFormat (content : String) : Bool :=
  reTest false patVersionHeader content.data

/-- `ChangelogRequirementCheck._generate_changelog_template`. -/
def generateChangelogTemplate (breaking_changes : List BreakingChangeFinding) : String :=
  strJoin "\n" (["## [Unreleased]", "", "### BREAKING CHANGES", ""]
    ++ breaking_changes.filterMap (fun c =>
      if c.suggested_changelog_entry.isEmpty then none
      else some c.suggested_changelog_entry))

/-- `ChangelogRequirementCheck.check`. -/
def changelogRequirementCheck (changed_files : PyDict String)
    (breaking_changes : List BreakingChangeFinding) : List BreakingChangeFinding :=
  if breaking_changes.isEmpty then []
  else
    let has_changelog := (dictKeys changed_files).any (fun p => pathBase p == "CHANGELOG.md")
    if !has_changelog then
      [{ check_name := "changelog_required"
         severity := "critical"
         file_path := "CHANGELOG.md"
         line_number := 1
         change_type := "missing_changelog"
         element_name := "CHANGELOG.md"
         message := "Breaking changes detected (" ++ toString breaking_changes.length ++
           " issues) but CHANGELOG.md not updated"
         requires_changelog := true
         suggested_changelog_entry := generateChangelogTemplate breaking_changes }]
    else
      match changed_files.find? (fun fc => pathBase fc.1 == "CHANGELOG.md") with
      | some fc =>
          if !fc.2.isEmpty then
            if !hasProperChangelogFormat fc.2 then
              [{ check_name := "changelog_format"
                 severity := "medium"
                 file_path := "CHANGELOG.md"
                 line_number := 1
                 change_type := "invalid_format"
                 element_name := "CHANGELOG.md"
                 message := "CHANGELOG.md does not follow proper format (should have ## [Unreleased] or ## [version] sections)"
                 requires_changelog := true
                 suggested_changelog_entry := "Add section: ## [Unreleased] or ## [X.Y.Z] with ### BREAKING CHANGES subsection" }]
            else []
          else []
      | none => []

/-- One entry of `DatabaseSchemaChangeCheck.SCHEMA_CHANGE_PATTERNS`. -/
structure SchemaPattern where
  pat : RE
  changeType : String
  message : String

/-- `DatabaseSchemaChangeCheck.SCHEMA_CHANGE_PATTERNS` (IGNORECASE). -/
def SCHEMA_CHANGE_PATTERNS : List SchemaPattern :=
  [ -- Column\([^)]*nullable=False
    ⟨cat [lits "Column", .ch '(', .star (.cls true [.one ')']), lits "nullable=False"],
      "non_nullable_column", "Adding non-nullable column requires default value or migration"⟩,
    -- drop_column|remove_column
    ⟨.alt (lits "drop_column") (lits "remove_column"),
      "removed_column", "Removing column is a breaking change"⟩,
    -- alter_column.*type
    ⟨cat [lits "alter_column", dotStar, lits "type"],
      "changed_column_type", "Changing column type may break existing code"⟩,
    -- drop_table|remove_table
    ⟨.alt (lits "drop_table") (lits "remove_table"),
      "removed_table", "Removing table is a breaking change"⟩ ]

/-- `DatabaseSchemaChangeCheck.check`. -/
def databaseSchemaChangeCheck (file_path content : String) : List BreakingChangeFinding :=
  if !((pathComps file_path).contains "migrations" || (pathComps file_path).contains "models") then []
  else
    (withNums 1 (splitNl content.data)).flatMap (fun ln =>
      SCHEMA_CHANGE_PATTERNS.filterMap (fun sp =>
        if reTest true sp.pat ln.1 then
          some
            { check_name := "database_schema_changes"
              severity := "high"
              file_path := file_path
              line_number := ln.2
              change_type := sp.changeType
              element_name := sp.changeType
              message := sp.message
              requires_changelog := true
              suggested_changelog_entry := "- **BREAKING CHANGE**: " ++ sp.message }
        else none))

/-- Per-file loop of `BreakingChangesValidator.validate_pr` (the loop only
visits files present in `changed_files`). -/
def breakingPerFile (old_files : PyDict String) : List (String × String) →
    List BreakingChangeFinding
  | [] => []
  | fc :: rest =>
      let old_content := dictGet? old_files fc.1
      apiSignatureChangeCheck fc.1 old_content fc.2
        ++ removedPublicMethodsCheck fc.1 old_content (some fc.2)
        ++ databaseSchemaChangeCheck fc.1 fc.2
        ++ breakingPerFile old_files rest

/-- `BreakingChangesValidator.validate_pr`: the per-file findings, then the
changelog check fed with those findings. -/
def breakingValidatePr (changed_files old_files : PyDict String) :
    List BreakingChangeFinding :=
  breakingPerFile old_files changed_files
    ++ changelogRequirementCheck changed_files (breakingPerFile old_files changed_files)

/-! ## `quality_orchestrator.py` -/

/-- A finding of any category, as the orchestrator's flattened `all_findings`
list holds them (Python duck typing). -/
inductive AnyFinding
  | security (f : SecurityFinding)
  | architecture (f : ArchitectureFinding)
  | testCoverage (f : TestCoverageFinding)
  | performance (f : PerformanceFinding)
  | breaking (f : BreakingChangeFinding)
deriving Repr, DecidableEq

/-- The value of `getattr(finding, 'severity', 'medium')`: a `Severity` enum
member for security findings, a plain string for every other category. -/
inductive SevAttr
  | enumMember (s : Severity)
  | strVal (s : String)
deriving Repr, DecidableEq

/-- The `severity` attribute each finding kind carries. -/
def severityAttr : AnyFinding → SevAttr
  | .security f => .enumMember f.severity
  | .architecture f => .strVal f.severity
  | .testCoverage f => .strVal f.severity
  | .performance f => .strVal f.severity
  | .breaking f => .strVal f.severity

/-- `.lower()` on the severity attribute: a `str` lowers; a `Severity` enum
member has no `lower` method, so the call raises `AttributeError`. -/
def sevLower : SevAttr → Except String String
  | .enumMember _ => .error "AttributeError: 'Severity' object has no attribute 'lower'"
  | .strVal s => .ok (String.mk (pyLower s.data))

/-- The counts dict of `_count_severities`. -/
structure SevCounts where
  critical : Nat
  high : Nat
  medium : Nat
  low : Nat
deriving Repr, DecidableEq

/-- `if severity in counts: counts[severity] += 1`. -/
def bumpCounts (c : SevCounts) (sev : String) : SevCounts :=
  if sev == "critical" then { c with critical := c.critical + 1 }
  else if sev == "high" then { c with high := c.high + 1 }
  else if sev == "medium" then { c with medium := c.medium + 1 }
  else if sev == "low" then { c with low := c.low + 1 }
  else c

/-- Loop of `QualityCheckOrchestrator._count_severities`; the `AttributeError`
raised by `.lower()` on a `Severity` enum member aborts it. -/
def countSeveritiesAux : List AnyFinding → SevCounts → Except String SevCounts
  | [], c => .ok c
  | f :: rest, c =>
      match sevLower (severityAttr f) with
      | .error e => .error e
      | .ok s => countSeveritiesAux rest (bumpCounts c s)

/-- `QualityCheckOrchestrator._count_severities`. -/
def countSeverities (findings : List AnyFinding) : Except String SevCounts :=
  countSeveritiesAux findings ⟨0, 0, 0, 0⟩

/-- `QualityCheckOrchestrator._determine_pass_status`. -/
def determinePassStatus (mode : String) (counts : SevCounts) : Bool :=
  if mode == "error" then counts.critical == 0 && counts.high == 0
  else true

/-- `QualityCheckResult` dataclass. -/
structure QualityCheckResult where
  passed : Bool
  total_issues : Nat
  critical_issues : Nat
  high_issues : Nat
  medium_issues : Nat
  low_issues : Nat
  security_findings : List SecurityFinding
  architecture_findings : List ArchitectureFinding
  test_coverage_findings : List TestCoverageFinding
  performance_findings : List PerformanceFinding
  breaking_changes_findings : List BreakingChangeFinding
  mode : String
  override_used : Bool := false
  override_justification : Option String := none
deriving Repr, DecidableEq

/-- The flattened `all_findings` list of `validate_pr`. -/
def flattenAll (security_findings : List SecurityFinding)
    (architecture_findings : List ArchitectureFinding)
    (test_coverage_findings : List TestCoverageFinding)
    (performance_findings : List PerformanceFinding)
    (breaking_changes_findings : List BreakingChangeFinding) : List AnyFinding :=
  security_findings.map AnyFinding.security
    ++ architecture_findings.map AnyFinding.architecture
    ++ test_coverage_findings.map AnyFinding.testCoverage
    ++ performance_findings.map AnyFinding.performance
    ++ breaking_changes_findings.map AnyFinding.breaking

/-- The tail of `validate_pr` after the five validator calls: severity
counting (fallible), gating and result construction. -/
def assembleResult (mode : String) (security_findings : List SecurityFinding)
    (architecture_findings : List ArchitectureFinding)
    (test_coverage_findings : List TestCoverageFinding)
    (performance_findings : List PerformanceFinding)
    (breaking_changes_findings : List BreakingChangeFinding) :
    Except String QualityCheckResult :=
  match countSeverities (flattenAll security_findings architecture_findings
      test_coverage_findings performance_findings breaking_changes_findings) with
  | .error e => .error e
  | .ok severity_counts =>
      .ok
        { passed := determinePassStatus mode severity_counts
          total_issues := (flattenAll security_findings architecture_findings
            test_coverage_findings performance_findings breaking_changes_findings).length
          critical_issues := severity_counts.critical
          high_issues := severity_counts.high
          medium_issues := severity_counts.medium
          low_issues := severity_counts.low
          security_findings := security_findings
          architecture_findings := architecture_findings
          test_coverage_findings := test_coverage_findings
          performance_findings := performance_findings
          breaking_changes_findings := breaking_changes_findings
          mode := mode }

/-- `QualityCheckOrchestrator.validate_pr` (`mode` is the orchestrator's
construction argument; a caller-omitted `old_files` is the empty dict).  The
run is fallible: the layer-separation `KeyError` and the `.lower()`
`AttributeError` in `_count_severities` both abort it.  (The security
validator runs first in the source and is infallible, so hoisting the
fallible architecture match to the front preserves behaviour.) -/
def validatePr (mode pr_title pr_description : String)
    (changed_files old_files : PyDict String) : Except String QualityCheckResult :=
  match architectureValidateProject changed_files with
  | .error e => .error e
  | .ok architecture_results =>
      assembleResult mode
        ((securityValidatePrChanges changed_files).flatMap (·.2))
        (architecture_results.flatMap (·.2))
        (testCoverageValidatePr pr_title pr_description changed_files)
        ((performanceValidatePr changed_files).flatMap (·.2))
        (breakingValidatePr changed_files old_files)

/-! ## `QualityCheckOrchestrator.export_results_json` and the `json` module

`json.dumps(..., indent=2)` is modelled over an explicit Python-value type;
an unserializable value (the `Severity` enum member inside
`asdict(SecurityFinding)`) raises `TypeError`.  `json.loads` is modelled by a
recursive-descent parser covering the grammar `dumps` emits (objects, arrays,
strings with escapes and surrogate pairs, integers, booleans, null). -/

mutual
/-- A Python value handed to `json.dumps` by `export_results_json`. -/
inductive PyVal
  | pstr (s : String)
  | pint (n : Int)
  | pbool (b : Bool)
  | pnone
  | penum (s : Severity)
  | plist (xs : PyValList)
  | pdict (fs : PyFields)
deriving Repr, DecidableEq

/-- A list of Python values (spelled out for structural recursion). -/
inductive PyValList
  | nil
  | cons (v : PyVal) (t : PyValList)
deriving Repr, DecidableEq

/-- The ordered fields of a Python dict value. -/
inductive PyFields
  | nil
  | cons (k : String) (v : PyVal) (t : PyFields)
deriving Repr, DecidableEq
end

/-- Lower-case hex digit. -/
def hexDigit (n : Nat) : Char :=
  if n < 10 then Char.ofNat (48 + n) else Char.ofNat (87 + n)

/-- Four-digit hex rendering for `\uXXXX`. -/
def hex4 (n : Nat) : List Char :=
  [hexDigit (n / 4096 % 16), hexDigit (n / 256 % 16), hexDigit (n / 16 % 16), hexDigit (n % 16)]

/-- `json.dumps` escaping of one character (`ensure_ascii=True`): printable
ASCII passes through, known control characters get short escapes, everything
else becomes `\uXXXX`, with surrogate pairs above U+FFFF. -/
def escChar (c : Char) : List Char :=
  if c == '"' then ['\\', '"']
  else if c == '\\' then ['\\', '\\']
  else if c == '\n' then ['\\', 'n']
  else if c == '\r' then ['\\', 'r']
  else if c == '\t' then ['\\', 't']
  else if c.toNat == 8 then ['\\', 'b']
  else if c.toNat == 12 then ['\\', 'f']
  else if 0x20 ≤ c.toNat && c.toNat < 0x7F then [c]
  else if c.toNat < 0x10000 then '\\' :: 'u' :: hex4 c.toNat
  else
    let v := c.toNat - 0x10000
    ('\\' :: 'u' :: hex4 (0xD800 + v / 0x400)) ++ ('\\' :: 'u' :: hex4 (0xDC00 + v % 0x400))

/-- A JSON string literal for `s`, quotes included. -/
def jsonEscape (s : String) : String :=
  String.mk ('"' :: (s.data.flatMap escChar ++ ['"']))

/-- Decimal digit character. -/
def digitChar (n : Nat) : Char :=
  Char.ofNat (48 + n)

/-- Decimal digits of a natural number (fuel-based for kernel reduction). -/
def natDigitsAux : Nat → Nat → List Char
  | 0, _ => []
  | fuel + 1, n =>
      if n < 10 then [digitChar n]
      else natDigitsAux fuel (n / 10) ++ [digitChar (n % 10)]

/-- Decimal rendering of a natural number. -/
def natRepr (n : Nat) : String :=
  String.mk (natDigitsAux (n + 1) n)

/-- Python decimal rendering of an integer. -/
def intRepr : Int → String
  | .ofNat n => natRepr n
  | .negSucc m => "-" ++ natRepr (m + 1)

/-- The indentation prefix `json.dumps(..., indent=2)` writes at nesting
level `lvl`. -/
def indentStr (lvl : Nat) : String :=
  String.mk (List.replicate (2 * lvl) ' ')

mutual
/-- `json.dumps(v, indent=2)` at nesting level `lvl` (default separators
`,` and `: `); raises `TypeError` on a `Severity` enum member. -/
def dumpsVal : Nat → PyVal → Except String String
  | _, .pstr s => .ok (jsonEscape s)
  | _, .pint n => .ok (intRepr n)
  | _, .pbool b => .ok (if b then "true" else "false")
  | _, .pnone => .ok "null"
  | _, .penum _ => .error "TypeError: Object of type Severity is not JSON serializable"
  | lvl, .plist xs =>
      match xs with
      | .nil => .ok "[]"
      | .cons v t =>
          match dumpsItems (lvl + 1) (.cons v t) with
          | .error e => .error e
          | .ok parts =>
              .ok ("[\n" ++ strJoin ",\n" (parts.map (fun p => indentStr (lvl + 1) ++ p))
                ++ "\n" ++ indentStr lvl ++ "]")
  | lvl, .pdict fs =>
      match fs with
      | .nil => .ok "\x7b\x7d"
      | .cons k v t =>
          match dumpsFields (lvl + 1) (.cons k v t) with
          | .error e => .error e
          | .ok parts =>
              .ok ("\x7b\n" ++ strJoin ",\n" (parts.map (fun p => indentStr (lvl + 1) ++ p))
                ++ "\n" ++ indentStr lvl ++ "\x7d")

/-- Items of a dumped list. -/
def dumpsItems : Nat → PyValList → Except String (List String)
  | _, .nil => .ok []
  | lvl, .cons v t =>
      match dumpsVal lvl v, dumpsItems lvl t with
      | .error e, _ => .error e
      | _, .error e => .error e
      | .ok s, .ok rest => .ok (s :: rest)

/-- Fields of a dumped dict (`"key": value`). -/
def dumpsFields : Nat → PyFields → Except String (List String)
  | _, .nil => .ok []
  | lvl, .cons k v t =>
      match dumpsVal lvl v, dumpsFields lvl t with
      | .error e, _ => .error e
      | _, .error e => .error e
      | .ok s, .ok rest => .ok ((jsonEscape k ++ ": " ++ s) :: rest)
end

/-- Plain list to `PyValList`. -/
def toPyList : List PyVal → PyValList
  | [] => .nil
  | x :: xs => .cons x (toPyList xs)

/-- `dataclasses.asdict` of a `SecurityFinding` (field order of the
dataclass; the `severity` value is the enum member itself). -/
def asdictSecurity (f : SecurityFinding) : PyVal :=
  .pdict (.cons "check_name" (.pstr f.check_name)
    (.cons "severity" (.penum f.severity)
    (.cons "file_path" (.pstr f.file_path)
    (.cons "line_number" (.pint f.line_number)
    (.cons "line_content" (.pstr f.line_content)
    (.cons "message" (.pstr f.message)
    (.cons "pattern_matched" (.pstr f.pattern_matched)
    (.cons "suggested_fix" (.pstr f.suggested_fix) .nil))))))))

/-- `dataclasses.asdict` of an `ArchitectureFinding`. -/
def asdictArchitecture (f : ArchitectureFinding) : PyVal :=
  .pdict (.cons "check_name" (.pstr f.check_name)
    (.cons "severity" (.pstr f.severity)
    (.cons "file_path" (.pstr f.file_path)
    (.cons "line_number" (.pint f.line_number)
    (.cons "message" (.pstr f.message)
    (.cons "violated_rule" (.pstr f.violated_rule)
    (.cons "suggested_fix" (.pstr f.suggested_fix) .nil)))))))

/-- `dataclasses.asdict` of a `TestCoverageFinding`. -/
def asdictTestCoverage (f : TestCoverageFinding) : PyVal :=
  .pdict (.cons "check_name" (.pstr f.check_name)
    (.cons "severity" (.pstr f.severity)
    (.cons "file_path" (.pstr f.file_path)
    (.cons "function_name" (.pstr f.function_name)
    (.cons "line_number" (.pint f.line_number)
    (.cons "message" (.pstr f.message)
    (.cons "suggested_fix" (.pstr f.suggested_fix) .nil)))))))

/-- `dataclasses.asdict` of a `PerformanceFinding`. -/
def asdictPerformance (f : PerformanceFinding) : PyVal :=
  .pdict (.cons "check_name" (.pstr f.check_name)
    (.cons "severity" (.pstr f.severity)
    (.cons "file_path" (.pstr f.file_path)
    (.cons "line_number" (.pint f.line_number)
    (.cons "line_content" (.pstr f.line_content)
    (.cons "message" (.pstr f.message)
    (.cons "impact" (.pstr f.impact)
    (.cons "suggested_fix" (.pstr f.suggested_fix) .nil))))))))

/-- `dataclasses.asdict` of a `BreakingChangeFinding`. -/
def asdictBreaking (f : BreakingChangeFinding) : PyVal :=
  .pdict (.cons "check_name" (.pstr f.check_name)
    (.cons "severity" (.pstr f.severity)
    (.cons "file_path" (.pstr f.file_path)
    (.cons "line_number" (.pint f.line_number)
    (.cons "change_type" (.pstr f.change_type)
    (.cons "element_name" (.pstr f.element_name)
    (.cons "message" (.pstr f.message)
    (.cons "requires_changelog" (.pbool f.requires_changelog)
    (.cons "suggested_changelog_entry" (.pstr f.suggested_changelog_entry) .nil)))))))))

/-- The `result_dict` assembled by `export_results_json`. -/
def resultDict (r : QualityCheckResult) : PyVal :=
  let sevCounts : PyVal :=
    .pdict (.cons "critical" (.pint r.critical_issues)
      (.cons "high" (.pint r.high_issues)
      (.cons "medium" (.pint r.medium_issues)
      (.cons "low" (.pint r.low_issues) .nil))))
  let findings : PyVal :=
    .pdict (.cons "security" (.plist (toPyList (r.security_findings.map asdictSecurity)))
      (.cons "architecture" (.plist (toPyList (r.architecture_findings.map asdictArchitecture)))
      (.cons "test_coverage" (.plist (toPyList (r.test_coverage_findings.map asdictTestCoverage)))
      (.cons "performance" (.plist (toPyList (r.performance_findings.map asdictPerformance)))
      (.cons "breaking_changes" (.plist (toPyList (r.breaking_changes_findings.map asdictBreaking)))
        .nil)))))
  let oj : PyVal :=
    match r.override_justification with
    | some s => .pstr s
    | none => .pnone
  .pdict (.cons "passed" (.pbool r.passed)
    (.cons "total_issues" (.pint r.total_issues)
    (.cons "severity_counts" sevCounts
    (.cons "mode" (.pstr r.mode)
    (.cons "override_used" (.pbool r.override_used)
    (.cons "override_justification" oj
    (.cons "findings" findings .nil)))))))

/-- `QualityCheckOrchestrator.export_results_json`. -/
def exportResultsJson (r : QualityCheckResult) : Except String String :=
  dumpsVal 0 (resultDict r)

/-! ### Model of `json.loads` -/

/-- Parsed JSON values. -/
inductive JVal
  | jstr (s : String)
  | jint (n : Int)
  | jbool (b : Bool)
  | jnull
  | jarr (xs : List JVal)
  | jobj (fields : List (String × JVal))
deriving Repr

/-- JSON whitespace skip. -/
def skipWs (s : List Char) : List Char :=
  s.dropWhile (fun c => c == ' ' || c == '\t' || c == '\n' || c == '\r')

/-- Hex digit value. -/
def hexVal (c : Char) : Option Nat :=
  if '0' ≤ c && c ≤ '9' then some (c.toNat - 48)
  else if 'a' ≤ c && c ≤ 'f' then some (c.toNat - 87)
  else if 'A' ≤ c && c ≤ 'F' then some (c.toNat - 55)
  else none

/-- Exactly four hex digits. -/
def parseU4 : List Char → Option (Nat × List Char)
  | a :: b :: c :: d :: rest =>
      match hexVal a, hexVal b, hexVal c, hexVal d with
      | some x, some y, some z, some w => some (x * 4096 + y * 256 + z * 16 + w, rest)
      | _, _, _, _ => none
  | _ => none

/-- String body after the opening quote: decoded characters and the rest.
Surrogate pairs are recombined; a lone surrogate is rejected (the printer
never emits one, since source characters are Unicode scalar values). -/
def parseStrChars : Nat → List Char → Option (List Char × List Char)
  | 0, _ => none
  | fuel + 1, s =>
      match s with
      | [] => none
      | '"' :: rest => some ([], rest)
      | '\\' :: e :: rest =>
          let cont := fun (c : Char) (r : List Char) =>
            (parseStrChars fuel r).map (fun p => (c :: p.1, p.2))
          match e with
          | '"' => cont '"' rest
          | '\\' => cont '\\' rest
          | '/' => cont '/' rest
          | 'b' => cont (Char.ofNat 8) rest
          | 'f' => cont (Char.ofNat 12) rest
          | 'n' => cont '\n' rest
          | 'r' => cont '\r' rest
          | 't' => cont '\t' rest
          | 'u' =>
              match parseU4 rest with
              | none => none
              | some (n, r2) =>
                  if 0xD800 ≤ n && n ≤ 0xDBFF then
                    match r2 with
                    | '\\' :: 'u' :: r3 =>
                        match parseU4 r3 with
                        | some (m, r4) =>
                            if 0xDC00 ≤ m && m ≤ 0xDFFF then
                              cont (Char.ofNat (0x10000 + (n - 0xD800) * 0x400 + (m - 0xDC00))) r4
                            else none
                        | none => none
                    | _ => none
                  else if 0xDC00 ≤ n && n ≤ 0xDFFF then none
                  else cont (Char.ofNat n) r2
          | _ => none
      | c :: rest => (parseStrChars fuel rest).map (fun p => (c :: p.1, p.2))

/-- One or more decimal digits folded into a natural number. -/
def parseDigits (s : List Char) : Option (Nat × List Char) :=
  let digits := s.takeWhile Char.isDigit
  if digits.isEmpty then none
  else some (digits.foldl (fun n c => n * 10 + (c.toNat - 48)) 0, s.drop digits.length)

mutual
/-- Recursive-descent JSON value parser (integer numbers only — the only
numbers the export writes).  `fuel` bounds the recursion; every recursive
call consumes at least one character, so an initial fuel of input length + 1
is never exhausted. -/
def parseVal : Nat → List Char → Option (JVal × List Char)
  | 0, _ => none
  | fuel + 1, s =>
      match skipWs s with
      | [] => none
      | c :: rest =>
          if c == '"' then
            (parseStrChars (rest.length + 1) rest).map (fun p => (.jstr (String.mk p.1), p.2))
          else if c == '\x7b' then
            match skipWs rest with
            | '\x7d' :: r2 => some (.jobj [], r2)
            | _ =>
                (parseMembers fuel rest).map (fun p => (.jobj p.1, p.2))
          else if c == '[' then
            match skipWs rest with
            | ']' :: r2 => some (.jarr [], r2)
            | _ =>
                (parseItems fuel rest).map (fun p => (.jarr p.1, p.2))
          else if c == 't' then
            if ['r', 'u', 'e'].isPrefixOf rest then some (.jbool true, rest.drop 3) else none
          else if c == 'f' then
            if ['a', 'l', 's', 'e'].isPrefixOf rest then some (.jbool false, rest.drop 4) else none
          else if c == 'n' then
            if ['u', 'l', 'l'].isPrefixOf rest then some (.jnull, rest.drop 3) else none
          else if c == '-' then
            (parseDigits rest).map (fun p => (.jint (-(p.1 : Int)), p.2))
          else if c.isDigit then
            (parseDigits (c :: rest)).map (fun p => (.jint (p.1 : Int), p.2))
          else none

/-- Members of a JSON object: `"key": value` separated by commas, ended by a
closing brace. -/
def parseMembers : Nat → List Char → Option (List (String × JVal) × List Char)
  | 0, _ => none
  | fuel + 1, s =>
      match skipWs s with
      | '"' :: rest =>
          match parseStrChars (rest.length + 1) rest with
          | none => none
          | some (key, r2) =>
              match skipWs r2 with
              | ':' :: r3 =>
                  match parseVal fuel r3 with
                  | none => none
                  | some (v, r4) =>
                      match skipWs r4 with
                      | ',' :: r5 =>
                          (parseMembers fuel r5).map (fun p =>
                            ((String.mk key, v) :: p.1, p.2))
                      | '\x7d' :: r5 => some ([(String.mk key, v)], r5)
                      | _ => none
              | _ => none
      | _ => none

/-- Items of a JSON array separated by commas, ended by a closing bracket. -/
def parseItems : Nat → List Char → Option (List JVal × List Char)
  | 0, _ => none
  | fuel + 1, s =>
      match parseVal fuel s with
      | none => none
      | some (v, r) =>
          match skipWs r with
          | ',' :: r2 => (parseItems fuel r2).map (fun p => (v :: p.1, p.2))
          | ']' :: r2 => some ([v], r2)
          | _ => none
end

/-- `json.loads`: parse the whole document (trailing whitespace allowed). -/
def jsonLoads (s : String) : Option JVal :=
  match parseVal (s.data.length + 1) s.data with
  | some (v, rest) => if (skipWs rest).isEmpty then some v else none
  | none => none

/-- First field of a parsed JSON object (`parsed["key"]`). -/
def jLookup (v : JVal) (key : String) : Option JVal :=
  match v with
  | .jobj fields => (fields.find? (fun p => p.1 == key)).map (·.2)
  | _ => none

mutual
/-- The parsed image of a serializable Python value (`penum` never dumps, so
its image is irrelevant). -/
def toJ : PyVal → JVal
  | .pstr s => .jstr s
  | .pint n => .jint n
  | .pbool b => .jbool b
  | .pnone => .jnull
  | .penum _ => .jnull
  | .plist xs => .jarr (toJList xs)
  | .pdict fs => .jobj (toJFields fs)

/-- Parsed image of a value list. -/
def toJList : PyValList → List JVal
  | .nil => []
  | .cons v t => toJ v :: toJList t

/-- Parsed image of dict fields. -/
def toJFields : PyFields → List (String × JVal)
  | .nil => []
  | .cons k v t => (k, toJ v) :: toJFields t
end

mutual
/-- No `Severity` enum member anywhere inside the value (the exact condition
under which `json.dumps` succeeds). -/
def noEnum : PyVal → Bool
  | .pstr _ => true
  | .pint _ => true
  | .pbool _ => true
  | .pnone => true
  | .penum _ => false
  | .plist xs => noEnumList xs
  | .pdict fs => noEnumFields fs

/-- `noEnum` over a value list. -/
def noEnumList : PyValList → Bool
  | .nil => true
  | .cons v t => noEnum v && noEnumList t

/-- `noEnum` over dict fields. -/
def noEnumFields : PyFields → Bool
  | .nil => true
  | .cons _ v t => noEnum v && noEnumFields t
end

/-- Decidable equality for fallible results (used to evaluate runs by
`decide`). -/
instance {ε α : Type} [DecidableEq ε] [DecidableEq α] : DecidableEq (Except ε α) :=
  fun a b =>
    match a, b with
    | .error e, .error f =>
        if h : e = f then .isTrue (by rw [h]) else .isFalse (by simp [h])
    | .ok x, .ok y =>
        if h : x = y then .isTrue (by rw [h]) else .isFalse (by simp [h])
    | .error _, .ok _ => .isFalse (by simp)
    | .ok _, .error _ => .isFalse (by simp)

/-- The line number a statement fact carries (`node.lineno`). -/
def stmtLine : PyStmt → Nat
  | .importStmt _ n => n
  | .importFrom _ n => n
  | .funcDef _ _ _ _ n _ => n
  | .classDef _ n => n

/-- The severity string of a finding of any category (a security finding
contributes its enum member's `value`). -/
def anySevStr : AnyFinding → String
  | .security f => f.severity.value
  | .architecture f => f.severity
  | .testCoverage f => f.severity
  | .performance f => f.severity
  | .breaking f => f.severity

/-- The flattened `all_findings` list a result's five finding lists give
rise to (the orchestrator's flattening order). -/
def resultAll (r : QualityCheckResult) : List AnyFinding :=
  r.security_findings.map AnyFinding.security
    ++ r.architecture_findings.map AnyFinding.architecture
    ++ r.test_coverage_findings.map AnyFinding.testCoverage
    ++ r.performance_findings.map AnyFinding.performance
    ++ r.breaking_changes_findings.map AnyFinding.breaking

/-- The severity strings of all findings of a result, in the orchestrator's
flattening order (the enum member of a security finding contributes its
`value`). -/
def resultSevs (r : QualityCheckResult) : List String :=
  r.security_findings.map (fun f => f.severity.value)
    ++ r.architecture_findings.map (fun f => f.severity)
    ++ r.test_coverage_findings.map (fun f => f.severity)
    ++ r.performance_findings.map (fun f => f.severity)
    ++ r.breaking_changes_findings.map (fun f => f.severity)

/-! ## Theorems -/

/-- Extraction through `filterMap` of a guarded constructor. -/
theorem mem_filterMap_ite {α β : Type} {l : List α} {g : α → β} {p : α → Bool} {f : β}
    (h : f ∈ l.filterMap (fun a => if p a then some (g a) else none)) :
    ∃ a ∈ l, f = g a := by
  simp only [List.mem_filterMap] at h
  obtain ⟨a, ha, he⟩ := h
  by_cases hp : p a
  · simp [hp] at he
    exact ⟨a, ha, he.symm⟩
  · simp [hp] at he

/-- Line numbers attached by `withNums` start at the base. -/
theorem withNums_le {α : Type} {k : Nat} {l : List α} {x : α × Nat}
    (h : x ∈ withNums k l) : k ≤ x.2 := by
  induction l generalizing k with
  | nil => simp [withNums] at h
  | cons a rest ih =>
      simp only [withNums, List.mem_cons] at h
      rcases h with rfl | h
      · exact Nat.le_refl k
      · exact Nat.le_of_succ_le (ih h)

/-- Membership in an updated dict comes from the new entry or the old
dict. -/
theorem mem_dictSet {α : Type} {d : PyDict α} {k : String} {v : α} {e : String × α}
    (h : e ∈ dictSet d k v) : e = (k, v) ∨ e ∈ d := by
  induction d with
  | nil =>
      simp only [dictSet, List.mem_singleton] at h
      exact Or.inl h
  | cons p rest ih =>
      obtain ⟨k2, v2⟩ := p
      rw [dictSet] at h
      split at h
      · simp only [List.mem_cons] at h
        rcases h with rfl | h
        · exact Or.inl rfl
        · exact Or.inr (List.mem_cons_of_mem _ h)
      · simp only [List.mem_cons] at h
        rcases h with rfl | h
        · exact Or.inr (List.mem_cons_self _ _)
        · rcases ih h with h2 | h2
          · exact Or.inl h2
          · exact Or.inr (List.mem_cons_of_mem _ h2)

/-- A successful dict lookup is a member. -/
theorem dictGet?_mem {α : Type} {d : PyDict α} {k : String} {v : α}
    (h : dictGet? d k = some v) : (k, v) ∈ d := by
  unfold dictGet? at h
  cases hf : List.find? (fun p => p.1 == k) d with
  | none => rw [hf] at h; simp at h
  | some p =>
      rw [hf] at h
      simp only [Option.map_some', Option.some.injEq] at h
      have hp := List.find?_some hf
      have hm := List.mem_of_find?_eq_some hf
      have hk : p.1 = k := by simpa using hp
      obtain ⟨p1, p2⟩ := p
      cases hk
      cases h
      exact hm

/-- Every fact of one line carries that line's number. -/
theorem lineFacts_line {l : List Char} {n : Nat} {la : List (List Char × Nat)}
    {fs : List PyStmt} (h : lineFacts l n la = some fs) :
    ∀ st ∈ fs, stmtLine st = n := by
  unfold lineFacts at h
  simp only [] at h
  repeat' split at h
  all_goals first
    | (cases h; intro st hst; simp only [List.mem_singleton] at hst; subst hst; rfl)
    | (cases h; intro st hst; simp at hst)
    | simp at h

/-- All facts of a numbered line list carry numbers at least the smallest
line number present. -/
theorem pyParseAux_line {lns : List (List Char × Nat)} {sts : List PyStmt}
    (h : pyParseAux lns = some sts) (hl : ∀ x ∈ lns, 1 ≤ x.2) :
    ∀ st ∈ sts, 1 ≤ stmtLine st := by
  induction lns generalizing sts with
  | nil =>
      cases h
      intro st hst
      simp at hst
  | cons x rest ih =>
      rw [pyParseAux] at h
      split at h
      · rename_i fs more hfs hmore
        cases h
        intro st hst
        rw [List.mem_append] at hst
        rcases hst with hst | hst
        · rw [lineFacts_line hfs st hst]
          exact hl x (by simp)
        · exact ih hmore (fun y hy => hl y (by simp [hy])) st hst
      · exact absurd h (by simp)

/-- All facts `pyParse` recovers carry 1-based line numbers. -/
theorem pyParse_line {c : String} {sts : List PyStmt} (h : pyParse c = some sts) :
    ∀ st ∈ sts, 1 ≤ stmtLine st := by
  unfold pyParse at h
  exact pyParseAux_line h (fun x hx => withNums_le hx)

/-- Import facts carry 1-based line numbers. -/
theorem extractImports_line {c : String} {imp : ImportStmt}
    (h : imp ∈ extractImports c) : 1 ≤ imp.line := by
  unfold extractImports at h
  split at h
  · rename_i sts hp
    simp only [List.mem_flatMap] at h
    obtain ⟨st, hst, hm⟩ := h
    have := pyParse_line hp st hst
    cases st with
    | importStmt ms n =>
        simp only [List.mem_map] at hm
        obtain ⟨m, _, rfl⟩ := hm
        exact this
    | importFrom m n =>
        simp only [List.mem_singleton] at hm
        subst hm
        exact this
    | funcDef n args ret ia l e => simp at hm
    | classDef n l => simp at hm
  · simp only [List.mem_filterMap] at h
    obtain ⟨ln, hln, hm⟩ := h
    split at hm
    · rename_i m hsr
      cases hom : (m.group? 1) with
      | none => rw [hom] at hm; simp at hm
      | some g =>
          rw [hom] at hm
          simp only [Option.map_some', Option.some.injEq] at hm
          subst hm
          exact withNums_le hln
    · simp at hm

/-- Extracted function line numbers are 1-based. -/
theorem extractFunctions_line {c : String} {fn : String × Nat}
    (h : fn ∈ extractFunctions c) : 1 ≤ fn.2 := by
  unfold extractFunctions at h
  split at h
  · rename_i sts hp
    simp only [List.mem_filterMap] at h
    obtain ⟨st, hst, hm⟩ := h
    have := pyParse_line hp st hst
    cases st with
    | funcDef n args ret ia l e =>
        dsimp only at hm
        split at hm
        · simp at hm
        · simp only [Option.some.injEq] at hm
          subst hm
          exact this
    | importStmt ms n => simp at hm
    | importFrom m n => simp at hm
    | classDef n l => simp at hm
  · simp only [List.mem_filterMap] at h
    obtain ⟨ln, hln, hm⟩ := h
    have hline : 1 ≤ ln.2 := withNums_le hln
    repeat' split at hm
    all_goals first
      | (rw [← hm]; simpa using hline)
      | (injection hm with hm; rw [← hm]; simpa using hline)
      | simp at hm

/-- Signature records carry 1-based line numbers. -/
theorem extractSignaturesAux_line {sts : List PyStmt} {acc : PyDict PySig}
    (hacc : ∀ e ∈ acc, 1 ≤ (e.2 : PySig).line) (hst : ∀ st ∈ sts, 1 ≤ stmtLine st) :
    ∀ e ∈ extractSignaturesAux sts acc, 1 ≤ (e.2 : PySig).line := by
  induction sts generalizing acc with
  | nil => exact hacc
  | cons st rest ih =>
      have hrest : ∀ s ∈ rest, 1 ≤ stmtLine s :=
        fun s hs => hst s (List.mem_cons_of_mem _ hs)
      cases st with
      | funcDef n args ret ia l en =>
          refine ih ?_ hrest
          intro e he
          simp only [] at he
          split at he
          · exact hacc e he
          · rcases mem_dictSet he with rfl | he2
            · exact hst (.funcDef n args ret ia l en) (List.mem_cons_self _ _)
            · exact hacc e he2
      | importStmt ms n => exact ih hacc hrest
      | importFrom m n => exact ih hacc hrest
      | classDef n l => exact ih hacc hrest

/-- `extract_signatures` line numbers are 1-based. -/
theorem extractSignatures_line {c : String} {e : String × PySig}
    (h : e ∈ extractSignatures c) : 1 ≤ e.2.line := by
  unfold extractSignatures at h
  split at h
  · rename_i sts hp
    exact extractSignaturesAux_line (by simp) (pyParse_line hp) e h
  · simp at h

/-- Hardcoded-credential findings carry their 1-based line numbers. -/
theorem hardcoded_line {p c : String} {f : SecurityFinding}
    (h : f ∈ hardcodedCredentialsCheck p c) : 1 ≤ f.line_number := by
  unfold hardcodedCredentialsCheck at h
  simp only [List.mem_flatMap] at h
  obtain ⟨ln, hln, h⟩ := h
  try simp only [] at h
  split at h
  · simp at h
  · simp only [List.mem_flatMap, List.mem_filterMap] at h
    obtain ⟨cp, _, m, _, hm⟩ := h
    split at hm
    · simp at hm
    · injection hm with hm
      subst hm
      exact withNums_le hln

/-- SQL-injection findings carry their 1-based line numbers. -/
theorem sqlInj_line {p c : String} {f : SecurityFinding}
    (h : f ∈ sqlInjectionCheck p c) : 1 ≤ f.line_number := by
  unfold sqlInjectionCheck at h
  simp only [List.mem_flatMap, List.mem_filterMap] at h
  obtain ⟨ln, hln, sp, _, hm⟩ := h
  split at hm
  · injection hm with hm
    subst hm
    exact withNums_le hln
  · simp at hm

/-- Sensitive-logging findings carry their 1-based line numbers. -/
theorem sensLog_line {p c : String} {f : SecurityFinding}
    (h : f ∈ sensitiveDataLoggingCheck p c) : 1 ≤ f.line_number := by
  unfold sensitiveDataLoggingCheck at h
  simp only [List.mem_flatMap, List.mem_filterMap] at h
  obtain ⟨ln, hln, sp, _, hm⟩ := h
  split at hm
  · injection hm with hm
    subst hm
    exact withNums_le hln
  · simp at hm

/-- Unsafe-deserialization findings carry their 1-based line numbers. -/
theorem unsafeDeser_line {p c : String} {f : SecurityFinding}
    (h : f ∈ unsafeDeserializationCheck p c) : 1 ≤ f.line_number := by
  unfold unsafeDeserializationCheck at h
  simp only [List.mem_flatMap, List.mem_filterMap] at h
  obtain ⟨ln, hln, up, _, hm⟩ := h
  split at hm
  · injection hm with hm
    subst hm
    exact withNums_le hln
  · simp at hm

/-- Every security finding of one file carries a 1-based line number. -/
theorem securityValidateFile_line {p c : String} {f : SecurityFinding}
    (h : f ∈ securityValidateFile p c) : 1 ≤ f.line_number := by
  unfold securityValidateFile at h
  simp only [List.mem_append] at h
  rcases h with ((h | h) | h) | h
  · exact hardcoded_line h
  · exact sqlInj_line h
  · exact sensLog_line h
  · exact unsafeDeser_line h

/-- Every security finding of a PR run carries a 1-based line number. -/
theorem securityValidatePrChanges_line {cf : PyDict String}
    {e : String × List SecurityFinding} (he : e ∈ securityValidatePrChanges cf)
    {f : SecurityFinding} (hf : f ∈ e.2) : 1 ≤ f.line_number := by
  unfold securityValidatePrChanges at he
  simp only [List.mem_filterMap] at he
  obtain ⟨fc, _, hm⟩ := he
  try simp only [] at hm
  split at hm
  · simp at hm
  · injection hm with hm
    subst hm
    exact securityValidateFile_line hf

/-- Layer-separation findings over one import's prohibited names carry its
line number. -/
theorem layerSepOverProhibited_line {lc : LayerConfig} {p : String} {imp : ImportStmt}
    {pls : List String} {fs : List ArchitectureFinding}
    (h : layerSepOverProhibited lc p imp pls = .ok fs) (hi : 1 ≤ imp.line) :
    ∀ f ∈ fs, 1 ≤ f.line_number := by
  induction pls generalizing fs with
  | nil =>
      injection h with h
      subst h
      simp
  | cons pl rest ih =>
      rw [layerSepOverProhibited] at h
      split at h
      · simp at h
      · split at h
        · simp at h
        · rename_i b hb fs2 hrec
          injection h with h
          subst h
          intro f hf
          rw [List.mem_append] at hf
          rcases hf with hf | hf
          · split at hf
            · rw [List.mem_singleton] at hf
              subst hf
              exact hi
            · simp at hf
          · exact ih hrec f hf

/-- Layer-separation findings over all imports carry 1-based line numbers
whenever the imports do. -/
theorem layerSepOverImports_line {lc : LayerConfig} {p : String}
    {imps : List ImportStmt} {fs : List ArchitectureFinding}
    (h : layerSepOverImports lc p imps = .ok fs)
    (hi : ∀ imp ∈ imps, 1 ≤ imp.line) :
    ∀ f ∈ fs, 1 ≤ f.line_number := by
  induction imps generalizing fs with
  | nil =>
      injection h with h
      subst h
      simp
  | cons imp rest ih =>
      rw [layerSepOverImports] at h
      split at h
      · simp at h
      · rename_i fs1 h1
        split at h
        · simp at h
        · rename_i fs2 h2
          injection h with h
          subst h
          intro f hf
          rw [List.mem_append] at hf
          rcases hf with hf | hf
          · exact layerSepOverProhibited_line h1 (hi imp (List.mem_cons_self _ _)) f hf
          · exact ih h2 (fun i hi2 => hi i (List.mem_cons_of_mem _ hi2)) f hf

/-- Successful layer-separation runs yield only 1-based line numbers. -/
theorem layerSeparationCheck_line {p c : String} {fs : List ArchitectureFinding}
    (h : layerSeparationCheck p c = .ok fs) : ∀ f ∈ fs, 1 ≤ f.line_number := by
  unfold layerSeparationCheck at h
  split at h
  · injection h with h
    subst h
    simp
  · exact layerSepOverImports_line h (fun imp hi => extractImports_line hi)

/-- Dependency-injection findings carry 1-based line numbers. -/
theorem dependencyInjectionCheck_line {p c : String} {f : ArchitectureFinding}
    (h : f ∈ dependencyInjectionCheck p c) : 1 ≤ f.line_number := by
  unfold dependencyInjectionCheck at h
  split at h
  · simp at h
  · try simp only [] at h
    split at h
    · try simp only [] at h
      split at h
      · split at h
        · rename_i ln hfind
          rw [List.mem_singleton] at h
          subst h
          exact withNums_le (List.mem_of_find?_eq_some hfind)
        · simp at h
      · simp at h
    · simp at h

/-- Async-pattern findings carry 1-based line numbers. -/
theorem asyncPatternsCheck_line {p c : String} {f : ArchitectureFinding}
    (h : f ∈ asyncPatternsCheck p c) : 1 ≤ f.line_number := by
  unfold asyncPatternsCheck at h
  try simp only [] at h
  split at h
  · simp at h
  · simp only [List.mem_flatMap, List.mem_filterMap] at h
    obtain ⟨lib, _, m, _, hm⟩ := h
    try simp only [] at hm
    split at hm
    · injection hm with hm
      subst hm
      exact Nat.le_add_left 1 _
    · simp at hm

/-- Circular-dependency findings sit at line 1. -/
theorem circDep_line {files : PyDict String} {f : ArchitectureFinding}
    (h : f ∈ circularDependencyCheckProject files) : 1 ≤ f.line_number := by
  unfold circularDependencyCheckProject at h
  try simp only [] at h
  simp only [List.mem_map] at h
  obtain ⟨cycle, _, rfl⟩ := h
  exact Nat.le_refl 1

/-- Successful per-file architecture runs yield only 1-based line
numbers. -/
theorem architectureValidateFile_line {p c : String} {fs : List ArchitectureFinding}
    (h : architectureValidateFile p c = .ok fs) : ∀ f ∈ fs, 1 ≤ f.line_number := by
  unfold architectureValidateFile at h
  split at h
  · simp at h
  · rename_i fs1 h1
    injection h with h
    subst h
    intro f hf
    simp only [List.mem_append] at hf
    rcases hf with (hf | hf) | hf
    · exact layerSeparationCheck_line h1 f hf
    · exact dependencyInjectionCheck_line hf
    · exact asyncPatternsCheck_line hf

/-- The per-file architecture loop yields only 1-based line numbers. -/
theorem archPerFile_line {l : List (String × String)}
    {res : PyDict (List ArchitectureFinding)} (h : archPerFile l = .ok res) :
    ∀ e ∈ res, ∀ f ∈ e.2, 1 ≤ f.line_number := by
  induction l generalizing res with
  | nil =>
      injection h with h
      subst h
      simp
  | cons fc rest ih =>
      rw [archPerFile] at h
      split at h
      · simp at h
      · rename_i fs h1
        split at h
        · simp at h
        · rename_i res2 h2
          injection h with h
          subst h
          intro e he f hf
          split at he
          · exact ih h2 e he f hf
          · rcases List.mem_cons.mp he with rfl | he2
            · exact architectureValidateFile_line h1 f hf
            · exact ih h2 e he2 f hf

/-- Folding circular-dependency findings into the per-file dict preserves
1-based line numbers. -/
theorem mergeCirc_foldl_line {circs : List ArchitectureFinding}
    {res : PyDict (List ArchitectureFinding)}
    (hres : ∀ e ∈ res, ∀ f ∈ e.2, 1 ≤ f.line_number)
    (hc : ∀ f ∈ circs, 1 ≤ f.line_number) :
    ∀ e ∈ circs.foldl mergeCircFinding res, ∀ f ∈ e.2, 1 ≤ f.line_number := by
  induction circs generalizing res with
  | nil => exact hres
  | cons cf rest ih =>
      apply ih
      · intro e he f hf
        unfold mergeCircFinding at he
        split at he
        · rename_i fs hget
          rcases mem_dictSet he with rfl | he2
          · dsimp only at hf
            rw [List.mem_append, List.mem_singleton] at hf
            rcases hf with hf | hfe
            · exact hres _ (dictGet?_mem hget) f hf
            · rw [hfe]
              exact hc cf (List.mem_cons_self _ _)
          · exact hres e he2 f hf
        · rw [List.mem_append, List.mem_singleton] at he
          rcases he with he | rfl
          · exact hres e he f hf
          · dsimp only at hf
            rw [List.mem_singleton] at hf
            rw [hf]
            exact hc cf (List.mem_cons_self _ _)
      · intro f hf
        exact hc f (List.mem_cons_of_mem _ hf)

/-- Successful whole-project architecture runs yield only 1-based line
numbers. -/
theorem architectureValidateProject_line {files : PyDict String}
    {res : PyDict (List ArchitectureFinding)}
    (h : architectureValidateProject files = .ok res) :
    ∀ e ∈ res, ∀ f ∈ e.2, 1 ≤ f.line_number := by
  unfold architectureValidateProject at h
  split at h
  · simp at h
  · rename_i results hper
    injection h with h
    subst h
    exact mergeCirc_foldl_line (archPerFile_line hper) (fun f hf => circDep_line hf)

/-- New-functions-have-tests findings carry 1-based line numbers. -/
theorem newFuncTests_line {cf tf : PyDict String} {f : TestCoverageFinding}
    (h : f ∈ newFunctionsHaveTestsCheck cf tf) : 1 ≤ f.line_number := by
  unfold newFunctionsHaveTestsCheck at h
  simp only [List.mem_flatMap] at h
  obtain ⟨fc, _, h⟩ := h
  try simp only [] at h
  split at h
  · simp at h
  · split at h
    · split at h
      · rw [List.mem_singleton] at h
        rw [h]
      · simp at h
    · simp only [List.mem_filterMap] at h
      obtain ⟨fn, hfn, hm⟩ := h
      split at hm
      · injection hm with hm
        rw [← hm]
        exact extractFunctions_line hfn
      · simp at hm

/-- Test-quality findings sit at line 1. -/
theorem testQuality_line {tf : PyDict String} {f : TestCoverageFinding}
    (h : f ∈ testQualityCheck tf) : 1 ≤ f.line_number := by
  unfold testQualityCheck at h
  simp only [List.mem_flatMap, List.mem_append] at h
  obtain ⟨fc, _, h⟩ := h
  rcases h with h | h
  · split at h
    · rw [List.mem_singleton] at h
      rw [h]
    · simp at h
  · try simp only [] at h
    split at h
    · try simp only [] at h
      split at h
      · rw [List.mem_singleton] at h
        rw [h]
      · simp at h
    · simp at h

/-- Every test-coverage finding other than the bug-fix regression one
carries a 1-based line number. -/
theorem testCoverageValidatePr_line {t d : String} {cf : PyDict String}
    {f : TestCoverageFinding} (h : f ∈ testCoverageValidatePr t d cf)
    (hn : f.check_name ≠ "bug_fix_regression_tests") : 1 ≤ f.line_number := by
  unfold testCoverageValidatePr at h
  try simp only [] at h
  simp only [List.mem_append] at h
  rcases h with (h | h) | h
  · exact newFuncTests_line h
  · unfold bugFixRegressionTestCheck at h
    split at h
    · simp at h
    · split at h
      · rw [List.mem_singleton] at h
        exact absurd (by rw [h]) hn
      · simp at h
  · exact testQuality_line h

/-- N+1-query findings carry 1-based line numbers. -/
theorem nPlusOne_line {p c : String} {f : PerformanceFinding}
    (h : f ∈ nPlusOneQueryCheck p c) : 1 ≤ f.line_number := by
  unfold nPlusOneQueryCheck at h
  try simp only [] at h
  split at h
  · simp at h
  · simp only [List.mem_flatMap] at h
    obtain ⟨ln, _, h⟩ := h
    try simp only [] at h
    split at h
    · try simp only [] at h
      split at h
      · rw [List.mem_singleton] at h
        rw [h]
        exact Nat.le_add_left 1 _
      · simp at h
    · simp at h

/-- Missing-index findings carry 1-based line numbers. -/
theorem dbIndex_line {p c : String} {f : PerformanceFinding}
    (h : f ∈ databaseIndexCheck p c) : 1 ≤ f.line_number := by
  unfold databaseIndexCheck at h
  split at h
  · simp at h
  · try simp only [] at h
    simp only [List.mem_flatMap, List.mem_filterMap] at h
    obtain ⟨ln, hln, fk, _, hm⟩ := h
    try simp only [] at hm
    repeat' split at hm
    all_goals first
      | (injection hm with hm; rw [← hm]; exact withNums_le hln)
      | (rw [← hm]; exact withNums_le hln)
      | (rw [hm]; exact withNums_le hln)
      | simp at hm

/-- Nested-loop findings take their line numbers from the scanned lines. -/
theorem nestedLoops_line {p : String} {lines : List (List Char × Nat)}
    {stack : List (Nat × Nat)} (hl : ∀ x ∈ lines, 1 ≤ x.2) {f : PerformanceFinding}
    (h : f ∈ checkNestedLoopsAux p lines stack) : 1 ≤ f.line_number := by
  induction lines generalizing stack with
  | nil => simp [checkNestedLoopsAux] at h
  | cons x rest ih =>
      obtain ⟨line, n⟩ := x
      rw [checkNestedLoopsAux] at h
      split at h
      · try simp only [] at h
        rw [List.mem_append] at h
        rcases h with h | h
        · split at h
          · rw [List.mem_singleton] at h
            rw [h]
            exact hl (line, n) (List.mem_cons_self _ _)
          · simp at h
        · exact ih (fun y hy => hl y (List.mem_cons_of_mem _ hy)) h
      · exact ih (fun y hy => hl y (List.mem_cons_of_mem _ hy)) h

/-- Inefficient-list-operation findings take their line numbers from the
scanned lines. -/
theorem ineffOps_line {p : String} {lines : List (List Char × Nat)}
    (hl : ∀ x ∈ lines, 1 ≤ x.2) {f : PerformanceFinding}
    (h : f ∈ checkInefficientListOps p lines) : 1 ≤ f.line_number := by
  unfold checkInefficientListOps at h
  simp only [List.mem_flatMap, List.mem_filterMap] at h
  obtain ⟨ln, hln, ip, _, hm⟩ := h
  split at hm
  · injection hm with hm
    rw [← hm]
    exact hl ln hln
  · simp at hm

/-- Loop-invariant findings take their line numbers from the scanned
lines. -/
theorem loopInv_line {p : String} {lines : List (List Char × Nat)}
    {inLoop : Bool} (hl : ∀ x ∈ lines, 1 ≤ x.2) {f : PerformanceFinding}
    (h : f ∈ checkLoopInvariantsAux p lines inLoop) : 1 ≤ f.line_number := by
  induction lines generalizing inLoop with
  | nil => simp [checkLoopInvariantsAux] at h
  | cons x rest ih =>
      obtain ⟨line, n⟩ := x
      rw [checkLoopInvariantsAux] at h
      try simp only [] at h
      rw [List.mem_append] at h
      rcases h with h | h
      · repeat' split at h
        all_goals first
          | (rw [List.mem_singleton] at h; rw [h];
             exact hl (line, n) (List.mem_cons_self _ _))
          | (rw [h]; exact hl (line, n) (List.mem_cons_self _ _))
          | simp at h
      · exact ih (fun y hy => hl y (List.mem_cons_of_mem _ hy)) h

/-- Algorithm-complexity findings carry 1-based line numbers. -/
theorem algoComplexity_line {p c : String} {f : PerformanceFinding}
    (h : f ∈ algorithmComplexityCheck p c) : 1 ≤ f.line_number := by
  unfold algorithmComplexityCheck at h
  split at h
  · simp at h
  · try simp only [] at h
    simp only [List.mem_append] at h
    rcases h with (h | h) | h
    · exact nestedLoops_line (fun y hy => withNums_le hy) h
    · exact ineffOps_line (fun y hy => withNums_le hy) h
    · exact loopInv_line (fun y hy => withNums_le hy) h

/-- Memory-leak findings carry 1-based line numbers. -/
theorem memLeak_line {p c : String} {f : PerformanceFinding}
    (h : f ∈ memoryLeakCheck p c) : 1 ≤ f.line_number := by
  unfold memoryLeakCheck at h
  simp only [List.mem_flatMap, List.mem_filterMap] at h
  obtain ⟨ln, hln, lp, _, hm⟩ := h
  split at hm
  · injection hm with hm
    rw [← hm]
    exact withNums_le hln
  · simp at hm

/-- Every performance finding of one file carries a 1-based line number. -/
theorem performanceValidateFile_line {p c : String} {f : PerformanceFinding}
    (h : f ∈ performanceValidateFile p c) : 1 ≤ f.line_number := by
  unfold performanceValidateFile at h
  simp only [List.mem_append] at h
  rcases h with ((h | h) | h) | h
  · exact nPlusOne_line h
  · exact dbIndex_line h
  · exact algoComplexity_line h
  · exact memLeak_line h

/-- Every performance finding of a PR run carries a 1-based line number. -/
theorem performanceValidatePr_line {cf : PyDict String}
    {e : String × List PerformanceFinding} (he : e ∈ performanceValidatePr cf)
    {f : PerformanceFinding} (hf : f ∈ e.2) : 1 ≤ f.line_number := by
  unfold performanceValidatePr at he
  simp only [List.mem_filterMap] at he
  obtain ⟨fc, _, hm⟩ := he
  try simp only [] at hm
  split at hm
  · simp at hm
  · injection hm with hm
    subst hm
    exact performanceValidateFile_line hf

/-- API-signature-change findings carry 1-based line numbers. -/
theorem apiSig_line {p : String} {oc : Option String} {nc : String}
    {f : BreakingChangeFinding} (h : f ∈ apiSignatureChangeCheck p oc nc) :
    1 ≤ f.line_number := by
  unfold apiSignatureChangeCheck at h
  split at h
  · simp at h
  · split at h
    · simp at h
    · try simp only [] at h
      rw [List.mem_append] at h
      rcases h with h | h
      · simp only [List.mem_flatMap] at h
        obtain ⟨os, hos, h⟩ := h
        split at h
        · rename_i ns hget
          split at h
          · rw [List.mem_singleton] at h
            rw [h]
            exact extractSignatures_line (dictGet?_mem hget)
          · simp at h
        · simp at h
      · simp only [List.mem_map] at h
        obtain ⟨fn, _, hm⟩ := h
        rw [← hm]

/-- Removed-public-method findings sit at line 1. -/
theorem removedPub_line {p : String} {oc nc : Option String}
    {f : BreakingChangeFinding} (h : f ∈ removedPublicMethodsCheck p oc nc) :
    1 ≤ f.line_number := by
  unfold removedPublicMethodsCheck at h
  split at h
  · try simp only [] at h
    split at h
    · try simp only [] at h
      split at h
      · rw [List.mem_singleton] at h
        rw [h]
      · simp at h
    · simp at h
  · simp at h
  · try simp only [] at h
    rw [List.mem_append] at h
    rcases h with h | h <;>
      · simp only [List.mem_map] at h
        obtain ⟨x, _, hm⟩ := h
        rw [← hm]

/-- Changelog findings sit at line 1. -/
theorem changelog_line {cf : PyDict String} {bc : List BreakingChangeFinding}
    {f : BreakingChangeFinding} (h : f ∈ changelogRequirementCheck cf bc) :
    1 ≤ f.line_number := by
  unfold changelogRequirementCheck at h
  try simp only [] at h
  repeat' split at h
  all_goals first
    | (rw [List.mem_singleton] at h; rw [h])
    | (rw [h]; exact Nat.le_refl 1)
    | simp at h

/-- Database-schema findings carry 1-based line numbers. -/
theorem dbSchema_line {p c : String} {f : BreakingChangeFinding}
    (h : f ∈ databaseSchemaChangeCheck p c) : 1 ≤ f.line_number := by
  unfold databaseSchemaChangeCheck at h
  split at h
  · simp at h
  · simp only [List.mem_flatMap, List.mem_filterMap] at h
    obtain ⟨ln, hln, sp, _, hm⟩ := h
    split at hm
    · injection hm with hm
      rw [← hm]
      exact withNums_le hln
    · simp at hm

/-- The per-file breaking-changes loop yields only 1-based line numbers. -/
theorem breakingPerFile_line {old_files : PyDict String}
    {l : List (String × String)} {f : BreakingChangeFinding}
    (h : f ∈ breakingPerFile old_files l) : 1 ≤ f.line_number := by
  induction l with
  | nil => simp [breakingPerFile] at h
  | cons fc rest ih =>
      rw [breakingPerFile] at h
      try simp only [] at h
      simp only [List.mem_append] at h
      rcases h with ((h | h) | h) | h
      · exact apiSig_line h
      · exact removedPub_line h
      · exact dbSchema_line h
      · exact ih h

/-- Every breaking-changes finding of a PR run carries a 1-based line
number. -/
theorem breakingValidatePr_line {cf of2 : PyDict String}
    {f : BreakingChangeFinding} (h : f ∈ breakingValidatePr cf of2) :
    1 ≤ f.line_number := by
  unfold breakingValidatePr at h
  rw [List.mem_append] at h
  rcases h with h | h
  · exact breakingPerFile_line h
  · exact changelog_line h

/-- Findings of the database-schema check carry its check name. -/
theorem schema_check_name {path content : String} {f : BreakingChangeFinding}
    (h : f ∈ databaseSchemaChangeCheck path content) :
    f.check_name = "database_schema_changes" := by
  unfold databaseSchemaChangeCheck at h
  split at h
  · simp at h
  · simp only [List.mem_flatMap] at h
    obtain ⟨ln, _, hf⟩ := h
    obtain ⟨sp, _, rfl⟩ := mem_filterMap_ite hf
    rfl

/-- Findings of the changelog check carry one of its two check names. -/
theorem changelog_check_name {cf : PyDict String} {bc : List BreakingChangeFinding}
    {f : BreakingChangeFinding} (h : f ∈ changelogRequirementCheck cf bc) :
    f.check_name = "changelog_required" ∨ f.check_name = "changelog_format" := by
  unfold changelogRequirementCheck at h
  dsimp only [] at h
  repeat' split at h
  all_goals
    first
      | (rw [List.mem_singleton] at h; subst h; exact Or.inl rfl)
      | (rw [List.mem_singleton] at h; subst h; exact Or.inr rfl)
      | simp at h

/-- Inversion of a successful `validate_pr` run: the result's fields are the
severity counts, gate decision, total and mode computed over its own
flattened findings. -/
theorem validatePr_ok_inv {m t d : String} {cf of : PyDict String}
    {r : QualityCheckResult} (h : validatePr m t d cf of = .ok r) :
    ∃ counts, countSeverities (resultAll r) = .ok counts
      ∧ r.passed = determinePassStatus m counts
      ∧ r.critical_issues = counts.critical
      ∧ r.high_issues = counts.high
      ∧ r.medium_issues = counts.medium
      ∧ r.low_issues = counts.low
      ∧ r.total_issues = (resultAll r).length
      ∧ r.mode = m := by
  unfold validatePr at h
  split at h
  · exact absurd h (by simp)
  · rename_i res harch
    unfold assembleResult at h
    split at h
    · exact absurd h (by simp)
    · rename_i counts hcnt
      cases h
      exact ⟨counts, hcnt, rfl, rfl, rfl, rfl, rfl, rfl, rfl⟩

/-- The findings of a run do not depend on the mode: the two runs fail alike
or return results with the same total. -/
theorem validatePr_total_mode_independent (m m2 t d : String) (cf of : PyDict String) :
    (validatePr m t d cf of).toOption.map (fun r => r.total_issues)
      = (validatePr m2 t d cf of).toOption.map (fun r => r.total_issues) := by
  unfold validatePr
  split
  · rfl
  · unfold assembleResult
    split <;> rfl

/-- C2: the claim says `validate_pr` never raises and surfaces problems only
as findings; the code crashes.  Checking any import of a service-layer file
reaches `self.LAYERS['api']` (KeyError), and `_count_severities` calls
`.lower()` on the `Severity` enum member of any security finding
(AttributeError).  Both are evaluated here at one-file changesets. -/
theorem c2_validate_pr_crashes :
    validatePr "warning" "Add feature" "" [("services/user_service.py", "import os")] []
      = .error "KeyError: 'api'"
    ∧ validatePr "warning" "Add feature" "" [("f.py", "password = \"hunter99\"")] []
      = .error "AttributeError: 'Severity' object has no attribute 'lower'" := by
  exact ⟨by decide, by decide⟩

/-- C4: old `f(a)` against new `f(a, b)` yields exactly one high-severity
"modified" finding for `f`, as the claim states; but old `f(a)` against new
`f(a, b=False)` yields that same high-severity finding rather than the zero
findings the claim (and the repository's own
`test_added_optional_parameter_not_breaking`) expect, because
`_extract_signatures` keeps defaulted arguments in `args.args` and drops the
defaults from the signature string. -/
theorem c4_optional_param_is_flagged :
    apiSignatureChangeCheck "api/handlers.py" (some "def f(a):\n    pass")
      "def f(a, b):\n    pass"
      = [{ check_name := "api_signature_changes", severity := "high",
           file_path := "api/handlers.py", line_number := 1, change_type := "modified",
           element_name := "f", message := "API signature changed for 'f'",
           requires_changelog := true,
           suggested_changelog_entry := "- **CHANGED**: `f` signature modified. Old: (a), New: (a, b)" }]
    ∧ ((apiSignatureChangeCheck "api/handlers.py" (some "def f(a):\n    pass")
        "def f(a, b=False):\n    pass").filter (fun f => f.severity == "high")).length = 1 := by
  exact ⟨by decide, by decide⟩

/-- C9 counterexample: a changeset that deletes `m.py` (present in the
prior-content mapping with a public function, absent from the new-content
mapping) makes the breaking-changes validator return no findings at all — not
the one `deleted_file` finding the claim states — because `validate_pr`
iterates only over `changed_files`. -/
theorem c9_deleted_file_counterexample :
    (extractPublicElements "def f():\n    pass").functions = ["f"]
    ∧ breakingValidatePr [] [("m.py", "def f():\n    pass")] = [] := by
  exact ⟨by decide, by decide⟩

/-- C9 (amended): the validator never looks at prior-content entries for
files absent from the new-content mapping — its result depends on `old_files`
only through the files of `changed_files` — so a whole-file deletion yields
no finding from `validate_pr`; the one file-level critical `deleted_file`
finding is produced only by `RemovedPublicMethodsCheck.check` itself when it
is invoked with the prior content and no new content. -/
theorem c9_deleted_file_amended :
    (∀ (changed old old2 : PyDict String),
      (∀ p, (dictKeys changed).contains p = true → dictGet? old p = dictGet? old2 p) →
      breakingValidatePr changed old = breakingValidatePr changed old2)
    ∧ (∀ (path oc : String), oc.isEmpty = false →
        ((extractPublicElements oc).classes.isEmpty = false
          ∨ (extractPublicElements oc).functions.isEmpty = false) →
        removedPublicMethodsCheck path (some oc) none
          = [{ check_name := "removed_public_methods", severity := "critical",
               file_path := path, line_number := 1, change_type := "deleted_file",
               element_name := path,
               message := "File with " ++ toString (extractPublicElements oc).classes.length
                 ++ " public classes and " ++ toString (extractPublicElements oc).functions.length
                 ++ " public functions was deleted",
               requires_changelog := true,
               suggested_changelog_entry := "- **BREAKING CHANGE**: Removed " ++ path
                 ++ " with public APIs" }]) := by
  constructor
  · intro changed old old2 hsame
    have hper : ∀ fcs : List (String × String),
        (∀ p, (fcs.map Prod.fst).contains p = true → dictGet? old p = dictGet? old2 p) →
        breakingPerFile old fcs = breakingPerFile old2 fcs := by
      intro fcs
      induction fcs with
      | nil => intro _; rfl
      | cons fc rest ih =>
          intro h
          have hhead : dictGet? old fc.1 = dictGet? old2 fc.1 := by
            apply h
            simp [List.contains]
          have htail := ih (fun p hp => h p (by simp [List.contains] at hp ⊢; right; exact hp))
          simp only [breakingPerFile, hhead, htail]
    have := hper changed (by simpa [dictKeys] using hsame)
    simp only [breakingValidatePr, this]
  · intro path oc hne hpub
    have hb : (!(extractPublicElements oc).classes.isEmpty
        || !(extractPublicElements oc).functions.isEmpty) = true := by
      rcases hpub with h | h <;> simp [h]
    simp only [removedPublicMethodsCheck, hne, Bool.not_false, if_true, hb]

/-- C3: in "error" mode a returned result passes exactly when its critical
count and high count are both zero; in "warning" mode a returned result
always passes; and the same changeset yields the same `total_issues` under
both modes. -/
theorem c3_mode_gating (t d : String) (cf of : PyDict String) :
    (∀ r, validatePr "error" t d cf of = .ok r →
      (r.passed = true ↔ (r.critical_issues = 0 ∧ r.high_issues = 0)))
    ∧ (∀ r, validatePr "warning" t d cf of = .ok r → r.passed = true)
    ∧ (validatePr "error" t d cf of).toOption.map (fun r => r.total_issues)
        = (validatePr "warning" t d cf of).toOption.map (fun r => r.total_issues) := by
  refine ⟨?_, ?_, validatePr_total_mode_independent "error" "warning" t d cf of⟩
  · intro r h
    obtain ⟨counts, _, hp, hc, hh, _⟩ := validatePr_ok_inv h
    rw [hp, hc, hh]
    simp [determinePassStatus]
  · intro r h
    obtain ⟨counts, _, hp, _⟩ := validatePr_ok_inv h
    rw [hp]
    rfl

/-- C3 witness: the gating equivalences and the total-issue equality at a
concrete clean changeset. -/
theorem c3_mode_gating_witness :
    (validatePr "error" "t" "" [("f.py", "x = 1")] []).toOption.map (fun r => r.total_issues)
      = (validatePr "warning" "t" "" [("f.py", "x = 1")] []).toOption.map (fun r => r.total_issues)
    ∧ (∃ r, validatePr "error" "t" "" [("f.py", "x = 1")] [] = .ok r
        ∧ (r.passed = true ↔ (r.critical_issues = 0 ∧ r.high_issues = 0)))
    ∧ (∃ r, validatePr "warning" "t" "" [("f.py", "x = 1")] [] = .ok r ∧ r.passed = true) := by
  obtain ⟨h1, h2, h3⟩ := c3_mode_gating "t" "" [("f.py", "x = 1")] []
  refine ⟨h3, ?_, ?_⟩
  · have he : validatePr "error" "t" "" [("f.py", "x = 1")] []
        = .ok { passed := true, total_issues := 0, critical_issues := 0, high_issues := 0,
                medium_issues := 0, low_issues := 0, security_findings := [],
                architecture_findings := [], test_coverage_findings := [],
                performance_findings := [], breaking_changes_findings := [],
                mode := "error" } := by decide
    exact ⟨_, he, h1 _ he⟩
  · have hw : validatePr "warning" "t" "" [("f.py", "x = 1")] []
        = .ok { passed := true, total_issues := 0, critical_issues := 0, high_issues := 0,
                medium_issues := 0, low_issues := 0, security_findings := [],
                architecture_findings := [], test_coverage_findings := [],
                performance_findings := [], breaking_changes_findings := [],
                mode := "warning" } := by decide
    exact ⟨_, hw, h2 _ hw⟩

/-- C10: a file with no prior-content entry yields no findings from the
API-signature-change check or the removed-public-methods check; hence in a
changeset of only new files, every finding of the breaking-changes validator
comes from the database-schema check or the changelog check. -/
theorem c10_new_files_breaking_sources :
    (∀ (path newc : String), apiSignatureChangeCheck path none newc = [])
    ∧ (∀ (path newc : String), removedPublicMethodsCheck path none (some newc) = [])
    ∧ (∀ (changed old : PyDict String),
        (∀ p, (dictKeys changed).contains p = true → dictGet? old p = none) →
        ∀ f ∈ breakingValidatePr changed old,
          f.check_name = "database_schema_changes" ∨ f.check_name = "changelog_required"
            ∨ f.check_name = "changelog_format") := by
  have hapi : ∀ (path newc : String), apiSignatureChangeCheck path none newc = [] := by
    intro path newc
    unfold apiSignatureChangeCheck
    split
    · rfl
    · rfl
  have hrem : ∀ (path newc : String), removedPublicMethodsCheck path none (some newc) = [] := by
    intro path newc
    rfl
  refine ⟨hapi, hrem, ?_⟩
  intro changed old h f hf
  have hper : ∀ fcs : List (String × String),
      (∀ p, (fcs.map Prod.fst).contains p = true → dictGet? old p = none) →
      ∀ g ∈ breakingPerFile old fcs, g.check_name = "database_schema_changes" := by
    intro fcs
    induction fcs with
    | nil =>
        intro _ g hg
        simp [breakingPerFile] at hg
    | cons fc rest ih =>
        intro hh g hg
        have hnone : dictGet? old fc.1 = none := hh fc.1 (by simp [List.contains])
        rw [breakingPerFile, hnone, hapi fc.1 fc.2, hrem fc.1 fc.2] at hg
        simp only [List.nil_append, List.mem_append] at hg
        rcases hg with hg | hg
        · exact schema_check_name hg
        · exact ih (fun p hp => hh p (by simp [List.contains] at hp ⊢; right; exact hp)) g hg
  unfold breakingValidatePr at hf
  rw [List.mem_append] at hf
  rcases hf with hf | hf
  · exact Or.inl (hper changed (by simpa [dictKeys] using h) f hf)
  · exact Or.inr (changelog_check_name hf)

/-- C10 witness: both checks return nothing for concrete new files, and the
findings of a concrete all-new changeset carry only schema/changelog check
names. -/
theorem c10_new_files_breaking_sources_witness :
    apiSignatureChangeCheck "api/a.py" none "def f(a):\n    pass" = []
    ∧ removedPublicMethodsCheck "m.py" none (some "def f():\n    pass") = []
    ∧ ({ check_name := "database_schema_changes", severity := "high",
         file_path := "migrations/m1.py", line_number := 1, change_type := "removed_table",
         element_name := "removed_table", message := "Removing table is a breaking change",
         requires_changelog := true,
         suggested_changelog_entry := "- **BREAKING CHANGE**: Removing table is a breaking change"
         : BreakingChangeFinding }.check_name = "database_schema_changes") := by
  obtain ⟨h1, h2, h3⟩ := c10_new_files_breaking_sources
  refine ⟨h1 "api/a.py" "def f(a):\n    pass", h2 "m.py" "def f():\n    pass", ?_⟩
  have hmem :
      ({ check_name := "database_schema_changes", severity := "high",
         file_path := "migrations/m1.py", line_number := 1, change_type := "removed_table",
         element_name := "removed_table", message := "Removing table is a breaking change",
         requires_changelog := true,
         suggested_changelog_entry := "- **BREAKING CHANGE**: Removing table is a breaking change"
         : BreakingChangeFinding })
        ∈ breakingValidatePr [("migrations/m1.py", "op.drop_table('users')")] [] := by
    decide
  rcases h3 [("migrations/m1.py", "op.drop_table('users')")] [] (fun p _ => rfl) _ hmem with
    hc | hc | hc
  · exact hc
  · exact absurd hc (by decide)
  · exact absurd hc (by decide)

/-- C9 witness for the amended theorem: discharging both parts at concrete
inputs. -/
theorem c9_deleted_file_amended_witness :
    breakingValidatePr [("a.py", "x = 1")]
        [("a.py", "x = 1"), ("gone.py", "def g():\n    pass")]
      = breakingValidatePr [("a.py", "x = 1")] [("a.py", "x = 1")]
    ∧ removedPublicMethodsCheck "m.py" (some "def f():\n    pass") none
      = [{ check_name := "removed_public_methods", severity := "critical",
           file_path := "m.py", line_number := 1, change_type := "deleted_file",
           element_name := "m.py",
           message := "File with 0 public classes and 1 public functions was deleted",
           requires_changelog := true,
           suggested_changelog_entry := "- **BREAKING CHANGE**: Removed m.py with public APIs" }] := by
  constructor
  · apply c9_deleted_file_amended.1
    intro p hp
    have : p = "a.py" := by
      simpa [dictKeys, List.contains] using hp
    subst this
    decide
  · have := c9_deleted_file_amended.2 "m.py" "def f():\n    pass" (by decide)
      (by right; decide)
    rw [this]
    decide

/-- Layer-separation findings of one import carry lower-case severity
strings. -/
theorem layerSepOverProhibited_sev {lc : LayerConfig} {p : String} {imp : ImportStmt}
    {pls : List String} {fs : List ArchitectureFinding}
    (h : layerSepOverProhibited lc p imp pls = .ok fs) :
    ∀ f ∈ fs, String.mk (pyLower f.severity.data) = f.severity := by
  induction pls generalizing fs with
  | nil =>
      injection h with h
      subst h
      simp
  | cons pl rest ih =>
      rw [layerSepOverProhibited] at h
      split at h
      · simp at h
      · split at h
        · simp at h
        · rename_i b hb fs2 hrec
          injection h with h
          subst h
          intro f hf
          rw [List.mem_append] at hf
          rcases hf with hf | hf
          · split at hf
            · rw [List.mem_singleton] at hf
              rw [hf]
              try rfl
            · simp at hf
          · exact ih hrec f hf

/-- Layer-separation findings of all imports carry lower-case severity
strings. -/
theorem layerSepOverImports_sev {lc : LayerConfig} {p : String}
    {imps : List ImportStmt} {fs : List ArchitectureFinding}
    (h : layerSepOverImports lc p imps = .ok fs) :
    ∀ f ∈ fs, String.mk (pyLower f.severity.data) = f.severity := by
  induction imps generalizing fs with
  | nil =>
      injection h with h
      subst h
      simp
  | cons imp rest ih =>
      rw [layerSepOverImports] at h
      split at h
      · simp at h
      · rename_i fs1 h1
        split at h
        · simp at h
        · rename_i fs2 h2
          injection h with h
          subst h
          intro f hf
          rw [List.mem_append] at hf
          rcases hf with hf | hf
          · exact layerSepOverProhibited_sev h1 f hf
          · exact ih h2 f hf

/-- Successful layer-separation runs yield lower-case severity strings. -/
theorem layerSeparationCheck_sev {p c : String} {fs : List ArchitectureFinding}
    (h : layerSeparationCheck p c = .ok fs) :
    ∀ f ∈ fs, String.mk (pyLower f.severity.data) = f.severity := by
  unfold layerSeparationCheck at h
  split at h
  · injection h with h
    subst h
    simp
  · exact layerSepOverImports_sev h

/-- Dependency-injection findings carry lower-case severity strings. -/
theorem dependencyInjectionCheck_sev {p c : String} {f : ArchitectureFinding}
    (h : f ∈ dependencyInjectionCheck p c) :
    String.mk (pyLower f.severity.data) = f.severity := by
  unfold dependencyInjectionCheck at h
  split at h
  · simp at h
  · try simp only [] at h
    split at h
    · try simp only [] at h
      split at h
      · split at h
        · rw [List.mem_singleton] at h
          rw [h]
          try rfl
        · simp at h
      · simp at h
    · simp at h

/-- Async-pattern findings carry lower-case severity strings. -/
theorem asyncPatternsCheck_sev {p c : String} {f : ArchitectureFinding}
    (h : f ∈ asyncPatternsCheck p c) :
    String.mk (pyLower f.severity.data) = f.severity := by
  unfold asyncPatternsCheck at h
  try simp only [] at h
  split at h
  · simp at h
  · simp only [List.mem_flatMap, List.mem_filterMap] at h
    obtain ⟨lib, _, m, _, hm⟩ := h
    try simp only [] at hm
    split at hm
    · injection hm with hm
      rw [← hm]
      try rfl
    · simp at hm

/-- Circular-dependency findings carry lower-case severity strings. -/
theorem circDep_sev {files : PyDict String} {f : ArchitectureFinding}
    (h : f ∈ circularDependencyCheckProject files) :
    String.mk (pyLower f.severity.data) = f.severity := by
  unfold circularDependencyCheckProject at h
  try simp only [] at h
  simp only [List.mem_map] at h
  obtain ⟨cycle, _, rfl⟩ := h
  rfl

/-- Successful per-file architecture runs yield lower-case severity
strings. -/
theorem architectureValidateFile_sev {p c : String} {fs : List ArchitectureFinding}
    (h : architectureValidateFile p c = .ok fs) :
    ∀ f ∈ fs, String.mk (pyLower f.severity.data) = f.severity := by
  unfold architectureValidateFile at h
  split at h
  · simp at h
  · rename_i fs1 h1
    injection h with h
    subst h
    intro f hf
    simp only [List.mem_append] at hf
    rcases hf with (hf | hf) | hf
    · exact layerSeparationCheck_sev h1 f hf
    · exact dependencyInjectionCheck_sev hf
    · exact asyncPatternsCheck_sev hf

/-- The per-file architecture loop yields lower-case severity strings. -/
theorem archPerFile_sev {l : List (String × String)}
    {res : PyDict (List ArchitectureFinding)} (h : archPerFile l = .ok res) :
    ∀ e ∈ res, ∀ f ∈ e.2, String.mk (pyLower f.severity.data) = f.severity := by
  induction l generalizing res with
  | nil =>
      injection h with h
      subst h
      simp
  | cons fc rest ih =>
      rw [archPerFile] at h
      split at h
      · simp at h
      · rename_i fs h1
        split at h
        · simp at h
        · rename_i res2 h2
          injection h with h
          subst h
          intro e he f hf
          split at he
          · exact ih h2 e he f hf
          · rcases List.mem_cons.mp he with rfl | he2
            · exact architectureValidateFile_sev h1 f hf
            · exact ih h2 e he2 f hf

/-- Folding circular-dependency findings preserves lower-case severity
strings. -/
theorem mergeCirc_foldl_sev {circs : List ArchitectureFinding}
    {res : PyDict (List ArchitectureFinding)}
    (hres : ∀ e ∈ res, ∀ f ∈ e.2, String.mk (pyLower f.severity.data) = f.severity)
    (hc : ∀ f ∈ circs, String.mk (pyLower f.severity.data) = f.severity) :
    ∀ e ∈ circs.foldl mergeCircFinding res, ∀ f ∈ e.2,
      String.mk (pyLower f.severity.data) = f.severity := by
  induction circs generalizing res with
  | nil => exact hres
  | cons cf rest ih =>
      apply ih
      · intro e he f hf
        unfold mergeCircFinding at he
        split at he
        · rename_i fs hget
          rcases mem_dictSet he with rfl | he2
          · dsimp only at hf
            rw [List.mem_append, List.mem_singleton] at hf
            rcases hf with hf | hfe
            · exact hres _ (dictGet?_mem hget) f hf
            · rw [hfe]
              exact hc cf (List.mem_cons_self _ _)
          · exact hres e he2 f hf
        · rw [List.mem_append, List.mem_singleton] at he
          rcases he with he | rfl
          · exact hres e he f hf
          · dsimp only at hf
            rw [List.mem_singleton] at hf
            rw [hf]
            exact hc cf (List.mem_cons_self _ _)
      · intro f hf
        exact hc f (List.mem_cons_of_mem _ hf)

/-- Successful whole-project architecture runs yield lower-case severity
strings. -/
theorem architectureValidateProject_sev {files : PyDict String}
    {res : PyDict (List ArchitectureFinding)}
    (h : architectureValidateProject files = .ok res) :
    ∀ e ∈ res, ∀ f ∈ e.2, String.mk (pyLower f.severity.data) = f.severity := by
  unfold architectureValidateProject at h
  split at h
  · simp at h
  · rename_i results hper
    injection h with h
    subst h
    exact mergeCirc_foldl_sev (archPerFile_sev hper) (fun f hf => circDep_sev hf)

/-- New-functions-have-tests findings carry lower-case severity strings. -/
theorem newFuncTests_sev {cf tf : PyDict String} {f : TestCoverageFinding}
    (h : f ∈ newFunctionsHaveTestsCheck cf tf) :
    String.mk (pyLower f.severity.data) = f.severity := by
  unfold newFunctionsHaveTestsCheck at h
  simp only [List.mem_flatMap] at h
  obtain ⟨fc, _, h⟩ := h
  try simp only [] at h
  split at h
  · simp at h
  · split at h
    · split at h
      · rw [List.mem_singleton] at h
        rw [h]
        try rfl
      · simp at h
    · simp only [List.mem_filterMap] at h
      obtain ⟨fn, hfn, hm⟩ := h
      split at hm
      · injection hm with hm
        rw [← hm]
        try rfl
      · simp at hm

/-- Test-quality findings carry lower-case severity strings. -/
theorem testQuality_sev {tf : PyDict String} {f : TestCoverageFinding}
    (h : f ∈ testQualityCheck tf) :
    String.mk (pyLower f.severity.data) = f.severity := by
  unfold testQualityCheck at h
  simp only [List.mem_flatMap, List.mem_append] at h
  obtain ⟨fc, _, h⟩ := h
  rcases h with h | h
  · split at h
    · rw [List.mem_singleton] at h
      rw [h]
      try rfl
    · simp at h
  · try simp only [] at h
    split at h
    · try simp only [] at h
      split at h
      · rw [List.mem_singleton] at h
        rw [h]
        try rfl
      · simp at h
    · simp at h

/-- Every test-coverage finding carries a lower-case severity string. -/
theorem testCoverageValidatePr_sev {t d : String} {cf : PyDict String}
    {f : TestCoverageFinding} (h : f ∈ testCoverageValidatePr t d cf) :
    String.mk (pyLower f.severity.data) = f.severity := by
  unfold testCoverageValidatePr at h
  try simp only [] at h
  simp only [List.mem_append] at h
  rcases h with (h | h) | h
  · exact newFuncTests_sev h
  · unfold bugFixRegressionTestCheck at h
    split at h
    · simp at h
    · split at h
      · rw [List.mem_singleton] at h
        rw [h]
        try rfl
      · simp at h
  · exact testQuality_sev h

/-- N+1-query findings carry lower-case severity strings. -/
theorem nPlusOne_sev {p c : String} {f : PerformanceFinding}
    (h : f ∈ nPlusOneQueryCheck p c) :
    String.mk (pyLower f.severity.data) = f.severity := by
  unfold nPlusOneQueryCheck at h
  try simp only [] at h
  split at h
  · simp at h
  · simp only [List.mem_flatMap] at h
    obtain ⟨ln, _, h⟩ := h
    try simp only [] at h
    split at h
    · try simp only [] at h
      split at h
      · rw [List.mem_singleton] at h
        rw [h]
        try rfl
      · simp at h
    · simp at h

/-- Missing-index findings carry lower-case severity strings. -/
theorem dbIndex_sev {p c : String} {f : PerformanceFinding}
    (h : f ∈ databaseIndexCheck p c) :
    String.mk (pyLower f.severity.data) = f.severity := by
  unfold databaseIndexCheck at h
  split at h
  · simp at h
  · try simp only [] at h
    simp only [List.mem_flatMap, List.mem_filterMap] at h
    obtain ⟨ln, hln, fk, _, hm⟩ := h
    try simp only [] at hm
    repeat' split at hm
    all_goals first
      | (injection hm with hm; rw [← hm]; try rfl)
      | (rw [← hm]; try rfl)
      | simp at hm

/-- Nested-loop findings carry lower-case severity strings. -/
theorem nestedLoops_sev {p : String} {lines : List (List Char × Nat)}
    {stack : List (Nat × Nat)} {f : PerformanceFinding}
    (h : f ∈ checkNestedLoopsAux p lines stack) :
    String.mk (pyLower f.severity.data) = f.severity := by
  induction lines generalizing stack with
  | nil => simp [checkNestedLoopsAux] at h
  | cons x rest ih =>
      obtain ⟨line, n⟩ := x
      rw [checkNestedLoopsAux] at h
      split at h
      · try simp only [] at h
        rw [List.mem_append] at h
        rcases h with h | h
        · split at h
          · rw [List.mem_singleton] at h
            rw [h]
            try rfl
          · simp at h
        · exact ih h
      · exact ih h

/-- Inefficient-list-operation findings carry lower-case severity
strings. -/
theorem ineffOps_sev {p : String} {lines : List (List Char × Nat)}
    {f : PerformanceFinding} (h : f ∈ checkInefficientListOps p lines) :
    String.mk (pyLower f.severity.data) = f.severity := by
  unfold checkInefficientListOps at h
  simp only [List.mem_flatMap, List.mem_filterMap] at h
  obtain ⟨ln, hln, ip, _, hm⟩ := h
  split at hm
  · injection hm with hm
    rw [← hm]
    try rfl
  · simp at hm

/-- Loop-invariant findings carry lower-case severity strings. -/
theorem loopInv_sev {p : String} {lines : List (List Char × Nat)}
    {inLoop : Bool} {f : PerformanceFinding}
    (h : f ∈ checkLoopInvariantsAux p lines inLoop) :
    String.mk (pyLower f.severity.data) = f.severity := by
  induction lines generalizing inLoop with
  | nil => simp [checkLoopInvariantsAux] at h
  | cons x rest ih =>
      obtain ⟨line, n⟩ := x
      rw [checkLoopInvariantsAux] at h
      try simp only [] at h
      rw [List.mem_append] at h
      rcases h with h | h
      · repeat' split at h
        all_goals first
          | (rw [List.mem_singleton] at h; rw [h]; try rfl)
          | (rw [h]; try rfl)
          | simp at h
      · exact ih h

/-- Algorithm-complexity findings carry lower-case severity strings. -/
theorem algoComplexity_sev {p c : String} {f : PerformanceFinding}
    (h : f ∈ algorithmComplexityCheck p c) :
    String.mk (pyLower f.severity.data) = f.severity := by
  unfold algorithmComplexityCheck at h
  split at h
  · simp at h
  · try simp only [] at h
    simp only [List.mem_append] at h
    rcases h with (h | h) | h
    · exact nestedLoops_sev h
    · exact ineffOps_sev h
    · exact loopInv_sev h

/-- Memory-leak findings carry lower-case severity strings. -/
theorem memLeak_sev {p c : String} {f : PerformanceFinding}
    (h : f ∈ memoryLeakCheck p c) :
    String.mk (pyLower f.severity.data) = f.severity := by
  unfold memoryLeakCheck at h
  simp only [List.mem_flatMap, List.mem_filterMap] at h
  obtain ⟨ln, hln, lp, _, hm⟩ := h
  split at hm
  · injection hm with hm
    rw [← hm]
    try rfl
  · simp at hm

/-- Every performance finding of one file carries a lower-case severity
string. -/
theorem performanceValidateFile_sev {p c : String} {f : PerformanceFinding}
    (h : f ∈ performanceValidateFile p c) :
    String.mk (pyLower f.severity.data) = f.severity := by
  unfold performanceValidateFile at h
  simp only [List.mem_append] at h
  rcases h with ((h | h) | h) | h
  · exact nPlusOne_sev h
  · exact dbIndex_sev h
  · exact algoComplexity_sev h
  · exact memLeak_sev h

/-- Every performance finding of a PR run carries a lower-case severity
string. -/
theorem performanceValidatePr_sev {cf : PyDict String}
    {e : String × List PerformanceFinding} (he : e ∈ performanceValidatePr cf)
    {f : PerformanceFinding} (hf : f ∈ e.2) :
    String.mk (pyLower f.severity.data) = f.severity := by
  unfold performanceValidatePr at he
  simp only [List.mem_filterMap] at he
  obtain ⟨fc, _, hm⟩ := he
  try simp only [] at hm
  split at hm
  · simp at hm
  · injection hm with hm
    subst hm
    exact performanceValidateFile_sev hf

/-- API-signature-change findings carry lower-case severity strings. -/
theorem apiSig_sev {p : String} {oc : Option String} {nc : String}
    {f : BreakingChangeFinding} (h : f ∈ apiSignatureChangeCheck p oc nc) :
    String.mk (pyLower f.severity.data) = f.severity := by
  unfold apiSignatureChangeCheck at h
  split at h
  · simp at h
  · split at h
    · simp at h
    · try simp only [] at h
      rw [List.mem_append] at h
      rcases h with h | h
      · simp only [List.mem_flatMap] at h
        obtain ⟨os, hos, h⟩ := h
        split at h
        · split at h
          · rw [List.mem_singleton] at h
            rw [h]
            try rfl
          · simp at h
        · simp at h
      · simp only [List.mem_map] at h
        obtain ⟨fn, _, hm⟩ := h
        rw [← hm]
        try rfl

/-- Removed-public-method findings carry lower-case severity strings. -/
theorem removedPub_sev {p : String} {oc nc : Option String}
    {f : BreakingChangeFinding} (h : f ∈ removedPublicMethodsCheck p oc nc) :
    String.mk (pyLower f.severity.data) = f.severity := by
  unfold removedPublicMethodsCheck at h
  split at h
  · try simp only [] at h
    split at h
    · try simp only [] at h
      split at h
      · rw [List.mem_singleton] at h
        rw [h]
        try rfl
      · simp at h
    · simp at h
  · simp at h
  · try simp only [] at h
    rw [List.mem_append] at h
    rcases h with h | h <;>
      · simp only [List.mem_map] at h
        obtain ⟨x, _, hm⟩ := h
        rw [← hm]
        try rfl

/-- Changelog findings carry lower-case severity strings. -/
theorem changelog_sev {cf : PyDict String} {bc : List BreakingChangeFinding}
    {f : BreakingChangeFinding} (h : f ∈ changelogRequirementCheck cf bc) :
    String.mk (pyLower f.severity.data) = f.severity := by
  unfold changelogRequirementCheck at h
  try simp only [] at h
  repeat' split at h
  all_goals first
    | (rw [List.mem_singleton] at h; rw [h]; try rfl)
    | (rw [h]; try rfl)
    | simp at h

/-- Database-schema findings carry lower-case severity strings. -/
theorem dbSchema_sev {p c : String} {f : BreakingChangeFinding}
    (h : f ∈ databaseSchemaChangeCheck p c) :
    String.mk (pyLower f.severity.data) = f.severity := by
  unfold databaseSchemaChangeCheck at h
  split at h
  · simp at h
  · simp only [List.mem_flatMap, List.mem_filterMap] at h
    obtain ⟨ln, hln, sp, _, hm⟩ := h
    split at hm
    · injection hm with hm
      rw [← hm]
      try rfl
    · simp at hm

/-- The per-file breaking-changes loop yields lower-case severity
strings. -/
theorem breakingPerFile_sev {old_files : PyDict String}
    {l : List (String × String)} {f : BreakingChangeFinding}
    (h : f ∈ breakingPerFile old_files l) :
    String.mk (pyLower f.severity.data) = f.severity := by
  induction l with
  | nil => simp [breakingPerFile] at h
  | cons fc rest ih =>
      rw [breakingPerFile] at h
      try simp only [] at h
      simp only [List.mem_append] at h
      rcases h with ((h | h) | h) | h
      · exact apiSig_sev h
      · exact removedPub_sev h
      · exact dbSchema_sev h
      · exact ih h

/-- Every breaking-changes finding of a PR run carries a lower-case
severity string. -/
theorem breakingValidatePr_sev {cf of2 : PyDict String}
    {f : BreakingChangeFinding} (h : f ∈ breakingValidatePr cf of2) :
    String.mk (pyLower f.severity.data) = f.severity := by
  unfold breakingValidatePr at h
  rw [List.mem_append] at h
  rcases h with h | h
  · exact breakingPerFile_sev h
  · exact changelog_sev h

/-- A successful severity count means no finding carried a `Severity` enum
member (no security finding was present). -/
theorem countSeveritiesAux_ok_strVal {l : List AnyFinding} {c c2 : SevCounts}
    (h : countSeveritiesAux l c = .ok c2) :
    ∀ f ∈ l, ∃ s, severityAttr f = .strVal s := by
  induction l generalizing c with
  | nil =>
      intro f hf
      simp at hf
  | cons f rest ih =>
      rw [countSeveritiesAux] at h
      split at h
      · simp at h
      · rename_i s hs
        intro g hg
        rcases List.mem_cons.mp hg with rfl | hg2
        · cases hsa : severityAttr g with
          | enumMember sv => rw [hsa] at hs; simp [sevLower] at hs
          | strVal sv => exact ⟨sv, rfl⟩
        · exact ih h g hg2

/-- The severity-count loop adds, per field, the number of findings whose
(lower-cased) severity string equals that field's name. -/
theorem countSeveritiesAux_count {l : List AnyFinding} {c : SevCounts}
    (hs : ∀ f ∈ l, sevLower (severityAttr f) = .ok (anySevStr f)) :
    countSeveritiesAux l c = .ok
      ⟨c.critical + (l.map anySevStr).count "critical",
       c.high + (l.map anySevStr).count "high",
       c.medium + (l.map anySevStr).count "medium",
       c.low + (l.map anySevStr).count "low"⟩ := by
  induction l generalizing c with
  | nil => simp [countSeveritiesAux]
  | cons f rest ih =>
      rw [countSeveritiesAux, hs f (List.mem_cons_self _ _)]
      dsimp only
      rw [ih (fun g hg => hs g (List.mem_cons_of_mem _ hg))]
      simp only [Except.ok.injEq, List.map_cons, List.count_cons]
      unfold bumpCounts
      by_cases h1 : anySevStr f = "critical"
      · simp [h1]
        omega
      · by_cases h2 : anySevStr f = "high"
        · simp [h1, h2]
          omega
        · by_cases h3 : anySevStr f = "medium"
          · simp [h1, h2, h3]
            omega
          · by_cases h4 : anySevStr f = "low"
            · simp [h1, h2, h3, h4]
              omega
            · simp [h1, h2, h3, h4]

/-- Splitting on a separator absent from the list yields the single
piece. -/
theorem splitCharL_no_sep {sep : Char} {s : List Char} (h : ¬ sep ∈ s) :
    splitCharL sep s = [s] := by
  induction s with
  | nil => rfl
  | cons c rest ih =>
      have hc : ¬ c == sep := by
        simp only [List.mem_cons, not_or] at h
        intro hb
        exact h.1 (eq_of_beq hb).symm
      have hr : ¬ sep ∈ rest := by
        simp only [List.mem_cons, not_or] at h
        exact h.2
      rw [splitCharL, if_neg hc, ih hr]

/-- Filtering the flattened per-pattern findings by one pattern's source
text keeps exactly that pattern's findings, because the source texts of the
credential table are pairwise distinct. -/
theorem cred_filter_flatMap (g : CredPattern → List SecurityFinding)
    (pats : List CredPattern) (cp : CredPattern) (hcp : cp ∈ pats)
    (hnd : (pats.map (fun c => c.src)).Nodup)
    (hsrc : ∀ c ∈ pats, ∀ f ∈ g c, f.pattern_matched = c.src) :
    (pats.flatMap g).filter (fun f => f.pattern_matched == cp.src)
      = (g cp).filter (fun f => f.pattern_matched == cp.src) := by
  induction pats with
  | nil => simp at hcp
  | cons c rest ih =>
      simp only [List.map_cons, List.nodup_cons] at hnd
      rw [List.flatMap_cons, List.filter_append]
      rcases List.mem_cons.mp hcp with rfl | hcp2
      · have hrest : (rest.flatMap g).filter (fun f => f.pattern_matched == cp.src)
            = [] := by
          rw [List.filter_eq_nil_iff]
          intro f hf
          simp only [List.mem_flatMap] at hf
          obtain ⟨c2, hc2, hf⟩ := hf
          rw [hsrc c2 (List.mem_cons_of_mem _ hc2) f hf]
          have hne : c2.src ≠ cp.src := by
            intro he
            exact hnd.1 (he ▸ List.mem_map_of_mem _ hc2)
          simpa using hne
        rw [hrest, List.append_nil]
      · have hhead : (g c).filter (fun f => f.pattern_matched == cp.src) = [] := by
          rw [List.filter_eq_nil_iff]
          intro f hf
          rw [hsrc c (List.mem_cons_self _ _) f hf]
          have hne : c.src ≠ cp.src := by
            intro he
            exact hnd.1 (he ▸ List.mem_map_of_mem _ hcp2)
          simpa using hne
        rw [hhead, List.nil_append]
        exact ih hcp2 hnd.2 (fun c2 hc2 => hsrc c2 (List.mem_cons_of_mem _ hc2))

/-- A list is a prefix of itself followed by anything. -/
theorem isPrefixOf_append_self {α : Type} [BEq α] [LawfulBEq α] (a b : List α) :
    a.isPrefixOf (a ++ b) = true := by
  induction a with
  | nil => simp [List.isPrefixOf]
  | cons c rest ih => simp [List.isPrefixOf, ih]

/-- Substring containment survives prepending. -/
theorem containsSub_append_right (a b n : List Char) (h : containsSub b n = true) :
    containsSub (a ++ b) n = true := by
  induction a with
  | nil => simpa using h
  | cons c rest ih =>
      rw [List.cons_append, containsSub]
      simp [ih]

/-- A prefix is contained as a substring. -/
theorem containsSub_prefix (s n : List Char) (h : n.isPrefixOf s = true) :
    containsSub s n = true := by
  cases s with
  | nil =>
      cases n with
      | nil => rfl
      | cons c rest => simp [List.isPrefixOf] at h
  | cons c rest =>
      rw [containsSub]
      simp [h]

/-- A successful `assemble` step forces the security list to be empty: the
first security finding's `Severity` enum member aborts
`_count_severities`. -/
theorem assembleResult_ok_security_empty {m0 : String} {sec : List SecurityFinding}
    {arch : List ArchitectureFinding} {tc : List TestCoverageFinding}
    {perf : List PerformanceFinding} {bc : List BreakingChangeFinding}
    {r : QualityCheckResult} (h : assembleResult m0 sec arch tc perf bc = .ok r) :
    sec = [] := by
  unfold assembleResult at h
  split at h
  · exact absurd h (by simp)
  · rename_i counts hcnt
    have hstr := countSeveritiesAux_ok_strVal hcnt
    cases hsec : sec with
    | nil => rfl
    | cons s rest =>
        exfalso
        have hmem : AnyFinding.security s ∈ flattenAll sec arch tc perf bc := by
          rw [hsec]
          unfold flattenAll
          exact List.mem_append_left _ (List.mem_append_left _ (List.mem_append_left _
            (List.mem_append_left _ (List.mem_map_of_mem _ (List.mem_cons_self _ _)))))
        obtain ⟨sv, hsv⟩ := hstr _ hmem
        simp [severityAttr] at hsv

/-- The histogram fields of a successfully assembled result count its own
findings' severity strings, provided lower-casing each severity is the
identity. -/
theorem assembleResult_inv {m0 : String} {sec : List SecurityFinding}
    {arch : List ArchitectureFinding} {tc : List TestCoverageFinding}
    {perf : List PerformanceFinding} {bc : List BreakingChangeFinding}
    {r : QualityCheckResult} (h : assembleResult m0 sec arch tc perf bc = .ok r)
    (hs : ∀ f ∈ flattenAll sec arch tc perf bc,
      sevLower (severityAttr f) = .ok (anySevStr f)) :
    r.critical_issues = (resultSevs r).count "critical"
    ∧ r.high_issues = (resultSevs r).count "high"
    ∧ r.medium_issues = (resultSevs r).count "medium"
    ∧ r.low_issues = (resultSevs r).count "low" := by
  unfold assembleResult at h
  split at h
  · exact absurd h (by simp)
  · rename_i counts hcnt
    have hcc := countSeveritiesAux_count (c := ⟨0, 0, 0, 0⟩) hs
    have h2 : (Except.ok counts : Except String SevCounts)
        = .ok ⟨0 + ((flattenAll sec arch tc perf bc).map anySevStr).count "critical",
               0 + ((flattenAll sec arch tc perf bc).map anySevStr).count "high",
               0 + ((flattenAll sec arch tc perf bc).map anySevStr).count "medium",
               0 + ((flattenAll sec arch tc perf bc).map anySevStr).count "low"⟩ := by
      rw [← hcnt]
      exact hcc
    injection h2 with h2
    injection h with h
    have hsevs : resultSevs r = (flattenAll sec arch tc perf bc).map anySevStr := by
      rw [← h]
      unfold resultSevs flattenAll
      simp only [List.map_append, List.map_map]
      rfl
    have hc1 : r.critical_issues = counts.critical := by rw [← h]
    have hc2 : r.high_issues = counts.high := by rw [← h]
    have hc3 : r.medium_issues = counts.medium := by rw [← h]
    have hc4 : r.low_issues = counts.low := by rw [← h]
    refine ⟨?_, ?_, ?_, ?_⟩
    · rw [hc1, h2, hsevs]
      simp
    · rw [hc2, h2, hsevs]
      simp
    · rw [hc3, h2, hsevs]
      simp
    · rw [hc4, h2, hsevs]
      simp

/-- Whitespace skip drops a leading whitespace character. -/
theorem skipWs_cons_ws {c : Char} {s : List Char}
    (h : (c == ' ' || c == '\t' || c == '\n' || c == '\r') = true) :
    skipWs (c :: s) = skipWs s := by
  simp only [skipWs, List.dropWhile_cons, h, if_true]

/-- Whitespace skip stops at a non-whitespace character. -/
theorem skipWs_cons_not {c : Char} {s : List Char}
    (h : (c == ' ' || c == '\t' || c == '\n' || c == '\r') = false) :
    skipWs (c :: s) = c :: s := by
  simp only [skipWs, List.dropWhile_cons, h]
  rfl

/-- Whitespace skip ignores an all-whitespace prefix. -/
theorem skipWs_append_ws {pre : List Char} {s : List Char}
    (h : ∀ c ∈ pre, (c == ' ' || c == '\t' || c == '\n' || c == '\r') = true) :
    skipWs (pre ++ s) = skipWs s := by
  induction pre with
  | nil => rfl
  | cons c rest ih =>
      rw [List.cons_append, skipWs_cons_ws (h c (List.mem_cons_self _ _))]
      exact ih (fun d hd => h d (List.mem_cons_of_mem _ hd))

/-- Whitespace skip ignores an indentation prefix. -/
theorem skipWs_indent (k : Nat) (s : List Char) :
    skipWs ((indentStr k).data ++ s) = skipWs s := by
  apply skipWs_append_ws
  intro c hc
  rw [show (indentStr k).data = List.replicate (2 * k) ' ' from rfl] at hc
  rw [List.eq_of_mem_replicate hc]
  rfl

/-- The value parser looks at its input only through `skipWs`. -/
theorem parseVal_ws {f : Nat} {s1 s2 : List Char} (h : skipWs s1 = skipWs s2) :
    parseVal f s1 = parseVal f s2 := by
  cases f with
  | zero => rfl
  | succ f2 => rw [parseVal, parseVal, h]

/-- `takeWhile` passes over a prefix it accepts entirely. -/
theorem takeWhile_append_all {α : Type} (p : α → Bool) (ds rest : List α)
    (h : ∀ c ∈ ds, p c = true) :
    (ds ++ rest).takeWhile p = ds ++ rest.takeWhile p := by
  induction ds with
  | nil => rfl
  | cons c t ih =>
      rw [List.cons_append, List.takeWhile_cons, h c (List.mem_cons_self _ _)]
      rw [ih (fun d hd => h d (List.mem_cons_of_mem _ hd))]
      simp

/-- The decimal digit characters are digits with the expected values. -/
theorem digitChar_spec (k : Nat) (h : k < 10) :
    (digitChar k).isDigit = true ∧ (digitChar k).toNat - 48 = k := by
  interval_cases k <;> exact ⟨by decide, by decide⟩

/-- `hexVal` inverts `hexDigit`. -/
theorem hexVal_hexDigit (k : Nat) (h : k < 16) : hexVal (hexDigit k) = some k := by
  interval_cases k <;> decide

/-- `parseU4` inverts `hex4` on values below 2^16. -/
theorem parseU4_hex4 (n : Nat) (h : n < 65536) (r : List Char) :
    parseU4 (hex4 n ++ r) = some (n, r) := by
  have h1 : n / 4096 % 16 < 16 := Nat.mod_lt _ (by norm_num)
  have h2 : n / 256 % 16 < 16 := Nat.mod_lt _ (by norm_num)
  have h3 : n / 16 % 16 < 16 := Nat.mod_lt _ (by norm_num)
  have h4 : n % 16 < 16 := Nat.mod_lt _ (by norm_num)
  rw [show hex4 n ++ r = hexDigit (n / 4096 % 16) :: hexDigit (n / 256 % 16)
    :: hexDigit (n / 16 % 16) :: hexDigit (n % 16) :: r from rfl]
  rw [parseU4, hexVal_hexDigit _ h1, hexVal_hexDigit _ h2, hexVal_hexDigit _ h3,
    hexVal_hexDigit _ h4]
  simp only [Option.some.injEq, Prod.mk.injEq]
  constructor
  · omega
  · trivial

/-- The decimal printer emits a non-empty all-digit string that folds back to
its argument. -/
theorem natDigitsAux_spec : ∀ (fuel n : Nat), n + 1 ≤ fuel →
    natDigitsAux fuel n ≠ []
    ∧ (∀ c ∈ natDigitsAux fuel n, c.isDigit = true)
    ∧ ∀ acc, (natDigitsAux fuel n).foldl (fun a c => a * 10 + (c.toNat - 48)) acc
        = acc * 10 ^ (natDigitsAux fuel n).length + n := by
  intro fuel
  induction fuel with
  | zero =>
      intro n hn
      omega
  | succ f ih =>
      intro n hn
      by_cases hlt : n < 10
      · rw [show natDigitsAux (f + 1) n = [digitChar n] from by rw [natDigitsAux, if_pos hlt]]
        obtain ⟨hd, hv⟩ := digitChar_spec n hlt
        refine ⟨by simp, ?_, ?_⟩
        · intro c hc
          rw [List.mem_singleton] at hc
          rw [hc]
          exact hd
        · intro acc
          simp only [List.foldl_cons, List.foldl_nil, List.length_cons, List.length_nil,
            pow_one, hv]
          omega
      · rw [show natDigitsAux (f + 1) n
            = natDigitsAux f (n / 10) ++ [digitChar (n % 10)] from by
          rw [natDigitsAux, if_neg hlt]]
        have hrec : n / 10 + 1 ≤ f := by omega
        obtain ⟨hne, hdig, hfold⟩ := ih (n / 10) hrec
        have hm : n % 10 < 10 := Nat.mod_lt _ (by norm_num)
        obtain ⟨hd, hv⟩ := digitChar_spec (n % 10) hm
        refine ⟨by simp, ?_, ?_⟩
        · intro c hc
          rw [List.mem_append, List.mem_singleton] at hc
          rcases hc with hc | rfl
          · exact hdig c hc
          · exact hd
        · intro acc
          rw [List.foldl_append, hfold acc]
          simp only [List.foldl_cons, List.foldl_nil, List.length_append,
            List.length_cons, List.length_nil, hv]
          calc (acc * 10 ^ (natDigitsAux f (n / 10)).length + n / 10) * 10 + n % 10
              = acc * 10 ^ (natDigitsAux f (n / 10)).length * 10
                + (n / 10 * 10 + n % 10) := by ring
            _ = acc * 10 ^ (natDigitsAux f (n / 10)).length * 10 + n := by
                omega
            _ = acc * 10 ^ ((natDigitsAux f (n / 10)).length + (0 + 1)) + n := by
                rw [pow_succ]
                ring_nf
  -- end

/-- `parseDigits` inverts the decimal printer when no digit follows. -/
theorem parseDigits_natRepr (n : Nat) (rest : List Char)
    (hr : rest.takeWhile Char.isDigit = []) :
    parseDigits ((natRepr n).data ++ rest) = some (n, rest) := by
  obtain ⟨hne, hdig, hfold⟩ := natDigitsAux_spec (n + 1) n (Nat.le_refl _)
  have hdata : (natRepr n).data = natDigitsAux (n + 1) n := rfl
  unfold parseDigits
  rw [hdata, takeWhile_append_all _ _ _ hdig, hr, List.append_nil]
  rw [if_neg (by simp [List.isEmpty_iff, hne])]
  rw [hfold 0, List.drop_left]
  simp

/-- Escaping then parsing a string body is the identity: `parseStrChars`
inverts `escChar`-escaping given enough fuel. -/
theorem parseStrChars_escape : ∀ (cs : List Char) (fuel : Nat) (rest : List Char),
    ((cs.flatMap escChar).length + 1 ≤ fuel) →
    parseStrChars fuel (cs.flatMap escChar ++ '"' :: rest) = some (cs, rest) := by
  intro cs
  induction cs with
  | nil =>
      intro fuel rest hf
      cases fuel with
      | zero => omega
      | succ f => rw [List.flatMap_nil, List.nil_append, parseStrChars]
  | cons c cs ih =>
      intro fuel rest hf
      rw [List.flatMap_cons, List.length_append] at hf
      have hcv : c.toNat < 0xD800 ∨ (0xDFFF < c.toNat ∧ c.toNat < 0x110000) := c.valid
      cases fuel with
      | zero =>
          have := (escChar c).length
          omega
      | succ f =>
          have hfr : (cs.flatMap escChar).length + 1 ≤ f := by
            have hpos : 1 ≤ (escChar c).length := by
              unfold escChar
              repeat' split
              all_goals simp [hex4]
            omega
          have ihe := ih f rest hfr
          rw [List.flatMap_cons, List.append_assoc]
          by_cases h1 : c == '"'
          · rw [show escChar c = ['\\', '"'] from by unfold escChar; rw [if_pos h1]]
            cases eq_of_beq h1
            show (parseStrChars f (cs.flatMap escChar ++ '"' :: rest)).map
              (fun p => (('"' : Char) :: p.1, p.2)) = some ('"' :: cs, rest)
            rw [ihe]
            rfl
          · by_cases h2 : c == '\\'
            · rw [show escChar c = ['\\', '\\'] from by
                unfold escChar; rw [if_neg h1, if_pos h2]]
              cases eq_of_beq h2
              show (parseStrChars f (cs.flatMap escChar ++ '"' :: rest)).map
                (fun p => (('\\' : Char) :: p.1, p.2)) = some ('\\' :: cs, rest)
              rw [ihe]
              rfl
            · by_cases h3 : c == '\n'
              · rw [show escChar c = ['\\', 'n'] from by
                  unfold escChar; rw [if_neg h1, if_neg h2, if_pos h3]]
                cases eq_of_beq h3
                show (parseStrChars f (cs.flatMap escChar ++ '"' :: rest)).map
                  (fun p => (('\n' : Char) :: p.1, p.2)) = some ('\n' :: cs, rest)
                rw [ihe]
                rfl
              · by_cases h4 : c == '\r'
                · rw [show escChar c = ['\\', 'r'] from by
                    unfold escChar; rw [if_neg h1, if_neg h2, if_neg h3, if_pos h4]]
                  cases eq_of_beq h4
                  show (parseStrChars f (cs.flatMap escChar ++ '"' :: rest)).map
                    (fun p => (('\r' : Char) :: p.1, p.2)) = some ('\r' :: cs, rest)
                  rw [ihe]
                  rfl
                · by_cases h5 : c == '\t'
                  · rw [show escChar c = ['\\', 't'] from by
                      unfold escChar
                      rw [if_neg h1, if_neg h2, if_neg h3, if_neg h4, if_pos h5]]
                    cases eq_of_beq h5
                    show (parseStrChars f (cs.flatMap escChar ++ '"' :: rest)).map
                      (fun p => (('\t' : Char) :: p.1, p.2)) = some ('\t' :: cs, rest)
                    rw [ihe]
                    rfl
                  · by_cases h6 : c.toNat == 8
                    · rw [show escChar c = ['\\', 'b'] from by
                        unfold escChar
                        rw [if_neg h1, if_neg h2, if_neg h3, if_neg h4, if_neg h5,
                          if_pos h6]]
                      have hc : Char.ofNat 8 = c := by
                        rw [show (8 : Nat) = c.toNat from (eq_of_beq h6).symm,
                          Char.ofNat_toNat]
                      show (parseStrChars f (cs.flatMap escChar ++ '"' :: rest)).map
                        (fun p => (Char.ofNat 8 :: p.1, p.2)) = some (c :: cs, rest)
                      rw [ihe, hc]
                      rfl
                    · by_cases h7 : c.toNat == 12
                      · rw [show escChar c = ['\\', 'f'] from by
                          unfold escChar
                          rw [if_neg h1, if_neg h2, if_neg h3, if_neg h4, if_neg h5,
                            if_neg h6, if_pos h7]]
                        have hc : Char.ofNat 12 = c := by
                          rw [show (12 : Nat) = c.toNat from (eq_of_beq h7).symm,
                            Char.ofNat_toNat]
                        show (parseStrChars f (cs.flatMap escChar ++ '"' :: rest)).map
                          (fun p => (Char.ofNat 12 :: p.1, p.2)) = some (c :: cs, rest)
                        rw [ihe, hc]
                        rfl
                      · by_cases h8 : (0x20 ≤ c.toNat && c.toNat < 0x7F) = true
                        · rw [show escChar c = [c] from by
                            unfold escChar
                            rw [if_neg h1, if_neg h2, if_neg h3, if_neg h4, if_neg h5,
                              if_neg h6, if_neg h7, if_pos h8]]
                          have hne1 : ¬ c = '"' :=
                            fun he => h1 (by rw [he]; exact beq_self_eq_true _)
                          have hne2 : ¬ c = '\\' :=
                            fun he => h2 (by rw [he]; exact beq_self_eq_true _)
                          rw [List.singleton_append, parseStrChars]
                          rotate_left
                          · exact hne1
                          · exact fun e r hc _ => hne2 hc
                          rw [ihe]
                          rfl
                        · by_cases h9 : c.toNat < 0x10000
                          · rw [show escChar c = '\\' :: 'u' :: hex4 c.toNat from by
                              unfold escChar
                              rw [if_neg h1, if_neg h2, if_neg h3, if_neg h4, if_neg h5,
                                if_neg h6, if_neg h7, if_neg h8, if_pos h9]]
                            rw [List.cons_append, List.cons_append, parseStrChars]
                            simp only []
                            rw [parseU4_hex4 _ (by omega)]
                            simp only []
                            rw [if_neg (by
                              simp only [Bool.and_eq_true, decide_eq_true_eq, not_and]
                              intro ha hb
                              rcases hcv with hv | hv <;> omega)]
                            rw [if_neg (by
                              simp only [Bool.and_eq_true, decide_eq_true_eq, not_and]
                              intro ha hb
                              rcases hcv with hv | hv <;> omega)]
                            rw [ihe, Char.ofNat_toNat]
                            rfl
                          · have hge : 0x10000 ≤ c.toNat := by omega
                            have hlt : c.toNat < 0x110000 := by
                              rcases hcv with hv | hv <;> omega
                            have hv2 : (c.toNat - 0x10000) % 0x400 < 0x400 :=
                              Nat.mod_lt _ (by norm_num)
                            rw [show escChar c
                                = ('\\' :: 'u'
                                    :: hex4 (0xD800 + (c.toNat - 0x10000) / 0x400))
                                  ++ ('\\' :: 'u'
                                    :: hex4 (0xDC00 + (c.toNat - 0x10000) % 0x400)) from by
                              unfold escChar
                              rw [if_neg h1, if_neg h2, if_neg h3, if_neg h4, if_neg h5,
                                if_neg h6, if_neg h7, if_neg h8, if_neg h9]]
                            rw [show ((('\\' :: 'u'
                                  :: hex4 (0xD800 + (c.toNat - 0x10000) / 0x400))
                                ++ ('\\' :: 'u'
                                  :: hex4 (0xDC00 + (c.toNat - 0x10000) % 0x400)))
                                ++ (cs.flatMap escChar ++ '"' :: rest))
                              = '\\' :: 'u'
                                :: (hex4 (0xD800 + (c.toNat - 0x10000) / 0x400)
                                  ++ ('\\' :: 'u'
                                    :: (hex4 (0xDC00 + (c.toNat - 0x10000) % 0x400)
                                      ++ (cs.flatMap escChar ++ '"' :: rest)))) from by
                              simp]
                            rw [parseStrChars]
                            simp only []
                            rw [parseU4_hex4 _ (by omega)]
                            simp only []
                            rw [if_pos (by
                              simp only [Bool.and_eq_true, decide_eq_true_eq]
                              omega)]
                            rw [parseU4_hex4 _ (by omega)]
                            simp only []
                            rw [if_pos (by
                              simp only [Bool.and_eq_true, decide_eq_true_eq]
                              omega)]
                            rw [ihe]
                            have harith : 0x10000
                                + ((0xD800 + (c.toNat - 0x10000) / 0x400) - 0xD800)
                                  * 0x400
                                + ((0xDC00 + (c.toNat - 0x10000) % 0x400) - 0xDC00)
                              = c.toNat := by omega
                            rw [harith, Char.ofNat_toNat]
                            rfl

/-- A false Boolean equation refutes the corresponding truth. -/
theorem neq_of_false {b : Bool} (h : b = false) : ¬(b = true) :=
  fun hb => by rw [h] at hb; exact Bool.noConfusion hb

/-- Indentation consists of whitespace characters. -/
theorem indent_ws (k : Nat) : ∀ c ∈ (indentStr k).data,
    (c == ' ' || c == '\t' || c == '\n' || c == '\r') = true := by
  intro c hc
  rw [show (indentStr k).data = List.replicate (2 * k) ' ' from rfl] at hc
  rw [List.eq_of_mem_replicate hc]
  rfl

/-- Whitespace lists concatenate. -/
theorem ws_append {a b : List Char}
    (ha : ∀ c ∈ a, (c == ' ' || c == '\t' || c == '\n' || c == '\r') = true)
    (hb : ∀ c ∈ b, (c == ' ' || c == '\t' || c == '\n' || c == '\r') = true) :
    ∀ c ∈ a ++ b, (c == ' ' || c == '\t' || c == '\n' || c == '\r') = true := by
  intro c hc
  rcases List.mem_append.mp hc with h | h
  · exact ha c h
  · exact hb c h

/-- Whitespace characters are not digits. -/
theorem ws_not_digit {c : Char}
    (h : (c == ' ' || c == '\t' || c == '\n' || c == '\r') = true) :
    c.isDigit = false := by
  simp only [Bool.or_eq_true] at h
  rcases h with ((h | h) | h) | h <;> rw [eq_of_beq h] <;> rfl

/-- A digit differs from any non-digit character. -/
theorem digit_ne {c : Char} (h : c.isDigit = true) (d : Char) (hd : d.isDigit = false) :
    (c == d) = false :=
  beq_eq_false_iff_ne.mpr (fun he => by rw [he] at h; rw [h] at hd; exact Bool.noConfusion hd)

/-- A digit is not whitespace. -/
theorem digit_not_ws {c : Char} (h : c.isDigit = true) :
    (c == ' ' || c == '\t' || c == '\n' || c == '\r') = false := by
  rw [digit_ne h ' ' (by decide), digit_ne h '\t' (by decide), digit_ne h '\n' (by decide),
    digit_ne h '\r' (by decide)]
  rfl

/-- Nothing digit-like survives at a whitespace-then-closer boundary. -/
theorem takeWhile_digit_close {sfx : List Char}
    (h : ∀ c ∈ sfx, (c == ' ' || c == '\t' || c == '\n' || c == '\r') = true)
    {b : Char} (hb : b.isDigit = false) (l : List Char) :
    (sfx ++ b :: l).takeWhile Char.isDigit = [] := by
  cases sfx with
  | nil => simp [List.takeWhile_cons, hb]
  | cons c cs =>
      simp [List.takeWhile_cons, ws_not_digit (h c (List.mem_cons_self _ _))]

/-- Every dumped value starts with a visible character that is not a closer
or separator, so the parser's whitespace skip stops right at it. -/
theorem dumpsVal_skip (lvl : Nat) (v : PyVal) (s : String)
    (h : dumpsVal lvl v = .ok s) (R : List Char) :
    ∃ c X, skipWs (s.data ++ R) = c :: X
      ∧ (c == ']') = false ∧ (c == '\x7d') = false ∧ (c == ',') = false := by
  cases v with
  | pstr t =>
      simp only [dumpsVal, Except.ok.injEq] at h
      subst h
      refine ⟨'"', (t.data.flatMap escChar ++ ['"']) ++ R, ?_, by decide, by decide, by decide⟩
      show skipWs ('"' :: ((t.data.flatMap escChar ++ ['"']) ++ R)) = _
      exact skipWs_cons_not (by decide)
  | pint n =>
      cases n with
      | ofNat m =>
          simp only [dumpsVal, intRepr, Except.ok.injEq] at h
          subst h
          obtain ⟨hne, hdigs, _⟩ := natDigitsAux_spec (m + 1) m (Nat.le_refl _)
          cases hds : natDigitsAux (m + 1) m with
          | nil => exact absurd hds hne
          | cons d dt =>
              have hd0 : d.isDigit = true :=
                hdigs d (by rw [hds]; exact List.mem_cons_self _ _)
              refine ⟨d, dt ++ R, ?_, digit_ne hd0 ']' (by decide),
                digit_ne hd0 '\x7d' (by decide), digit_ne hd0 ',' (by decide)⟩
              rw [show (natRepr m).data = natDigitsAux (m + 1) m from rfl, hds,
                List.cons_append]
              exact skipWs_cons_not (digit_not_ws hd0)
      | negSucc m =>
          simp only [dumpsVal, intRepr, Except.ok.injEq] at h
          subst h
          refine ⟨'-', (natRepr (m + 1)).data ++ R, ?_, by decide, by decide, by decide⟩
          show skipWs ('-' :: ((natRepr (m + 1)).data ++ R)) = _
          exact skipWs_cons_not (by decide)
  | pbool b =>
      cases b with
      | true =>
          simp only [dumpsVal, Except.ok.injEq] at h
          subst h
          refine ⟨'t', "rue".data ++ R, ?_, by decide, by decide, by decide⟩
          show skipWs ('t' :: ("rue".data ++ R)) = _
          exact skipWs_cons_not (by decide)
      | false =>
          simp only [dumpsVal, Except.ok.injEq] at h
          subst h
          refine ⟨'f', "alse".data ++ R, ?_, by decide, by decide, by decide⟩
          show skipWs ('f' :: ("alse".data ++ R)) = _
          exact skipWs_cons_not (by decide)
  | pnone =>
      simp only [dumpsVal, Except.ok.injEq] at h
      subst h
      refine ⟨'n', "ull".data ++ R, ?_, by decide, by decide, by decide⟩
      show skipWs ('n' :: ("ull".data ++ R)) = _
      exact skipWs_cons_not (by decide)
  | penum e => exact Except.noConfusion h
  | plist xs =>
      cases xs with
      | nil =>
          simp only [dumpsVal, Except.ok.injEq] at h
          subst h
          refine ⟨'[', "]".data ++ R, ?_, by decide, by decide, by decide⟩
          show skipWs ('[' :: ("]".data ++ R)) = _
          exact skipWs_cons_not (by decide)
      | cons v t =>
          simp only [dumpsVal] at h
          cases hDI : dumpsItems (lvl + 1) (.cons v t) with
          | error e => rw [hDI] at h; exact Except.noConfusion h
          | ok parts =>
              rw [hDI] at h
              simp only [Except.ok.injEq] at h
              subst h
              refine ⟨'[', '\n' ::
                ((((strJoin ",\n" (parts.map (fun p => indentStr (lvl + 1) ++ p))).data
                  ++ ['\n']) ++ (indentStr lvl).data ++ [']']) ++ R),
                ?_, by decide, by decide, by decide⟩
              show skipWs ('[' :: ('\n' :: _)) = _
              exact skipWs_cons_not (by decide)
  | pdict fs =>
      cases fs with
      | nil =>
          simp only [dumpsVal, Except.ok.injEq] at h
          subst h
          refine ⟨'\x7b', "\x7d".data ++ R, ?_, by decide, by decide, by decide⟩
          show skipWs ('\x7b' :: ("\x7d".data ++ R)) = _
          exact skipWs_cons_not (by decide)
      | cons k v t =>
          simp only [dumpsVal] at h
          cases hDF : dumpsFields (lvl + 1) (.cons k v t) with
          | error e => rw [hDF] at h; exact Except.noConfusion h
          | ok parts =>
              rw [hDF] at h
              simp only [Except.ok.injEq] at h
              subst h
              refine ⟨'\x7b', '\n' ::
                ((((strJoin ",\n" (parts.map (fun p => indentStr (lvl + 1) ++ p))).data
                  ++ ['\n']) ++ (indentStr lvl).data ++ ['\x7d']) ++ R),
                ?_, by decide, by decide, by decide⟩
              show skipWs ('\x7b' :: ('\n' :: _)) = _
              exact skipWs_cons_not (by decide)

/-- One `,`-headed tail never contributes digits. -/
theorem takeWhile_digit_comma (l : List Char) :
    ((',' :: l).takeWhile Char.isDigit) = [] := by
  simp [List.takeWhile_cons]

theorem parseVal_step (f : Nat)
    (ihI : ∀ lvl xs parts pre sfx after, noEnumList xs = true →
        dumpsItems lvl xs = Except.ok parts → xs ≠ PyValList.nil →
        (∀ c ∈ pre, (c == ' ' || c == '\t' || c == '\n' || c == '\r') = true) →
        (∀ c ∈ sfx, (c == ' ' || c == '\t' || c == '\n' || c == '\r') = true) →
        (strJoin ",\n" (parts.map (fun p => indentStr lvl ++ p))).data.length + 2 ≤ f →
        parseItems f (pre ++
            ((strJoin ",\n" (parts.map (fun p => indentStr lvl ++ p))).data
              ++ (sfx ++ ']' :: after)))
          = some (toJList xs, after))
    (ihM : ∀ lvl fs parts pre sfx after, noEnumFields fs = true →
        dumpsFields lvl fs = Except.ok parts → fs ≠ PyFields.nil →
        (∀ c ∈ pre, (c == ' ' || c == '\t' || c == '\n' || c == '\r') = true) →
        (∀ c ∈ sfx, (c == ' ' || c == '\t' || c == '\n' || c == '\r') = true) →
        (strJoin ",\n" (parts.map (fun p => indentStr lvl ++ p))).data.length + 2 ≤ f →
        parseMembers f (pre ++
            ((strJoin ",\n" (parts.map (fun p => indentStr lvl ++ p))).data
              ++ (sfx ++ '\x7d' :: after)))
          = some (toJFields fs, after)) :
    ∀ lvl v s pre after, noEnum v = true → dumpsVal lvl v = Except.ok s →
      (∀ c ∈ pre, (c == ' ' || c == '\t' || c == '\n' || c == '\r') = true) →
      after.takeWhile Char.isDigit = [] →
      s.data.length < f + 1 →
      parseVal (f + 1) (pre ++ (s.data ++ after)) = some (toJ v, after) := by
  intro lvl v s pre after hne hd hpre hdig hb
  cases v with
  | pstr t =>
      rw [show dumpsVal lvl (PyVal.pstr t) = Except.ok (jsonEscape t) from rfl] at hd
      simp only [Except.ok.injEq] at hd
      subst hd
      rw [parseVal, skipWs_append_ws hpre]
      rw [show (jsonEscape t).data ++ after
          = '"' :: ((t.data.flatMap escChar ++ ['"']) ++ after) from rfl]
      rw [skipWs_cons_not (by decide)]
      show (parseStrChars (((t.data.flatMap escChar ++ ['"']) ++ after).length + 1)
          ((t.data.flatMap escChar ++ ['"']) ++ after)).map
        (fun p => (JVal.jstr (String.mk p.1), p.2)) = some (toJ (PyVal.pstr t), after)
      rw [show (t.data.flatMap escChar ++ ['"']) ++ after
          = t.data.flatMap escChar ++ ('"' :: after) from by simp]
      rw [parseStrChars_escape t.data _ after
        (by simp only [List.length_append, List.length_cons]; omega)]
      rfl
  | pint n =>
      cases n with
      | ofNat m =>
          rw [show dumpsVal lvl (PyVal.pint (Int.ofNat m)) = Except.ok (natRepr m)
            from rfl] at hd
          simp only [Except.ok.injEq] at hd
          subst hd
          obtain ⟨hne2, hdigs, _⟩ := natDigitsAux_spec (m + 1) m (Nat.le_refl _)
          cases hds : natDigitsAux (m + 1) m with
          | nil => exact absurd hds hne2
          | cons d dt =>
              have hd0 : d.isDigit = true :=
                hdigs d (by rw [hds]; exact List.mem_cons_self _ _)
              rw [parseVal, skipWs_append_ws hpre]
              rw [show (natRepr m).data = natDigitsAux (m + 1) m from rfl, hds,
                List.cons_append]
              rw [skipWs_cons_not (digit_not_ws hd0)]
              show (if (d == '"') = true then
                  (parseStrChars ((dt ++ after).length + 1) (dt ++ after)).map
                    (fun p => (JVal.jstr (String.mk p.1), p.2))
                else if (d == '\x7b') = true then
                  match skipWs (dt ++ after) with
                  | '\x7d' :: r2 => some (JVal.jobj [], r2)
                  | _ => (parseMembers f (dt ++ after)).map (fun p => (JVal.jobj p.1, p.2))
                else if (d == '[') = true then
                  match skipWs (dt ++ after) with
                  | ']' :: r2 => some (JVal.jarr [], r2)
                  | _ => (parseItems f (dt ++ after)).map (fun p => (JVal.jarr p.1, p.2))
                else if (d == 't') = true then
                  if ['r', 'u', 'e'].isPrefixOf (dt ++ after) = true then
                    some (JVal.jbool true, (dt ++ after).drop 3)
                  else none
                else if (d == 'f') = true then
                  if ['a', 'l', 's', 'e'].isPrefixOf (dt ++ after) = true then
                    some (JVal.jbool false, (dt ++ after).drop 4)
                  else none
                else if (d == 'n') = true then
                  if ['u', 'l', 'l'].isPrefixOf (dt ++ after) = true then
                    some (JVal.jnull, (dt ++ after).drop 3)
                  else none
                else if (d == '-') = true then
                  (parseDigits (dt ++ after)).map
                    (fun p => (JVal.jint (-(p.1 : Int)), p.2))
                else if d.isDigit = true then
                  (parseDigits (d :: (dt ++ after))).map
                    (fun p => (JVal.jint (p.1 : Int), p.2))
                else none) = some (toJ (PyVal.pint (Int.ofNat m)), after)
              rw [if_neg (neq_of_false (digit_ne hd0 '"' (by decide))),
                if_neg (neq_of_false (digit_ne hd0 '\x7b' (by decide))),
                if_neg (neq_of_false (digit_ne hd0 '[' (by decide))),
                if_neg (neq_of_false (digit_ne hd0 't' (by decide))),
                if_neg (neq_of_false (digit_ne hd0 'f' (by decide))),
                if_neg (neq_of_false (digit_ne hd0 'n' (by decide))),
                if_neg (neq_of_false (digit_ne hd0 '-' (by decide))),
                if_pos hd0]
              rw [show d :: (dt ++ after) = (natRepr m).data ++ after from by
                rw [show (natRepr m).data = natDigitsAux (m + 1) m from rfl, hds]; rfl]
              rw [parseDigits_natRepr m after hdig]
              rfl
      | negSucc m =>
          rw [show dumpsVal lvl (PyVal.pint (Int.negSucc m))
              = Except.ok ("-" ++ natRepr (m + 1)) from rfl] at hd
          simp only [Except.ok.injEq] at hd
          subst hd
          rw [parseVal, skipWs_append_ws hpre]
          rw [show ("-" ++ natRepr (m + 1)).data ++ after
              = '-' :: ((natRepr (m + 1)).data ++ after) from rfl]
          rw [skipWs_cons_not (by decide)]
          show (parseDigits ((natRepr (m + 1)).data ++ after)).map
            (fun p => (JVal.jint (-(p.1 : Int)), p.2))
            = some (toJ (PyVal.pint (Int.negSucc m)), after)
          rw [parseDigits_natRepr (m + 1) after hdig]
          rfl
  | pbool b =>
      cases b with
      | true =>
          rw [show dumpsVal lvl (PyVal.pbool true) = Except.ok "true" from rfl] at hd
          simp only [Except.ok.injEq] at hd
          subst hd
          rw [parseVal, skipWs_append_ws hpre]
          rw [show ("true" : String).data ++ after
              = 't' :: (("rue" : String).data ++ after) from rfl]
          rw [skipWs_cons_not (by decide)]
          show (if ['r', 'u', 'e'].isPrefixOf (("rue" : String).data ++ after) = true then
              some (JVal.jbool true, (("rue" : String).data ++ after).drop 3)
            else none) = some (toJ (PyVal.pbool true), after)
          rw [show ("rue" : String).data ++ after = ['r', 'u', 'e'] ++ after from rfl]
          rw [if_pos (isPrefixOf_append_self _ _)]
          rfl
      | false =>
          rw [show dumpsVal lvl (PyVal.pbool false) = Except.ok "false" from rfl] at hd
          simp only [Except.ok.injEq] at hd
          subst hd
          rw [parseVal, skipWs_append_ws hpre]
          rw [show ("false" : String).data ++ after
              = 'f' :: (("alse" : String).data ++ after) from rfl]
          rw [skipWs_cons_not (by decide)]
          show (if ['a', 'l', 's', 'e'].isPrefixOf (("alse" : String).data ++ after) = true
              then some (JVal.jbool false, (("alse" : String).data ++ after).drop 4)
            else none) = some (toJ (PyVal.pbool false), after)
          rw [show ("alse" : String).data ++ after = ['a', 'l', 's', 'e'] ++ after from rfl]
          rw [if_pos (isPrefixOf_append_self _ _)]
          rfl
  | pnone =>
      rw [show dumpsVal lvl PyVal.pnone = Except.ok "null" from rfl] at hd
      simp only [Except.ok.injEq] at hd
      subst hd
      rw [parseVal, skipWs_append_ws hpre]
      rw [show ("null" : String).data ++ after
          = 'n' :: (("ull" : String).data ++ after) from rfl]
      rw [skipWs_cons_not (by decide)]
      show (if ['u', 'l', 'l'].isPrefixOf (("ull" : String).data ++ after) = true then
          some (JVal.jnull, (("ull" : String).data ++ after).drop 3)
        else none) = some (toJ PyVal.pnone, after)
      rw [show ("ull" : String).data ++ after = ['u', 'l', 'l'] ++ after from rfl]
      rw [if_pos (isPrefixOf_append_self _ _)]
      rfl
  | penum e => exact Except.noConfusion hd
  | plist xs =>
      cases xs with
      | nil =>
          rw [show dumpsVal lvl (PyVal.plist PyValList.nil) = Except.ok "[]" from rfl] at hd
          simp only [Except.ok.injEq] at hd
          subst hd
          rw [parseVal, skipWs_append_ws hpre]
          rw [show ("[]" : String).data ++ after = '[' :: (']' :: after) from rfl]
          rw [skipWs_cons_not (by decide)]
          show (match skipWs (']' :: after) with
            | ']' :: r2 => some (JVal.jarr [], r2)
            | _ => (parseItems f (']' :: after)).map (fun p => (JVal.jarr p.1, p.2)))
            = some (toJ (PyVal.plist PyValList.nil), after)
          rw [skipWs_cons_not (by decide)]
          rfl
      | cons v t =>
          cases hDI : dumpsItems (lvl + 1) (PyValList.cons v t) with
          | error e =>
              have hx : dumpsVal lvl (PyVal.plist (PyValList.cons v t))
                  = Except.error e := by
                rw [dumpsVal, hDI]
              rw [hx] at hd
              exact Except.noConfusion hd
          | ok parts =>
              have hx : dumpsVal lvl (PyVal.plist (PyValList.cons v t))
                  = Except.ok ("[\n"
                      ++ strJoin ",\n" (parts.map (fun p => indentStr (lvl + 1) ++ p))
                      ++ "\n" ++ indentStr lvl ++ "]") := by
                rw [dumpsVal, hDI]
              rw [hx] at hd
              simp only [Except.ok.injEq] at hd
              subst hd
              cases hv1 : dumpsVal (lvl + 1) v with
              | error e =>
                  have hy : dumpsItems (lvl + 1) (PyValList.cons v t)
                      = Except.error e := by
                    rw [dumpsItems, hv1]
                    cases dumpsItems (lvl + 1) t <;> rfl
                  rw [hy] at hDI
                  exact Except.noConfusion hDI
              | ok s1 =>
                  cases ht1 : dumpsItems (lvl + 1) t with
                  | error e =>
                      have hy : dumpsItems (lvl + 1) (PyValList.cons v t)
                          = Except.error e := by
                        rw [dumpsItems, hv1, ht1]
                      rw [hy] at hDI
                      exact Except.noConfusion hDI
                  | ok parts2 =>
                      have hy : dumpsItems (lvl + 1) (PyValList.cons v t)
                          = Except.ok (s1 :: parts2) := by
                        rw [dumpsItems, hv1, ht1]
                      rw [hy] at hDI
                      simp only [Except.ok.injEq] at hDI
                      subst hDI
                      simp only [noEnum, noEnumList, Bool.and_eq_true] at hne
                      obtain ⟨hnv, hnt⟩ := hne
                      rw [parseVal, skipWs_append_ws hpre]
                      rw [show ("[\n"
                            ++ strJoin ",\n"
                              ((s1 :: parts2).map (fun p => indentStr (lvl + 1) ++ p))
                            ++ "\n" ++ indentStr lvl ++ "]").data ++ after
                          = '[' :: ('\n' ::
                              ((strJoin ",\n"
                                  ((s1 :: parts2).map (fun p => indentStr (lvl + 1) ++ p))).data
                                ++ ('\n' :: ((indentStr lvl).data ++ (']' :: after)))))
                        from by
                          simp only [String.data_append, List.append_assoc, List.cons_append,
                            List.singleton_append]
                          rfl]
                      rw [skipWs_cons_not (by decide)]
                      show (match skipWs ('\n' ::
                            ((strJoin ",\n"
                                ((s1 :: parts2).map (fun p => indentStr (lvl + 1) ++ p))).data
                              ++ ('\n' :: ((indentStr lvl).data ++ (']' :: after))))) with
                        | ']' :: r2 => some (JVal.jarr [], r2)
                        | _ => (parseItems f ('\n' ::
                            ((strJoin ",\n"
                                ((s1 :: parts2).map (fun p => indentStr (lvl + 1) ++ p))).data
                              ++ ('\n' :: ((indentStr lvl).data ++ (']' :: after)))))).map
                            (fun p => (JVal.jarr p.1, p.2)))
                        = some (toJ (PyVal.plist (PyValList.cons v t)), after)
                      have hT : ∃ T,
                          (strJoin ",\n"
                              ((s1 :: parts2).map (fun p => indentStr (lvl + 1) ++ p))).data
                            ++ ('\n' :: ((indentStr lvl).data ++ (']' :: after)))
                          = (indentStr (lvl + 1)).data ++ (s1.data ++ T) := by
                        cases parts2 with
                        | nil =>
                            exact ⟨'\n' :: ((indentStr lvl).data ++ (']' :: after)), by
                              simp [strJoin, String.data_append]⟩
                        | cons p2 ps =>
                            exact ⟨(",\n" ++ strJoin ",\n"
                                ((p2 :: ps).map (fun p => indentStr (lvl + 1) ++ p))).data
                                ++ ('\n' :: ((indentStr lvl).data ++ (']' :: after))), by
                              simp [strJoin, String.data_append]⟩
                      obtain ⟨T, hTeq⟩ := hT
                      obtain ⟨c1, X1, hskip1, hrb, hrc, _⟩ :=
                        dumpsVal_skip (lvl + 1) v s1 hv1 T
                      have hskip : skipWs ('\n' ::
                          ((strJoin ",\n"
                              ((s1 :: parts2).map (fun p => indentStr (lvl + 1) ++ p))).data
                            ++ ('\n' :: ((indentStr lvl).data ++ (']' :: after)))))
                          = c1 :: X1 := by
                        rw [skipWs_cons_ws (by decide), hTeq,
                          skipWs_append_ws (indent_ws _)]
                        exact hskip1
                      rw [hskip]
                      split
                      · next r2 heq =>
                          first
                          | (injection heq with h1 h2; rw [h1] at hrb
                             exact absurd hrb (by decide))
                          | (injection heq.symm with h1 h2; rw [h1] at hrb
                             exact absurd hrb (by decide))
                      · next =>
                          have hlen : (strJoin ",\n"
                              ((s1 :: parts2).map (fun p => indentStr (lvl + 1) ++ p))).data.length
                              + 2 ≤ f := by
                            have h2 : ("[\n"
                                ++ strJoin ",\n"
                                  ((s1 :: parts2).map (fun p => indentStr (lvl + 1) ++ p))
                                ++ "\n" ++ indentStr lvl ++ "]").data.length
                                = (strJoin ",\n"
                                    ((s1 :: parts2).map (fun p => indentStr (lvl + 1) ++ p))).data.length
                                  + (indentStr lvl).data.length + 4 := by
                              simp only [String.data_append, List.length_append,
                                show ("[\n" : String).data = ['[', '\n'] from rfl,
                                show ("\n" : String).data = ['\n'] from rfl,
                                show ("]" : String).data = [']'] from rfl,
                                List.length_cons, List.length_nil]
                              omega
                            omega
                          have hII := ihI (lvl + 1) (PyValList.cons v t) (s1 :: parts2)
                            ['\n'] ('\n' :: (indentStr lvl).data) after
                            (by simp only [noEnumList, Bool.and_eq_true]; exact ⟨hnv, hnt⟩)
                            (by rw [dumpsItems, hv1, ht1])
                            (fun hcon => PyValList.noConfusion hcon)
                            (by intro c hc; rw [List.mem_singleton] at hc; subst hc; rfl)
                            (by
                              intro c hc
                              rcases List.mem_cons.mp hc with h | h
                              · subst h; rfl
                              · exact indent_ws lvl c h)
                            hlen
                          have hII2 : parseItems f ('\n' ::
                              ((strJoin ",\n"
                                  ((s1 :: parts2).map (fun p => indentStr (lvl + 1) ++ p))).data
                                ++ ('\n' :: ((indentStr lvl).data ++ (']' :: after)))))
                              = some (toJList (PyValList.cons v t), after) := hII
                          rw [hII2]
                          rfl
  | pdict fs =>
      cases fs with
      | nil =>
          rw [show dumpsVal lvl (PyVal.pdict PyFields.nil) = Except.ok "\x7b\x7d"
            from rfl] at hd
          simp only [Except.ok.injEq] at hd
          subst hd
          rw [parseVal, skipWs_append_ws hpre]
          rw [show ("\x7b\x7d" : String).data ++ after = '\x7b' :: ('\x7d' :: after)
            from rfl]
          rw [skipWs_cons_not (by decide)]
          show (match skipWs ('\x7d' :: after) with
            | '\x7d' :: r2 => some (JVal.jobj [], r2)
            | _ => (parseMembers f ('\x7d' :: after)).map (fun p => (JVal.jobj p.1, p.2)))
            = some (toJ (PyVal.pdict PyFields.nil), after)
          rw [skipWs_cons_not (by decide)]
          rfl
      | cons k v t =>
          cases hDF : dumpsFields (lvl + 1) (PyFields.cons k v t) with
          | error e =>
              have hx : dumpsVal lvl (PyVal.pdict (PyFields.cons k v t))
                  = Except.error e := by
                rw [dumpsVal, hDF]
              rw [hx] at hd
              exact Except.noConfusion hd
          | ok parts =>
              have hx : dumpsVal lvl (PyVal.pdict (PyFields.cons k v t))
                  = Except.ok ("\x7b\n"
                      ++ strJoin ",\n" (parts.map (fun p => indentStr (lvl + 1) ++ p))
                      ++ "\n" ++ indentStr lvl ++ "\x7d") := by
                rw [dumpsVal, hDF]
              rw [hx] at hd
              simp only [Except.ok.injEq] at hd
              subst hd
              cases hv1 : dumpsVal (lvl + 1) v with
              | error e =>
                  have hy : dumpsFields (lvl + 1) (PyFields.cons k v t)
                      = Except.error e := by
                    rw [dumpsFields, hv1]
                    cases dumpsFields (lvl + 1) t <;> rfl
                  rw [hy] at hDF
                  exact Except.noConfusion hDF
              | ok s1 =>
                  cases ht1 : dumpsFields (lvl + 1) t with
                  | error e =>
                      have hy : dumpsFields (lvl + 1) (PyFields.cons k v t)
                          = Except.error e := by
                        rw [dumpsFields, hv1, ht1]
                      rw [hy] at hDF
                      exact Except.noConfusion hDF
                  | ok parts2 =>
                      have hy : dumpsFields (lvl + 1) (PyFields.cons k v t)
                          = Except.ok ((jsonEscape k ++ ": " ++ s1) :: parts2) := by
                        rw [dumpsFields, hv1, ht1]
                      rw [hy] at hDF
                      simp only [Except.ok.injEq] at hDF
                      subst hDF
                      simp only [noEnum, noEnumFields, Bool.and_eq_true] at hne
                      obtain ⟨hnv, hnt⟩ := hne
                      rw [parseVal, skipWs_append_ws hpre]
                      rw [show ("\x7b\n"
                            ++ strJoin ",\n"
                              (((jsonEscape k ++ ": " ++ s1) :: parts2).map
                                (fun p => indentStr (lvl + 1) ++ p))
                            ++ "\n" ++ indentStr lvl ++ "\x7d").data ++ after
                          = '\x7b' :: ('\n' ::
                              ((strJoin ",\n"
                                  (((jsonEscape k ++ ": " ++ s1) :: parts2).map
                                    (fun p => indentStr (lvl + 1) ++ p))).data
                                ++ ('\n' :: ((indentStr lvl).data ++ ('\x7d' :: after)))))
                        from by
                          simp only [String.data_append, List.append_assoc, List.cons_append,
                            List.singleton_append]
                          rfl]
                      rw [skipWs_cons_not (by decide)]
                      show (match skipWs ('\n' ::
                            ((strJoin ",\n"
                                (((jsonEscape k ++ ": " ++ s1) :: parts2).map
                                  (fun p => indentStr (lvl + 1) ++ p))).data
                              ++ ('\n' :: ((indentStr lvl).data ++ ('\x7d' :: after))))) with
                        | '\x7d' :: r2 => some (JVal.jobj [], r2)
                        | _ => (parseMembers f ('\n' ::
                            ((strJoin ",\n"
                                (((jsonEscape k ++ ": " ++ s1) :: parts2).map
                                  (fun p => indentStr (lvl + 1) ++ p))).data
                              ++ ('\n' :: ((indentStr lvl).data ++ ('\x7d' :: after)))))).map
                            (fun p => (JVal.jobj p.1, p.2)))
                        = some (toJ (PyVal.pdict (PyFields.cons k v t)), after)
                      have hT : ∃ T,
                          (strJoin ",\n"
                              (((jsonEscape k ++ ": " ++ s1) :: parts2).map
                                (fun p => indentStr (lvl + 1) ++ p))).data
                            ++ ('\n' :: ((indentStr lvl).data ++ ('\x7d' :: after)))
                          = (indentStr (lvl + 1)).data
                            ++ ('"' :: ((k.data.flatMap escChar ++ ['"'])
                              ++ (':' :: (' ' :: (s1.data ++ T))))) := by
                        cases parts2 with
                        | nil =>
                            refine ⟨'\n' :: ((indentStr lvl).data ++ ('\x7d' :: after)), ?_⟩
                            simp [strJoin, String.data_append,
                              show (jsonEscape k).data
                                = '"' :: (k.data.flatMap escChar ++ ['"']) from rfl,
                              show (": " : String).data = [':', ' '] from rfl]
                        | cons p2 ps =>
                            refine ⟨(",\n" ++ strJoin ",\n"
                                ((p2 :: ps).map (fun p => indentStr (lvl + 1) ++ p))).data
                                ++ ('\n' :: ((indentStr lvl).data ++ ('\x7d' :: after))), ?_⟩
                            simp [strJoin, String.data_append,
                              show (jsonEscape k).data
                                = '"' :: (k.data.flatMap escChar ++ ['"']) from rfl,
                              show (": " : String).data = [':', ' '] from rfl]
                      obtain ⟨T, hTeq⟩ := hT
                      have hskip : skipWs ('\n' ::
                          ((strJoin ",\n"
                              (((jsonEscape k ++ ": " ++ s1) :: parts2).map
                                (fun p => indentStr (lvl + 1) ++ p))).data
                            ++ ('\n' :: ((indentStr lvl).data ++ ('\x7d' :: after)))))
                          = '"' :: ((k.data.flatMap escChar ++ ['"'])
                              ++ (':' :: (' ' :: (s1.data ++ T)))) := by
                        rw [skipWs_cons_ws (by decide), hTeq,
                          skipWs_append_ws (indent_ws _)]
                        exact skipWs_cons_not (by decide)
                      rw [hskip]
                      split
                      · next r2 heq =>
                          first
                          | exact absurd (List.head_eq_of_cons_eq heq) (by decide)
                          | exact absurd (List.head_eq_of_cons_eq heq.symm) (by decide)
                      · next =>
                          have hlen : (strJoin ",\n"
                              (((jsonEscape k ++ ": " ++ s1) :: parts2).map
                                (fun p => indentStr (lvl + 1) ++ p))).data.length
                              + 2 ≤ f := by
                            have h2 : ("\x7b\n"
                                ++ strJoin ",\n"
                                  (((jsonEscape k ++ ": " ++ s1) :: parts2).map
                                    (fun p => indentStr (lvl + 1) ++ p))
                                ++ "\n" ++ indentStr lvl ++ "\x7d").data.length
                                = (strJoin ",\n"
                                    (((jsonEscape k ++ ": " ++ s1) :: parts2).map
                                      (fun p => indentStr (lvl + 1) ++ p))).data.length
                                  + (indentStr lvl).data.length + 4 := by
                              simp only [String.data_append, List.length_append,
                                show ("\x7b\n" : String).data = ['\x7b', '\n'] from rfl,
                                show ("\n" : String).data = ['\n'] from rfl,
                                show ("\x7d" : String).data = ['\x7d'] from rfl,
                                List.length_cons, List.length_nil]
                              omega
                            omega
                          have hMM := ihM (lvl + 1) (PyFields.cons k v t)
                            ((jsonEscape k ++ ": " ++ s1) :: parts2)
                            ['\n'] ('\n' :: (indentStr lvl).data) after
                            (by simp only [noEnumFields, Bool.and_eq_true]; exact ⟨hnv, hnt⟩)
                            (by rw [dumpsFields, hv1, ht1])
                            (fun hcon => PyFields.noConfusion hcon)
                            (by intro c hc; rw [List.mem_singleton] at hc; subst hc; rfl)
                            (by
                              intro c hc
                              rcases List.mem_cons.mp hc with h | h
                              · subst h; rfl
                              · exact indent_ws lvl c h)
                            hlen
                          have hMM2 : parseMembers f ('\n' ::
                              ((strJoin ",\n"
                                  (((jsonEscape k ++ ": " ++ s1) :: parts2).map
                                    (fun p => indentStr (lvl + 1) ++ p))).data
                                ++ ('\n' :: ((indentStr lvl).data ++ ('\x7d' :: after)))))
                              = some (toJFields (PyFields.cons k v t), after) := hMM
                          rw [hMM2]
                          rfl

theorem parseItems_step (f : Nat)
    (ihV : ∀ lvl v s pre after, noEnum v = true → dumpsVal lvl v = Except.ok s →
        (∀ c ∈ pre, (c == ' ' || c == '\t' || c == '\n' || c == '\r') = true) →
        after.takeWhile Char.isDigit = [] →
        s.data.length < f →
        parseVal f (pre ++ (s.data ++ after)) = some (toJ v, after))
    (ihI : ∀ lvl xs parts pre sfx after, noEnumList xs = true →
        dumpsItems lvl xs = Except.ok parts → xs ≠ PyValList.nil →
        (∀ c ∈ pre, (c == ' ' || c == '\t' || c == '\n' || c == '\r') = true) →
        (∀ c ∈ sfx, (c == ' ' || c == '\t' || c == '\n' || c == '\r') = true) →
        (strJoin ",\n" (parts.map (fun p => indentStr lvl ++ p))).data.length + 2 ≤ f →
        parseItems f (pre ++
            ((strJoin ",\n" (parts.map (fun p => indentStr lvl ++ p))).data
              ++ (sfx ++ ']' :: after)))
          = some (toJList xs, after)) :
    ∀ lvl xs parts pre sfx after, noEnumList xs = true →
      dumpsItems lvl xs = Except.ok parts → xs ≠ PyValList.nil →
      (∀ c ∈ pre, (c == ' ' || c == '\t' || c == '\n' || c == '\r') = true) →
      (∀ c ∈ sfx, (c == ' ' || c == '\t' || c == '\n' || c == '\r') = true) →
      (strJoin ",\n" (parts.map (fun p => indentStr lvl ++ p))).data.length + 2 ≤ f + 1 →
      parseItems (f + 1) (pre ++
          ((strJoin ",\n" (parts.map (fun p => indentStr lvl ++ p))).data
            ++ (sfx ++ ']' :: after)))
        = some (toJList xs, after) := by
  intro lvl xs parts pre sfx after hne hd hxne hpre hsfx hb
  cases xs with
  | nil => exact absurd rfl hxne
  | cons v t =>
      cases hv1 : dumpsVal lvl v with
      | error e =>
          have hy : dumpsItems lvl (PyValList.cons v t) = Except.error e := by
            rw [dumpsItems, hv1]
            cases dumpsItems lvl t <;> rfl
          rw [hy] at hd
          exact Except.noConfusion hd
      | ok s1 =>
          cases ht1 : dumpsItems lvl t with
          | error e =>
              have hy : dumpsItems lvl (PyValList.cons v t) = Except.error e := by
                rw [dumpsItems, hv1, ht1]
              rw [hy] at hd
              exact Except.noConfusion hd
          | ok parts2 =>
              have hy : dumpsItems lvl (PyValList.cons v t) = Except.ok (s1 :: parts2) := by
                rw [dumpsItems, hv1, ht1]
              rw [hy] at hd
              simp only [Except.ok.injEq] at hd
              subst hd
              simp only [noEnumList, Bool.and_eq_true] at hne
              obtain ⟨hnv, hnt⟩ := hne
              rw [parseItems]
              cases t with
              | nil =>
                  rw [show dumpsItems lvl PyValList.nil = Except.ok ([] : List String)
                    from rfl] at ht1
                  simp only [Except.ok.injEq] at ht1
                  subst ht1
                  have hlist : pre ++
                      ((strJoin ",\n" ([s1].map (fun p => indentStr lvl ++ p))).data
                        ++ (sfx ++ ']' :: after))
                      = (pre ++ (indentStr lvl).data)
                        ++ (s1.data ++ (sfx ++ ']' :: after)) := by
                    simp [strJoin, String.data_append]
                  rw [hlist]
                  have hs1len : s1.data.length < f := by
                    have h2 : (strJoin ",\n"
                        ([s1].map (fun p => indentStr lvl ++ p))).data.length
                        = (indentStr lvl).data.length + s1.data.length := by
                      simp [strJoin, String.data_append, List.length_append]
                    omega
                  rw [ihV lvl v s1 (pre ++ (indentStr lvl).data) (sfx ++ ']' :: after)
                    hnv hv1 (ws_append hpre (indent_ws lvl))
                    (takeWhile_digit_close hsfx (by decide) after) hs1len]
                  show (match skipWs (sfx ++ ']' :: after) with
                    | ',' :: r2 => (parseItems f r2).map (fun p => (toJ v :: p.1, p.2))
                    | ']' :: r2 => some ([toJ v], r2)
                    | _ => none) = some (toJList (PyValList.cons v PyValList.nil), after)
                  rw [skipWs_append_ws hsfx, skipWs_cons_not (by decide)]
                  rfl
              | cons v2 t2 =>
                  cases hv2 : dumpsVal lvl v2 with
                  | error e =>
                      have hy2 : dumpsItems lvl (PyValList.cons v2 t2)
                          = Except.error e := by
                        rw [dumpsItems, hv2]
                        cases dumpsItems lvl t2 <;> rfl
                      rw [hy2] at ht1
                      exact Except.noConfusion ht1
                  | ok s2 =>
                      cases ht2 : dumpsItems lvl t2 with
                      | error e =>
                          have hy2 : dumpsItems lvl (PyValList.cons v2 t2)
                              = Except.error e := by
                            rw [dumpsItems, hv2, ht2]
                          rw [hy2] at ht1
                          exact Except.noConfusion ht1
                      | ok parts3 =>
                          have hy2 : dumpsItems lvl (PyValList.cons v2 t2)
                              = Except.ok (s2 :: parts3) := by
                            rw [dumpsItems, hv2, ht2]
                          rw [hy2] at ht1
                          simp only [Except.ok.injEq] at ht1
                          subst ht1
                          have hJlen : (strJoin ",\n"
                              ((s1 :: s2 :: parts3).map (fun p => indentStr lvl ++ p))).data.length
                              = (indentStr lvl).data.length + s1.data.length + 2
                                + (strJoin ",\n"
                                    ((s2 :: parts3).map (fun p => indentStr lvl ++ p))).data.length := by
                            simp [strJoin, String.data_append, List.length_append,
                              show (",\n" : String).data = [',', '\n'] from rfl]
                            omega
                          have hlist : pre ++
                              ((strJoin ",\n"
                                  ((s1 :: s2 :: parts3).map (fun p => indentStr lvl ++ p))).data
                                ++ (sfx ++ ']' :: after))
                              = (pre ++ (indentStr lvl).data)
                                ++ (s1.data ++ (',' :: ('\n' ::
                                  ((strJoin ",\n"
                                      ((s2 :: parts3).map (fun p => indentStr lvl ++ p))).data
                                    ++ (sfx ++ ']' :: after))))) := by
                            simp [strJoin, String.data_append,
                              show (",\n" : String).data = [',', '\n'] from rfl]
                          rw [hlist]
                          have hs1len : s1.data.length < f := by omega
                          rw [ihV lvl v s1 (pre ++ (indentStr lvl).data)
                            (',' :: ('\n' ::
                              ((strJoin ",\n"
                                  ((s2 :: parts3).map (fun p => indentStr lvl ++ p))).data
                                ++ (sfx ++ ']' :: after))))
                            hnv hv1 (ws_append hpre (indent_ws lvl))
                            (takeWhile_digit_comma _) hs1len]
                          show (match skipWs (',' :: ('\n' ::
                              ((strJoin ",\n"
                                  ((s2 :: parts3).map (fun p => indentStr lvl ++ p))).data
                                ++ (sfx ++ ']' :: after)))) with
                            | ',' :: r2 => (parseItems f r2).map (fun p => (toJ v :: p.1, p.2))
                            | ']' :: r2 => some ([toJ v], r2)
                            | _ => none)
                            = some (toJList (PyValList.cons v (PyValList.cons v2 t2)), after)
                          rw [skipWs_cons_not (by decide)]
                          show (parseItems f ('\n' ::
                              ((strJoin ",\n"
                                  ((s2 :: parts3).map (fun p => indentStr lvl ++ p))).data
                                ++ (sfx ++ ']' :: after)))).map
                              (fun p => (toJ v :: p.1, p.2))
                            = some (toJList (PyValList.cons v (PyValList.cons v2 t2)), after)
                          have hlen2 : (strJoin ",\n"
                              ((s2 :: parts3).map (fun p => indentStr lvl ++ p))).data.length
                              + 2 ≤ f := by omega
                          have hII := ihI lvl (PyValList.cons v2 t2) (s2 :: parts3)
                            ['\n'] sfx after hnt
                            (by rw [dumpsItems, hv2, ht2])
                            (fun hcon => PyValList.noConfusion hcon)
                            (by intro c hc; rw [List.mem_singleton] at hc; subst hc; rfl)
                            hsfx hlen2
                          have hII2 : parseItems f ('\n' ::
                              ((strJoin ",\n"
                                  ((s2 :: parts3).map (fun p => indentStr lvl ++ p))).data
                                ++ (sfx ++ ']' :: after)))
                              = some (toJList (PyValList.cons v2 t2), after) := hII
                          rw [hII2]
                          rfl

theorem parseMembers_step (f : Nat)
    (ihV : ∀ lvl v s pre after, noEnum v = true → dumpsVal lvl v = Except.ok s →
        (∀ c ∈ pre, (c == ' ' || c == '\t' || c == '\n' || c == '\r') = true) →
        after.takeWhile Char.isDigit = [] →
        s.data.length < f →
        parseVal f (pre ++ (s.data ++ after)) = some (toJ v, after))
    (ihM : ∀ lvl fs parts pre sfx after, noEnumFields fs = true →
        dumpsFields lvl fs = Except.ok parts → fs ≠ PyFields.nil →
        (∀ c ∈ pre, (c == ' ' || c == '\t' || c == '\n' || c == '\r') = true) →
        (∀ c ∈ sfx, (c == ' ' || c == '\t' || c == '\n' || c == '\r') = true) →
        (strJoin ",\n" (parts.map (fun p => indentStr lvl ++ p))).data.length + 2 ≤ f →
        parseMembers f (pre ++
            ((strJoin ",\n" (parts.map (fun p => indentStr lvl ++ p))).data
              ++ (sfx ++ '\x7d' :: after)))
          = some (toJFields fs, after)) :
    ∀ lvl fs parts pre sfx after, noEnumFields fs = true →
      dumpsFields lvl fs = Except.ok parts → fs ≠ PyFields.nil →
      (∀ c ∈ pre, (c == ' ' || c == '\t' || c == '\n' || c == '\r') = true) →
      (∀ c ∈ sfx, (c == ' ' || c == '\t' || c == '\n' || c == '\r') = true) →
      (strJoin ",\n" (parts.map (fun p => indentStr lvl ++ p))).data.length + 2 ≤ f + 1 →
      parseMembers (f + 1) (pre ++
          ((strJoin ",\n" (parts.map (fun p => indentStr lvl ++ p))).data
            ++ (sfx ++ '\x7d' :: after)))
        = some (toJFields fs, after) := by
  intro lvl fs parts pre sfx after hne hd hfne hpre hsfx hb
  cases fs with
  | nil => exact absurd rfl hfne
  | cons k v t =>
      cases hv1 : dumpsVal lvl v with
      | error e =>
          have hy : dumpsFields lvl (PyFields.cons k v t) = Except.error e := by
            rw [dumpsFields, hv1]
            cases dumpsFields lvl t <;> rfl
          rw [hy] at hd
          exact Except.noConfusion hd
      | ok s1 =>
          cases ht1 : dumpsFields lvl t with
          | error e =>
              have hy : dumpsFields lvl (PyFields.cons k v t) = Except.error e := by
                rw [dumpsFields, hv1, ht1]
              rw [hy] at hd
              exact Except.noConfusion hd
          | ok parts2 =>
              have hy : dumpsFields lvl (PyFields.cons k v t)
                  = Except.ok ((jsonEscape k ++ ": " ++ s1) :: parts2) := by
                rw [dumpsFields, hv1, ht1]
              rw [hy] at hd
              simp only [Except.ok.injEq] at hd
              subst hd
              simp only [noEnumFields, Bool.and_eq_true] at hne
              obtain ⟨hnv, hnt⟩ := hne
              rw [parseMembers]
              cases t with
              | nil =>
                  rw [show dumpsFields lvl PyFields.nil = Except.ok ([] : List String)
                    from rfl] at ht1
                  simp only [Except.ok.injEq] at ht1
                  subst ht1
                  have hJlen : (strJoin ",\n"
                      ([jsonEscape k ++ ": " ++ s1].map (fun p => indentStr lvl ++ p))).data.length
                      = (indentStr lvl).data.length + (k.data.flatMap escChar).length
                        + s1.data.length + 4 := by
                    simp [strJoin, String.data_append, List.length_append,
                      show (jsonEscape k).data
                        = '"' :: (k.data.flatMap escChar ++ ['"']) from rfl,
                      show (": " : String).data = [':', ' '] from rfl]
                    omega
                  have hskip : skipWs (pre ++
                      ((strJoin ",\n"
                          ([jsonEscape k ++ ": " ++ s1].map (fun p => indentStr lvl ++ p))).data
                        ++ (sfx ++ '\x7d' :: after)))
                      = '"' :: ((k.data.flatMap escChar ++ ['"'])
                          ++ (':' :: (' ' :: (s1.data ++ (sfx ++ '\x7d' :: after))))) := by
                    have hlist : pre ++
                        ((strJoin ",\n"
                            ([jsonEscape k ++ ": " ++ s1].map (fun p => indentStr lvl ++ p))).data
                          ++ (sfx ++ '\x7d' :: after))
                        = (pre ++ (indentStr lvl).data)
                          ++ ('"' :: ((k.data.flatMap escChar ++ ['"'])
                            ++ (':' :: (' ' :: (s1.data ++ (sfx ++ '\x7d' :: after)))))) := by
                      simp [strJoin, String.data_append,
                        show (jsonEscape k).data
                          = '"' :: (k.data.flatMap escChar ++ ['"']) from rfl,
                        show (": " : String).data = [':', ' '] from rfl]
                    rw [hlist, skipWs_append_ws (ws_append hpre (indent_ws lvl))]
                    exact skipWs_cons_not (by decide)
                  rw [hskip]
                  show (match parseStrChars
                      (((k.data.flatMap escChar ++ ['"'])
                        ++ (':' :: (' ' :: (s1.data ++ (sfx ++ '\x7d' :: after))))).length + 1)
                      ((k.data.flatMap escChar ++ ['"'])
                        ++ (':' :: (' ' :: (s1.data ++ (sfx ++ '\x7d' :: after))))) with
                    | none => none
                    | some (key, r2) =>
                        match skipWs r2 with
                        | ':' :: r3 =>
                            match parseVal f r3 with
                            | none => none
                            | some (w, r4) =>
                                match skipWs r4 with
                                | ',' :: r5 => (parseMembers f r5).map
                                    (fun p => ((String.mk key, w) :: p.1, p.2))
                                | '\x7d' :: r5 => some ([(String.mk key, w)], r5)
                                | _ => none
                        | _ => none)
                    = some (toJFields (PyFields.cons k v PyFields.nil), after)
                  rw [show (k.data.flatMap escChar ++ ['"'])
                      ++ (':' :: (' ' :: (s1.data ++ (sfx ++ '\x7d' :: after))))
                      = k.data.flatMap escChar
                        ++ ('"' :: (':' :: (' ' :: (s1.data ++ (sfx ++ '\x7d' :: after)))))
                    from by simp]
                  rw [parseStrChars_escape k.data _ _
                    (by simp only [List.length_append, List.length_cons]; omega)]
                  show (match skipWs (':' :: (' ' :: (s1.data ++ (sfx ++ '\x7d' :: after)))) with
                    | ':' :: r3 =>
                        match parseVal f r3 with
                        | none => none
                        | some (w, r4) =>
                            match skipWs r4 with
                            | ',' :: r5 => (parseMembers f r5).map
                                (fun p => ((String.mk k.data, w) :: p.1, p.2))
                            | '\x7d' :: r5 => some ([(String.mk k.data, w)], r5)
                            | _ => none
                    | _ => none)
                    = some (toJFields (PyFields.cons k v PyFields.nil), after)
                  rw [skipWs_cons_not (by decide)]
                  show (match parseVal f (' ' :: (s1.data ++ (sfx ++ '\x7d' :: after))) with
                    | none => none
                    | some (w, r4) =>
                        match skipWs r4 with
                        | ',' :: r5 => (parseMembers f r5).map
                            (fun p => ((String.mk k.data, w) :: p.1, p.2))
                        | '\x7d' :: r5 => some ([(String.mk k.data, w)], r5)
                        | _ => none)
                    = some (toJFields (PyFields.cons k v PyFields.nil), after)
                  have hV2 : parseVal f (' ' :: (s1.data ++ (sfx ++ '\x7d' :: after)))
                      = some (toJ v, sfx ++ '\x7d' :: after) :=
                    ihV lvl v s1 [' '] (sfx ++ '\x7d' :: after) hnv hv1
                      (by intro c hc; rw [List.mem_singleton] at hc; subst hc; rfl)
                      (takeWhile_digit_close hsfx (by decide) after)
                      (by omega)
                  rw [hV2]
                  show (match skipWs (sfx ++ '\x7d' :: after) with
                    | ',' :: r5 => (parseMembers f r5).map
                        (fun p => ((String.mk k.data, toJ v) :: p.1, p.2))
                    | '\x7d' :: r5 => some ([(String.mk k.data, toJ v)], r5)
                    | _ => none)
                    = some (toJFields (PyFields.cons k v PyFields.nil), after)
                  rw [skipWs_append_ws hsfx, skipWs_cons_not (by decide)]
                  rfl
              | cons k2 v2 t2 =>
                  cases hv2 : dumpsVal lvl v2 with
                  | error e =>
                      have hy2 : dumpsFields lvl (PyFields.cons k2 v2 t2)
                          = Except.error e := by
                        rw [dumpsFields, hv2]
                        cases dumpsFields lvl t2 <;> rfl
                      rw [hy2] at ht1
                      exact Except.noConfusion ht1
                  | ok s2 =>
                      cases ht2 : dumpsFields lvl t2 with
                      | error e =>
                          have hy2 : dumpsFields lvl (PyFields.cons k2 v2 t2)
                              = Except.error e := by
                            rw [dumpsFields, hv2, ht2]
                          rw [hy2] at ht1
                          exact Except.noConfusion ht1
                      | ok parts3 =>
                          have hy2 : dumpsFields lvl (PyFields.cons k2 v2 t2)
                              = Except.ok ((jsonEscape k2 ++ ": " ++ s2) :: parts3) := by
                            rw [dumpsFields, hv2, ht2]
                          rw [hy2] at ht1
                          simp only [Except.ok.injEq] at ht1
                          subst ht1
                          have hJlen : (strJoin ",\n"
                              (((jsonEscape k ++ ": " ++ s1) :: (jsonEscape k2 ++ ": " ++ s2)
                                  :: parts3).map (fun p => indentStr lvl ++ p))).data.length
                              = (indentStr lvl).data.length + (k.data.flatMap escChar).length
                                + s1.data.length + 6
                                + (strJoin ",\n"
                                    (((jsonEscape k2 ++ ": " ++ s2) :: parts3).map
                                      (fun p => indentStr lvl ++ p))).data.length := by
                            simp [strJoin, String.data_append, List.length_append,
                              show (jsonEscape k).data
                                = '"' :: (k.data.flatMap escChar ++ ['"']) from rfl,
                              show (": " : String).data = [':', ' '] from rfl,
                              show (",\n" : String).data = [',', '\n'] from rfl]
                            omega
                          have hskip : skipWs (pre ++
                              ((strJoin ",\n"
                                  (((jsonEscape k ++ ": " ++ s1) :: (jsonEscape k2 ++ ": " ++ s2)
                                      :: parts3).map (fun p => indentStr lvl ++ p))).data
                                ++ (sfx ++ '\x7d' :: after)))
                              = '"' :: ((k.data.flatMap escChar ++ ['"'])
                                  ++ (':' :: (' ' :: (s1.data ++ (',' :: ('\n' ::
                                    ((strJoin ",\n"
                                        (((jsonEscape k2 ++ ": " ++ s2) :: parts3).map
                                          (fun p => indentStr lvl ++ p))).data
                                      ++ (sfx ++ '\x7d' :: after)))))))) := by
                            have hlist : pre ++
                                ((strJoin ",\n"
                                    (((jsonEscape k ++ ": " ++ s1) :: (jsonEscape k2 ++ ": " ++ s2)
                                        :: parts3).map (fun p => indentStr lvl ++ p))).data
                                  ++ (sfx ++ '\x7d' :: after))
                                = (pre ++ (indentStr lvl).data)
                                  ++ ('"' :: ((k.data.flatMap escChar ++ ['"'])
                                    ++ (':' :: (' ' :: (s1.data ++ (',' :: ('\n' ::
                                      ((strJoin ",\n"
                                          (((jsonEscape k2 ++ ": " ++ s2) :: parts3).map
                                            (fun p => indentStr lvl ++ p))).data
                                        ++ (sfx ++ '\x7d' :: after))))))))) := by
                              simp [strJoin, String.data_append,
                                show (jsonEscape k).data
                                  = '"' :: (k.data.flatMap escChar ++ ['"']) from rfl,
                                show (": " : String).data = [':', ' '] from rfl,
                                show (",\n" : String).data = [',', '\n'] from rfl]
                            rw [hlist, skipWs_append_ws (ws_append hpre (indent_ws lvl))]
                            exact skipWs_cons_not (by decide)
                          rw [hskip]
                          show (match parseStrChars
                              (((k.data.flatMap escChar ++ ['"'])
                                ++ (':' :: (' ' :: (s1.data ++ (',' :: ('\n' ::
                                  ((strJoin ",\n"
                                      (((jsonEscape k2 ++ ": " ++ s2) :: parts3).map
                                        (fun p => indentStr lvl ++ p))).data
                                    ++ (sfx ++ '\x7d' :: after)))))))).length + 1)
                              ((k.data.flatMap escChar ++ ['"'])
                                ++ (':' :: (' ' :: (s1.data ++ (',' :: ('\n' ::
                                  ((strJoin ",\n"
                                      (((jsonEscape k2 ++ ": " ++ s2) :: parts3).map
                                        (fun p => indentStr lvl ++ p))).data
                                    ++ (sfx ++ '\x7d' :: after)))))))) with
                            | none => none
                            | some (key, r2) =>
                                match skipWs r2 with
                                | ':' :: r3 =>
                                    match parseVal f r3 with
                                    | none => none
                                    | some (w, r4) =>
                                        match skipWs r4 with
                                        | ',' :: r5 => (parseMembers f r5).map
                                            (fun p => ((String.mk key, w) :: p.1, p.2))
                                        | '\x7d' :: r5 => some ([(String.mk key, w)], r5)
                                        | _ => none
                                | _ => none)
                            = some (toJFields (PyFields.cons k v (PyFields.cons k2 v2 t2)), after)
                          rw [show (k.data.flatMap escChar ++ ['"'])
                              ++ (':' :: (' ' :: (s1.data ++ (',' :: ('\n' ::
                                ((strJoin ",\n"
                                    (((jsonEscape k2 ++ ": " ++ s2) :: parts3).map
                                      (fun p => indentStr lvl ++ p))).data
                                  ++ (sfx ++ '\x7d' :: after)))))))
                              = k.data.flatMap escChar
                                ++ ('"' :: (':' :: (' ' :: (s1.data ++ (',' :: ('\n' ::
                                  ((strJoin ",\n"
                                      (((jsonEscape k2 ++ ": " ++ s2) :: parts3).map
                                        (fun p => indentStr lvl ++ p))).data
                                    ++ (sfx ++ '\x7d' :: after))))))))
                            from by simp]
                          rw [parseStrChars_escape k.data _ _
                            (by simp only [List.length_append, List.length_cons]; omega)]
                          show (match skipWs (':' :: (' ' :: (s1.data ++ (',' :: ('\n' ::
                              ((strJoin ",\n"
                                  (((jsonEscape k2 ++ ": " ++ s2) :: parts3).map
                                    (fun p => indentStr lvl ++ p))).data
                                ++ (sfx ++ '\x7d' :: after))))))) with
                            | ':' :: r3 =>
                                match parseVal f r3 with
                                | none => none
                                | some (w, r4) =>
                                    match skipWs r4 with
                                    | ',' :: r5 => (parseMembers f r5).map
                                        (fun p => ((String.mk k.data, w) :: p.1, p.2))
                                    | '\x7d' :: r5 => some ([(String.mk k.data, w)], r5)
                                    | _ => none
                            | _ => none)
                            = some (toJFields (PyFields.cons k v (PyFields.cons k2 v2 t2)), after)
                          rw [skipWs_cons_not (by decide)]
                          show (match parseVal f (' ' :: (s1.data ++ (',' :: ('\n' ::
                              ((strJoin ",\n"
                                  (((jsonEscape k2 ++ ": " ++ s2) :: parts3).map
                                    (fun p => indentStr lvl ++ p))).data
                                ++ (sfx ++ '\x7d' :: after)))))) with
                            | none => none
                            | some (w, r4) =>
                                match skipWs r4 with
                                | ',' :: r5 => (parseMembers f r5).map
                                    (fun p => ((String.mk k.data, w) :: p.1, p.2))
                                | '\x7d' :: r5 => some ([(String.mk k.data, w)], r5)
                                | _ => none)
                            = some (toJFields (PyFields.cons k v (PyFields.cons k2 v2 t2)), after)
                          have hV2 : parseVal f (' ' :: (s1.data ++ (',' :: ('\n' ::
                              ((strJoin ",\n"
                                  (((jsonEscape k2 ++ ": " ++ s2) :: parts3).map
                                    (fun p => indentStr lvl ++ p))).data
                                ++ (sfx ++ '\x7d' :: after))))))
                              = some (toJ v, ',' :: ('\n' ::
                                ((strJoin ",\n"
                                    (((jsonEscape k2 ++ ": " ++ s2) :: parts3).map
                                      (fun p => indentStr lvl ++ p))).data
                                  ++ (sfx ++ '\x7d' :: after)))) :=
                            ihV lvl v s1 [' ']
                              (',' :: ('\n' ::
                                ((strJoin ",\n"
                                    (((jsonEscape k2 ++ ": " ++ s2) :: parts3).map
                                      (fun p => indentStr lvl ++ p))).data
                                  ++ (sfx ++ '\x7d' :: after))))
                              hnv hv1
                              (by intro c hc; rw [List.mem_singleton] at hc; subst hc; rfl)
                              (takeWhile_digit_comma _)
                              (by omega)
                          rw [hV2]
                          show (match skipWs (',' :: ('\n' ::
                              ((strJoin ",\n"
                                  (((jsonEscape k2 ++ ": " ++ s2) :: parts3).map
                                    (fun p => indentStr lvl ++ p))).data
                                ++ (sfx ++ '\x7d' :: after)))) with
                            | ',' :: r5 => (parseMembers f r5).map
                                (fun p => ((String.mk k.data, toJ v) :: p.1, p.2))
                            | '\x7d' :: r5 => some ([(String.mk k.data, toJ v)], r5)
                            | _ => none)
                            = some (toJFields (PyFields.cons k v (PyFields.cons k2 v2 t2)), after)
                          rw [skipWs_cons_not (by decide)]
                          show (parseMembers f ('\n' ::
                              ((strJoin ",\n"
                                  (((jsonEscape k2 ++ ": " ++ s2) :: parts3).map
                                    (fun p => indentStr lvl ++ p))).data
                                ++ (sfx ++ '\x7d' :: after)))).map
                              (fun p => ((String.mk k.data, toJ v) :: p.1, p.2))
                            = some (toJFields (PyFields.cons k v (PyFields.cons k2 v2 t2)), after)
                          have hlen2 : (strJoin ",\n"
                              (((jsonEscape k2 ++ ": " ++ s2) :: parts3).map
                                (fun p => indentStr lvl ++ p))).data.length + 2 ≤ f := by
                            omega
                          have hMM := ihM lvl (PyFields.cons k2 v2 t2)
                            ((jsonEscape k2 ++ ": " ++ s2) :: parts3)
                            ['\n'] sfx after hnt
                            (by rw [dumpsFields, hv2, ht2])
                            (fun hcon => PyFields.noConfusion hcon)
                            (by intro c hc; rw [List.mem_singleton] at hc; subst hc; rfl)
                            hsfx hlen2
                          have hMM2 : parseMembers f ('\n' ::
                              ((strJoin ",\n"
                                  (((jsonEscape k2 ++ ": " ++ s2) :: parts3).map
                                    (fun p => indentStr lvl ++ p))).data
                                ++ (sfx ++ '\x7d' :: after)))
                              = some (toJFields (PyFields.cons k2 v2 t2), after) := hMM
                          rw [hMM2]
                          rfl

theorem parse_dumps : ∀ fuel : Nat,
    (∀ lvl v s pre after, noEnum v = true → dumpsVal lvl v = Except.ok s →
      (∀ c ∈ pre, (c == ' ' || c == '\t' || c == '\n' || c == '\r') = true) →
      after.takeWhile Char.isDigit = [] →
      s.data.length < fuel →
      parseVal fuel (pre ++ (s.data ++ after)) = some (toJ v, after))
    ∧ (∀ lvl xs parts pre sfx after, noEnumList xs = true →
        dumpsItems lvl xs = Except.ok parts → xs ≠ PyValList.nil →
        (∀ c ∈ pre, (c == ' ' || c == '\t' || c == '\n' || c == '\r') = true) →
        (∀ c ∈ sfx, (c == ' ' || c == '\t' || c == '\n' || c == '\r') = true) →
        (strJoin ",\n" (parts.map (fun p => indentStr lvl ++ p))).data.length + 2 ≤ fuel →
        parseItems fuel (pre ++
            ((strJoin ",\n" (parts.map (fun p => indentStr lvl ++ p))).data
              ++ (sfx ++ ']' :: after)))
          = some (toJList xs, after))
    ∧ (∀ lvl fs parts pre sfx after, noEnumFields fs = true →
        dumpsFields lvl fs = Except.ok parts → fs ≠ PyFields.nil →
        (∀ c ∈ pre, (c == ' ' || c == '\t' || c == '\n' || c == '\r') = true) →
        (∀ c ∈ sfx, (c == ' ' || c == '\t' || c == '\n' || c == '\r') = true) →
        (strJoin ",\n" (parts.map (fun p => indentStr lvl ++ p))).data.length + 2 ≤ fuel →
        parseMembers fuel (pre ++
            ((strJoin ",\n" (parts.map (fun p => indentStr lvl ++ p))).data
              ++ (sfx ++ '\x7d' :: after)))
          = some (toJFields fs, after)) := by
  intro fuel
  induction fuel with
  | zero =>
      refine ⟨?_, ?_, ?_⟩
      · intro lvl v s pre after _ _ _ _ hb
        omega
      · intro lvl xs parts pre sfx after _ _ _ _ _ hb
        omega
      · intro lvl fs parts pre sfx after _ _ _ _ _ hb
        omega
  | succ f ih =>
      obtain ⟨ihV, ihI, ihM⟩ := ih
      exact ⟨parseVal_step f ihI ihM, parseItems_step f ihV ihI,
        parseMembers_step f ihV ihM⟩

mutual

theorem dumpsVal_ok : ∀ (lvl : Nat) (v : PyVal), noEnum v = true →
    ∃ s, dumpsVal lvl v = Except.ok s
  | _, PyVal.pstr t, _ => ⟨jsonEscape t, rfl⟩
  | _, PyVal.pint n, _ => ⟨intRepr n, rfl⟩
  | _, PyVal.pbool b, _ => ⟨if b then "true" else "false", rfl⟩
  | _, PyVal.pnone, _ => ⟨"null", rfl⟩
  | _, PyVal.penum _, h => Bool.noConfusion h
  | _, PyVal.plist PyValList.nil, _ => ⟨"[]", rfl⟩
  | lvl, PyVal.plist (PyValList.cons v t), h => by
      obtain ⟨parts, hp⟩ := dumpsItems_ok (lvl + 1) (PyValList.cons v t) h
      refine ⟨"[\n" ++ strJoin ",\n" (parts.map (fun p => indentStr (lvl + 1) ++ p))
        ++ "\n" ++ indentStr lvl ++ "]", ?_⟩
      rw [dumpsVal, hp]
  | _, PyVal.pdict PyFields.nil, _ => ⟨"\x7b\x7d", rfl⟩
  | lvl, PyVal.pdict (PyFields.cons k v t), h => by
      obtain ⟨parts, hp⟩ := dumpsFields_ok (lvl + 1) (PyFields.cons k v t) h
      refine ⟨"\x7b\n" ++ strJoin ",\n" (parts.map (fun p => indentStr (lvl + 1) ++ p))
        ++ "\n" ++ indentStr lvl ++ "\x7d", ?_⟩
      rw [dumpsVal, hp]

theorem dumpsItems_ok : ∀ (lvl : Nat) (xs : PyValList), noEnumList xs = true →
    ∃ parts, dumpsItems lvl xs = Except.ok parts
  | _, PyValList.nil, _ => ⟨[], rfl⟩
  | lvl, PyValList.cons v t, h => by
      have h2 : (noEnum v && noEnumList t) = true := h
      rw [Bool.and_eq_true] at h2
      obtain ⟨s1, hs⟩ := dumpsVal_ok lvl v h2.1
      obtain ⟨ps, hps⟩ := dumpsItems_ok lvl t h2.2
      exact ⟨s1 :: ps, by rw [dumpsItems, hs, hps]⟩

theorem dumpsFields_ok : ∀ (lvl : Nat) (fs : PyFields), noEnumFields fs = true →
    ∃ parts, dumpsFields lvl fs = Except.ok parts
  | _, PyFields.nil, _ => ⟨[], rfl⟩
  | lvl, PyFields.cons k v t, h => by
      have h2 : (noEnum v && noEnumFields t) = true := h
      rw [Bool.and_eq_true] at h2
      obtain ⟨s1, hs⟩ := dumpsVal_ok lvl v h2.1
      obtain ⟨ps, hps⟩ := dumpsFields_ok lvl t h2.2
      exact ⟨(jsonEscape k ++ ": " ++ s1) :: ps, by rw [dumpsFields, hs, hps]⟩

end

theorem noEnumList_arch (l : List ArchitectureFinding) :
    noEnumList (toPyList (l.map asdictArchitecture)) = true := by
  induction l with
  | nil => rfl
  | cons a t ih =>
      show (noEnum (asdictArchitecture a)
        && noEnumList (toPyList (t.map asdictArchitecture))) = true
      rw [ih]
      rfl

theorem noEnumList_test (l : List TestCoverageFinding) :
    noEnumList (toPyList (l.map asdictTestCoverage)) = true := by
  induction l with
  | nil => rfl
  | cons a t ih =>
      show (noEnum (asdictTestCoverage a)
        && noEnumList (toPyList (t.map asdictTestCoverage))) = true
      rw [ih]
      rfl

theorem noEnumList_perf (l : List PerformanceFinding) :
    noEnumList (toPyList (l.map asdictPerformance)) = true := by
  induction l with
  | nil => rfl
  | cons a t ih =>
      show (noEnum (asdictPerformance a)
        && noEnumList (toPyList (t.map asdictPerformance))) = true
      rw [ih]
      rfl

theorem noEnumList_brk (l : List BreakingChangeFinding) :
    noEnumList (toPyList (l.map asdictBreaking)) = true := by
  induction l with
  | nil => rfl
  | cons a t ih =>
      show (noEnum (asdictBreaking a)
        && noEnumList (toPyList (t.map asdictBreaking))) = true
      rw [ih]
      rfl

theorem noEnum_resultDict (r : QualityCheckResult) (hsec : r.security_findings = []) :
    noEnum (resultDict r) = true := by
  cases hoj : r.override_justification with
  | none =>
      simp [resultDict, hsec, hoj, noEnum, noEnumFields, noEnumList, toPyList,
        noEnumList_arch, noEnumList_test, noEnumList_perf, noEnumList_brk]
  | some oj =>
      simp [resultDict, hsec, hoj, noEnum, noEnumFields, noEnumList, toPyList,
        noEnumList_arch, noEnumList_test, noEnumList_perf, noEnumList_brk]

/-- C6 (amended): whenever the result carries no security findings,
`export_results_json` succeeds and the produced JSON parses back with
`passed`, `total_issues` and `mode` equal to the source fields; with a
security finding present the export instead raises `TypeError`, because
`dataclasses.asdict` keeps the `Severity` enum member, which `json.dumps`
rejects (see the counterexample). -/
theorem c6_json_round_trip_amended (r : QualityCheckResult)
    (hsec : r.security_findings = []) :
    ∃ s, exportResultsJson r = Except.ok s
      ∧ ∃ j, jsonLoads s = some j
        ∧ jLookup j "passed" = some (JVal.jbool r.passed)
        ∧ jLookup j "total_issues" = some (JVal.jint r.total_issues)
        ∧ jLookup j "mode" = some (JVal.jstr r.mode) := by
  obtain ⟨s, hs⟩ := dumpsVal_ok 0 (resultDict r) (noEnum_resultDict r hsec)
  refine ⟨s, hs, toJ (resultDict r), ?_, ?_, ?_, ?_⟩
  · unfold jsonLoads
    have hV := (parse_dumps (s.data.length + 1)).1 0 (resultDict r) s [] []
      (noEnum_resultDict r hsec) hs
      (fun c hc => absurd hc (List.not_mem_nil c)) rfl (by omega)
    have hV2 : parseVal (s.data.length + 1) s.data
        = some (toJ (resultDict r), []) := by
      rw [show ([] : List Char) ++ (s.data ++ []) = s.data from by simp] at hV
      exact hV
    rw [hV2]
    rfl
  · rfl
  · rfl
  · rfl

theorem c6_round_trip_counterexample :
    exportResultsJson
      ⟨false, 1, 1, 0, 0, 0,
        [⟨"hardcoded_credentials", Severity.critical, "config.py", 1,
          "password = \"hunter99\"", "Hardcoded password detected", "password\\s*=", ""⟩],
        [], [], [], [], "error", false, none⟩
      = Except.error "TypeError: Object of type Severity is not JSON serializable" := by
  decide

theorem c6_json_round_trip_amended_witness :
    (QualityCheckResult.mk true 0 0 0 0 0 [] [] [] [] [] "warning" false
        none).security_findings = []
    ∧ ∃ s, exportResultsJson
        (QualityCheckResult.mk true 0 0 0 0 0 [] [] [] [] [] "warning" false none)
        = Except.ok s
      ∧ ∃ j, jsonLoads s = some j
        ∧ jLookup j "passed" = some (JVal.jbool true)
        ∧ jLookup j "total_issues" = some (JVal.jint 0)
        ∧ jLookup j "mode" = some (JVal.jstr "warning") :=
  ⟨rfl, c6_json_round_trip_amended
    (QualityCheckResult.mk true 0 0 0 0 0 [] [] [] [] [] "warning" false none) rfl⟩

/-- C8 (amended): every finding of the security, architecture, performance
and breaking-changes validators carries a line number of at least 1, and so
does every test-coverage finding except the PR-level bug-fix regression
finding, which carries line number 0 (see the counterexample). -/
theorem c8_line_numbers_amended (t d : String) (cf of2 : PyDict String) :
    (∀ e ∈ securityValidatePrChanges cf, ∀ f ∈ e.2, 1 ≤ f.line_number)
    ∧ (∀ res, architectureValidateProject cf = .ok res →
        ∀ e ∈ res, ∀ f ∈ e.2, 1 ≤ f.line_number)
    ∧ (∀ f ∈ testCoverageValidatePr t d cf,
        f.check_name ≠ "bug_fix_regression_tests" → 1 ≤ f.line_number)
    ∧ (∀ e ∈ performanceValidatePr cf, ∀ f ∈ e.2, 1 ≤ f.line_number)
    ∧ (∀ f ∈ breakingValidatePr cf of2, 1 ≤ f.line_number) := by
  refine ⟨?_, ?_, ?_, ?_, ?_⟩
  · intro e he f hf
    exact securityValidatePrChanges_line he hf
  · intro res hres e he f hf
    exact architectureValidateProject_line hres e he f hf
  · intro f hf hn
    exact testCoverageValidatePr_line hf hn
  · intro e he f hf
    exact performanceValidatePr_line he hf
  · intro f hf
    exact breakingValidatePr_line hf

/-- C8 counterexample: a bug-fix PR without test changes makes the
test-coverage validator emit its PR-level bug-fix regression finding with
line number 0, not the ≥ 1 the claim states for every finding. -/
theorem c8_line_number_counterexample :
    (testCoverageValidatePr "fix crash" "" [("src/app.py", "x = 1")]).map
        (fun f => (f.check_name, f.line_number))
      = [("bug_fix_regression_tests", 0)] := by
  decide

/-- Witness: the amended line-number invariant evaluated at a one-file
changeset whose schema change yields this concrete line-1 finding. -/
theorem c8_line_numbers_amended_witness :
    1 ≤ (BreakingChangeFinding.mk "database_schema_changes" "high"
      "migrations/0001.py" 1 "removed_table" "removed_table"
      "Removing table is a breaking change" true
      "- **BREAKING CHANGE**: Removing table is a breaking change").line_number := by
  exact (c8_line_numbers_amended "" ""
      [("migrations/0001.py", "drop_table('users')")] []).2.2.2.2
    _ (by decide)

/-- C1: in every result `validate_pr` returns, each severity-histogram field
(critical_issues, high_issues, medium_issues, low_issues) equals the number
of findings with that severity across the five finding lists (a security
finding counts through its enum member's value; in every returned result the
security list is in fact empty, since a security finding would have aborted
`_count_severities`). -/
theorem c1_severity_histogram {m t d : String} {cf of2 : PyDict String}
    {r : QualityCheckResult} (h : validatePr m t d cf of2 = .ok r) :
    r.critical_issues = (resultSevs r).count "critical"
    ∧ r.high_issues = (resultSevs r).count "high"
    ∧ r.medium_issues = (resultSevs r).count "medium"
    ∧ r.low_issues = (resultSevs r).count "low" := by
  unfold validatePr at h
  split at h
  · exact absurd h (by simp)
  · rename_i res harch
    have hsec := assembleResult_ok_security_empty h
    refine assembleResult_inv h ?_
    intro f hf
    unfold flattenAll at hf
    simp only [List.mem_append] at hf
    rcases hf with ((((hf | hf) | hf) | hf) | hf)
    · rw [hsec] at hf
      simp at hf
    · simp only [List.mem_map] at hf
      obtain ⟨g, hg, rfl⟩ := hf
      simp only [List.mem_flatMap] at hg
      obtain ⟨e, he, hg⟩ := hg
      have hlow := architectureValidateProject_sev harch e he g hg
      simp only [severityAttr, sevLower, anySevStr]
      rw [hlow]
    · simp only [List.mem_map] at hf
      obtain ⟨g, hg, rfl⟩ := hf
      have hlow := testCoverageValidatePr_sev hg
      simp only [severityAttr, sevLower, anySevStr]
      rw [hlow]
    · simp only [List.mem_map] at hf
      obtain ⟨g, hg, rfl⟩ := hf
      simp only [List.mem_flatMap] at hg
      obtain ⟨e, he, hg⟩ := hg
      have hlow := performanceValidatePr_sev he hg
      simp only [severityAttr, sevLower, anySevStr]
      rw [hlow]
    · simp only [List.mem_map] at hf
      obtain ⟨g, hg, rfl⟩ := hf
      have hlow := breakingValidatePr_sev hg
      simp only [severityAttr, sevLower, anySevStr]
      rw [hlow]

/-- Witness: the histogram invariant evaluated at a clean one-file
changeset. -/
theorem c1_severity_histogram_witness :
    ∃ r, validatePr "warning" "Add feature" "" [("f.py", "x = 1")] [] = Except.ok r
      ∧ (r.critical_issues = (resultSevs r).count "critical"
        ∧ r.high_issues = (resultSevs r).count "high"
        ∧ r.medium_issues = (resultSevs r).count "medium"
        ∧ r.low_issues = (resultSevs r).count "low") := by
  have hok : validatePr "warning" "Add feature" "" [("f.py", "x = 1")] []
      = Except.ok ⟨true, 0, 0, 0, 0, 0, [], [], [], [], [], "warning", false, none⟩ := by
    decide
  exact ⟨_, hok, c1_severity_histogram hok⟩

/-- C7 (amended): per pattern — for a one-line, non-comment content on which
a credential pattern has exactly one match, the check emits exactly one
critical finding for that pattern (naming its credential type) when no
exclusion keyword occurs in the matched span, and none when one does.  (The
claim's per-type reading fails: two table entries share the type "API key"
and can both match, see the counterexample.) -/
theorem c7_exclusion_amended (path content : String) (cp : CredPattern) (m : RMatch)
    (hcp : cp ∈ CREDENTIAL_PATTERNS) (hnc : isCommentLine content.data = false)
    (hnl : ¬ '\n' ∈ content.data) (hm : reFinditer true cp.pat content.data = [m]) :
    (hardcodedCredentialsCheck path content).filter
        (fun f => f.pattern_matched == cp.src)
      = if isExcluded m.mtext then []
        else [{ check_name := "hardcoded_credentials"
                severity := .critical
                file_path := path
                line_number := 1
                line_content := String.mk (pyStrip content.data)
                message := "Hardcoded " ++ cp.credType ++
                  " detected. Use environment variables or AWS Secrets Manager."
                pattern_matched := cp.src
                suggested_fix := "Use: value = os.getenv('VARIABLE_NAME')" }] := by
  unfold hardcodedCredentialsCheck
  rw [show splitNl content.data = [content.data] from splitCharL_no_sep hnl]
  simp only [withNums]
  rw [List.flatMap_cons, List.flatMap_nil, List.append_nil]
  simp only []
  rw [if_neg (by simp [hnc])]
  refine Eq.trans (cred_filter_flatMap _ CREDENTIAL_PATTERNS cp hcp (by decide) ?_) ?_
  · intro c hc f hf
    simp only [List.mem_filterMap] at hf
    obtain ⟨m2, _, hm2⟩ := hf
    split at hm2
    · simp at hm2
    · injection hm2 with hm2
      rw [← hm2]
  · rw [hm]
    by_cases he : isExcluded m.mtext
    · simp [he]
    · simp [he]

/-- C7 counterexample: the line `apikey = "abc123"` matches each of the two
"API key" table entries exactly once and is excluded by neither, yet the
check emits two critical findings naming "API key" — not the exactly one the
claim states. -/
theorem c7_credential_counterexample :
    ((CREDENTIAL_PATTERNS.map (fun cp =>
        (reFinditer true cp.pat ("apikey = \x22abc123\x22" : String).data).length)).take 2
      = [1, 1])
    ∧ ((hardcodedCredentialsCheck "config.py" "apikey = \x22abc123\x22").map
        (fun f => f.message)
      = ["Hardcoded API key detected. Use environment variables or AWS Secrets Manager.",
         "Hardcoded API key detected. Use environment variables or AWS Secrets Manager."]) := by
  exact ⟨by decide, by decide⟩

/-- Witness: the per-pattern guarantee evaluated at the line `pwd = "a"` and
the `pwd` table entry. -/
theorem c7_exclusion_amended_witness :
    (hardcodedCredentialsCheck "config.py" "pwd = \x22a\x22").filter
        (fun f => f.pattern_matched == "pwd\\s*[=:]\\s*[\"\\'][^\"\\']+[\"\\']")
      = if isExcluded ("pwd = \x22a\x22" : String).data then []
        else [{ check_name := "hardcoded_credentials"
                severity := .critical
                file_path := "config.py"
                line_number := 1
                line_content := String.mk (pyStrip ("pwd = \x22a\x22" : String).data)
                message := "Hardcoded " ++ "Password" ++
                  " detected. Use environment variables or AWS Secrets Manager."
                pattern_matched := "pwd\\s*[=:]\\s*[\"\\'][^\"\\']+[\"\\']"
                suggested_fix := "Use: value = os.getenv('VARIABLE_NAME')" }] := by
  exact c7_exclusion_amended "config.py" "pwd = \x22a\x22"
    ⟨kvPat (lits "pwd"), "pwd\\s*[=:]\\s*[\"\\'][^\"\\']+[\"\\']", "Password"⟩
    ⟨0, 9, ("pwd = \x22a\x22" : String).data, []⟩
    (by decide) (by decide) (by decide) (by decide)

/-- C5: a changeset whose dependency graph has two modules importing each
other yields at least one circular-dependency finding whose message names
both modules; a changeset whose graph is the linear chain A → B → C → D
yields none. -/
theorem c5_circular_dependencies (filesAB filesLin : PyDict String)
    (A B C D : String)
    (hg : buildDependencyGraph filesAB = [(A, [B]), (B, [A])]) (hab : ¬ A = B)
    (hl : buildDependencyGraph filesLin = [(A, [B]), (B, [C]), (C, [D]), (D, [])])
    (hac : ¬ A = C) (had : ¬ A = D) (hbc : ¬ B = C) (hbd : ¬ B = D) (hcd : ¬ C = D) :
    (∃ f ∈ circularDependencyCheckProject filesAB,
        strIn A f.message = true ∧ strIn B f.message = true)
    ∧ circularDependencyCheckProject filesLin = [] := by
  have hba : ¬ B = A := fun he => hab he.symm
  have hca : ¬ C = A := fun he => hac he.symm
  have hda : ¬ D = A := fun he => had he.symm
  have hcb : ¬ C = B := fun he => hbc he.symm
  have hdb : ¬ D = B := fun he => hbd he.symm
  have hdc : ¬ D = C := fun he => hcd he.symm
  constructor
  · have hstepB : dfsVisit [(A, [B]), (B, [A])] 4 B ⟨[A], [A], []⟩
        = ⟨[A, B], [A], [[A, B]]⟩ := by
      show dfsVisit [(A, [B]), (B, [A])] (3 + 1) B ⟨[A], [A], []⟩
        = ⟨[A, B], [A], [[A, B]]⟩
      rw [dfsVisit]
      simp [pySetAdd, dictGet?, pyIndex, hab, hba]
    have hstepA : dfsVisit [(A, [B]), (B, [A])] 5 A ⟨[], [], []⟩
        = ⟨[A, B], [], [[A, B]]⟩ := by
      show dfsVisit [(A, [B]), (B, [A])] (4 + 1) A ⟨[], [], []⟩
        = ⟨[A, B], [], [[A, B]]⟩
      rw [dfsVisit]
      simp [pySetAdd, dictGet?, pyIndex, hab, hba, hstepB]
    have hfc : findCycles [(A, [B]), (B, [A])] = [[A, B]] := by
      unfold findCycles
      rw [show dfsFuel [(A, [B]), (B, [A])] = 5 from rfl]
      simp [hstepA]
    unfold circularDependencyCheckProject
    simp only []
    rw [hg, hfc]
    simp only [List.map_cons, List.map_nil]
    refine ⟨_, List.mem_singleton.mpr rfl, ?_, ?_⟩
    · show strIn A ("Circular dependency detected: "
        ++ ((A ++ " → ") ++ ((B ++ " → ") ++ A))) = true
      unfold strIn
      simp only [String.data_append, List.append_assoc]
      apply containsSub_append_right
      exact containsSub_prefix _ _ (isPrefixOf_append_self _ _)
    · show strIn B ("Circular dependency detected: "
        ++ ((A ++ " → ") ++ ((B ++ " → ") ++ A))) = true
      unfold strIn
      simp only [String.data_append, List.append_assoc]
      apply containsSub_append_right
      apply containsSub_append_right
      apply containsSub_append_right
      exact containsSub_prefix _ _ (isPrefixOf_append_self _ _)
  · have hstepD : dfsVisit [(A, [B]), (B, [C]), (C, [D]), (D, [])] 5 D
        ⟨[A, B, C], [A, B, C], []⟩ = ⟨[A, B, C, D], [A, B, C], []⟩ := by
      show dfsVisit [(A, [B]), (B, [C]), (C, [D]), (D, [])] (4 + 1) D
        ⟨[A, B, C], [A, B, C], []⟩ = ⟨[A, B, C, D], [A, B, C], []⟩
      rw [dfsVisit]
      simp [pySetAdd, dictGet?, pyIndex, hab, hba, hac, hca, had, hda, hbc, hcb,
        hbd, hdb, hcd, hdc]
    have hstepC : dfsVisit [(A, [B]), (B, [C]), (C, [D]), (D, [])] 6 C
        ⟨[A, B], [A, B], []⟩ = ⟨[A, B, C, D], [A, B], []⟩ := by
      show dfsVisit [(A, [B]), (B, [C]), (C, [D]), (D, [])] (5 + 1) C
        ⟨[A, B], [A, B], []⟩ = ⟨[A, B, C, D], [A, B], []⟩
      rw [dfsVisit]
      simp [pySetAdd, dictGet?, pyIndex, hab, hba, hac, hca, had, hda, hbc, hcb,
        hbd, hdb, hcd, hdc, hstepD]
    have hstepB : dfsVisit [(A, [B]), (B, [C]), (C, [D]), (D, [])] 7 B
        ⟨[A], [A], []⟩ = ⟨[A, B, C, D], [A], []⟩ := by
      show dfsVisit [(A, [B]), (B, [C]), (C, [D]), (D, [])] (6 + 1) B
        ⟨[A], [A], []⟩ = ⟨[A, B, C, D], [A], []⟩
      rw [dfsVisit]
      simp [pySetAdd, dictGet?, pyIndex, hab, hba, hac, hca, had, hda, hbc, hcb,
        hbd, hdb, hcd, hdc, hstepC]
    have hstepA : dfsVisit [(A, [B]), (B, [C]), (C, [D]), (D, [])] 8 A
        ⟨[], [], []⟩ = ⟨[A, B, C, D], [], []⟩ := by
      show dfsVisit [(A, [B]), (B, [C]), (C, [D]), (D, [])] (7 + 1) A
        ⟨[], [], []⟩ = ⟨[A, B, C, D], [], []⟩
      rw [dfsVisit]
      simp [pySetAdd, dictGet?, pyIndex, hab, hba, hac, hca, had, hda, hbc, hcb,
        hbd, hdb, hcd, hdc, hstepB]
    have hfc : findCycles [(A, [B]), (B, [C]), (C, [D]), (D, [])] = [] := by
      unfold findCycles
      rw [show dfsFuel [(A, [B]), (B, [C]), (C, [D]), (D, [])] = 8 from rfl]
      simp [hstepA, hab, hac, had, hbc, hbd, hcd]
    unfold circularDependencyCheckProject
    simp only []
    rw [hl, hfc]
    rfl

/-- Witness: the cycle and chain guarantees evaluated at concrete two- and
four-file changesets. -/
theorem c5_circular_dependencies_witness :
    (∃ f ∈ circularDependencyCheckProject
        [("a.py", "import b"), ("b.py", "import a")],
      strIn "a" f.message = true ∧ strIn "b" f.message = true)
    ∧ circularDependencyCheckProject
        [("a.py", "import b"), ("b.py", "import c"),
         ("c.py", "import d"), ("d.py", "x = 1")]
      = [] := by
  exact c5_circular_dependencies _ _ "a" "b" "c" "d" (by decide) (by decide)
    (by decide) (by decide) (by decide) (by decide) (by decide) (by decide)

end QC
